import Mathlib

/-!
# EEGFrontier firmware: codecs, framing and transmit ring

A shallow embedding of the byte codecs (`fw_utils.cpp`), of the packet framer
(`fw_protocol.cpp`) and of the transmit ring (`fw_tx.cpp`) of the EEGFrontier
firmware, with the properties the specification states about them.

Bytes are natural numbers and a byte sequence is a `List Nat`; where the value
range matters a statement assumes `b < 256` for the bytes involved.  Unsigned
32-bit counters are natural numbers reduced modulo `2 ^ 32` at every update.
-/

namespace EEGFrontier

/-! ## COBS encoder (`cobsEncode`, fw_utils.cpp) -/

/-- Loop state of `cobsEncode`.  `out` holds the bytes of the output buffer
from `outStart` up to the write pointer `output` (so `output - outStart` is
`out.length`), `codePtr` is the offset of the pending code byte from
`outStart`, and `code` is the `uint8_t` run counter. -/
structure CobsState where
  out : List Nat
  codePtr : Nat
  code : Nat
deriving DecidableEq

/-- State before the loop: `codePtr = output++` reserves the first slot and
`code = 1`.  A reserved slot that has not been written yet is modelled as
holding `0`, the one value the encoded packet must not contain. -/
def cobsStart : CobsState := { out := [0], codePtr := 0, code := 1 }

/-- One iteration of the `for` loop of `cobsEncode` on the input byte `b`. -/
def cobsStep (s : CobsState) (b : Nat) : CobsState :=
  if b = 0 then
    -- *codePtr = code; codePtr = output++; code = 1;
    { out := s.out.set s.codePtr s.code ++ [0], codePtr := s.out.length, code := 1 }
  else
    -- *output++ = input[i]; code++;
    let out1 := s.out ++ [b]
    let code1 := (s.code + 1) % 256
    if code1 = 0xFF then
      -- *codePtr = code; codePtr = output++; code = 1;
      { out := out1.set s.codePtr code1 ++ [0], codePtr := out1.length, code := 1 }
    else
      { out := out1, codePtr := s.codePtr, code := code1 }

/-- After the loop: `*codePtr = code`; the result is the buffer contents over
the returned length `output - outStart`. -/
def cobsFinish (s : CobsState) : List Nat := s.out.set s.codePtr s.code

/-- The function `cobsEncode(input, length, output)`: the bytes it leaves in
`output[0 .. n)`, where `n` is the length it returns. -/
def cobsEncode (input : List Nat) : List Nat :=
  cobsFinish (input.foldl cobsStep cobsStart)

/-- Modelled from the spec: the decoder `decode` of the round-trip property
`decode(encode(x)) = x`; the repository holds only the encoder.  This is the
standard COBS decoding loop: `prev` is the previous code byte (`0xFF` before
the first one), `block` counts the data bytes still to copy from the current
block.  At a code byte `c`: a zero code ends the packet; otherwise a zero is
emitted unless the previous block was a full one (`prev = 0xFF`), and `c - 1`
data bytes follow. -/
def cobsDecodeGo : Nat → Nat → List Nat → List Nat
  | _, _, [] => []
  | prev, 0, c :: rest =>
      if c = 0 then []
      else (if prev ≠ 0xFF then [0] else []) ++ cobsDecodeGo c (c - 1) rest
  | prev, block + 1, b :: rest => b :: cobsDecodeGo prev block rest

/-- Modelled from the spec: the standard COBS decoder, started with
`code = 0xFF` and `block = 0`. -/
def cobsDecode (enc : List Nat) : List Nat := cobsDecodeGo 0xFF 0 enc

/-- Functional reading of the encoder, used in the proofs only: `run` is the
current run of non-zero bytes that still waits for its code byte. -/
def cobsRuns : List Nat → List Nat → List Nat
  | run, [] => (run.length + 1) :: run
  | run, b :: rest =>
      if b = 0 then (run.length + 1) :: run ++ cobsRuns [] rest
      else if run.length + 2 = 0xFF then 0xFF :: (run ++ [b]) ++ cobsRuns [] rest
      else cobsRuns (run ++ [b]) rest

/-! ## CRC-16 (`crc16_ccitt`, fw_utils.cpp) -/

/-- Body of the inner loop of `crc16_ccitt` on the `uint16_t` register:
`if (crc & 0x8000) crc = (crc << 1) ^ 0x1021; else crc = crc << 1;`, each
result cast back to `uint16_t`. -/
def crcShift (crc : Nat) : Nat :=
  if crc &&& 0x8000 ≠ 0 then ((crc <<< 1) ^^^ 0x1021) % 0x10000 else (crc <<< 1) % 0x10000

/-- Body of the outer loop of `crc16_ccitt`: `crc ^= data[i] << 8` followed
by eight passes of the inner loop. -/
def crcOuter (crc b : Nat) : Nat :=
  Nat.iterate crcShift 8 ((crc ^^^ (b <<< 8)) % 0x10000)

/-- The function `crc16_ccitt(data, len)`: the register starts at `0xFFFF`. -/
def crc16_ccitt (data : List Nat) : Nat := data.foldl crcOuter 0xFFFF

/-- Parameters of a CRC algorithm in the usual catalogue form: register
width, generator polynomial (without its top bit), initial register value,
whether input bytes and the final register are bit-reflected, and the final
XOR value. -/
structure CrcModel where
  width : Nat
  poly : Nat
  init : Nat
  refin : Bool
  refout : Bool
  xorout : Nat
deriving DecidableEq

/-- Reverse the low `n` bits of `v`. -/
def reflectBits (n v : Nat) : Nat :=
  (List.range n).foldl (fun acc i => if v.testBit i then acc ||| (1 <<< (n - 1 - i)) else acc) 0

/-- Reference CRC, one message bit: the bit is compared with the top bit of
the register, the register is shifted left by one place, and the generator
polynomial is subtracted (XOR) when the two bits differ. -/
def crcRefBit (m : CrcModel) (reg : Nat) (bit : Bool) : Nat :=
  let reg1 := (reg <<< 1) % 2 ^ m.width
  if (reg.testBit (m.width - 1) != bit) then reg1 ^^^ m.poly else reg1

/-- Reference CRC, one message byte: its eight bits are fed one at a time,
most significant bit first (after reflecting the byte when `refin`). -/
def crcRefByte (m : CrcModel) (reg byte : Nat) : Nat :=
  let v := if m.refin then reflectBits 8 byte else byte
  [7, 6, 5, 4, 3, 2, 1, 0].foldl (fun r i => crcRefBit m r (v.testBit i)) reg

/-- Reference CRC of a message under the parameters `m`, written from the
words of the specification (polynomial, initial value, reflection, final
XOR, bit order) and independent of the firmware loop. -/
def crcRef (m : CrcModel) (data : List Nat) : Nat :=
  let r := data.foldl (crcRefByte m) m.init
  (if m.refout then reflectBits m.width r else r) ^^^ m.xorout

/-- CRC-16/CCITT-FALSE: polynomial `0x1021`, initial value `0xFFFF`, no
reflection, no final XOR. -/
def CRC16_CCITT_FALSE : CrcModel :=
  { width := 16, poly := 0x1021, init := 0xFFFF, refin := false, refout := false, xorout := 0 }

/-- The nine ASCII bytes of "123456789", the standard CRC check message. -/
def crcCheckMessage : List Nat := [0x31, 0x32, 0x33, 0x34, 0x35, 0x36, 0x37, 0x38, 0x39]

/-! ## Transmit ring (fw_tx.cpp) -/

/-- Capacity of the ring, `TX_RING_SIZE`. -/
def TX_RING_SIZE : Nat := 8192

/-- The file-scope state of fw_tx.cpp (`s_txRing`, `s_head`, `s_tail`,
`s_count`) together with the transmit diagnostics of fw_state.cpp that the
ring and the framer update. -/
structure TxState where
  s_txRing : List Nat
  s_head : Nat
  s_tail : Nat
  s_count : Nat
  g_txBytesDroppedTotal : Nat
  g_txPacketsDroppedTotal : Nat
  g_pendingTxOverflowFlag : Bool
  g_txMaxQueuedBytes : Nat
deriving DecidableEq

/-- State at boot: statics are zero-initialised and the diagnostics start at
the values given in fw_state.cpp. -/
def txBoot : TxState :=
  { s_txRing := List.replicate 8192 0, s_head := 0, s_tail := 0, s_count := 0,
    g_txBytesDroppedTotal := 0, g_txPacketsDroppedTotal := 0,
    g_pendingTxOverflowFlag := false, g_txMaxQueuedBytes := 0 }

/-- The helper `contiguousReadable()`. -/
def contiguousReadable (s : TxState) : Nat :=
  if s.s_count = 0 then 0
  else if s.s_tail < s.s_head then s.s_head - s.s_tail
  else TX_RING_SIZE - s.s_tail

/-- The helper `noteDrop(bytes)`; both counters are `uint32_t`. -/
def noteDrop (s : TxState) (bytes : Nat) : TxState :=
  { s with
    g_txBytesDroppedTotal := (s.g_txBytesDroppedTotal + bytes % 2 ^ 32) % 2 ^ 32
    g_txPacketsDroppedTotal := (s.g_txPacketsDroppedTotal + 1) % 2 ^ 32
    g_pendingTxOverflowFlag := true }

/-- The function `txInit()`: resets the indices, not the storage. -/
def txInit (s : TxState) : TxState := { s with s_head := 0, s_tail := 0, s_count := 0 }

/-- The function `txQueuedBytes()`. -/
def txQueuedBytes (s : TxState) : Nat := s.s_count

/-- The function `txFreeBytes()`, `TX_RING_SIZE - s_count`.  The unsigned
subtraction does not wrap as long as `s_count ≤ TX_RING_SIZE`. -/
def txFreeBytes (s : TxState) : Nat := TX_RING_SIZE - s.s_count

/-- The call `memcpy(&dst[off], src, src.length)`, byte by byte. -/
def memcpy : List Nat → Nat → List Nat → List Nat
  | dst, _, [] => dst
  | dst, off, b :: rest => memcpy (dst.set off b) (off + 1) rest

/-- The two `memcpy` calls of `txWriteBytes`: the first chunk goes to
`s_txRing[head ..]`, what is left wraps to `s_txRing[0 ..]`. -/
def txStore (ring : List Nat) (head : Nat) (data : List Nat) : List Nat :=
  let firstChunk := min data.length (TX_RING_SIZE - head)
  let ring1 := memcpy ring head (data.take firstChunk)
  if data.length > firstChunk then memcpy ring1 0 (data.drop firstChunk) else ring1

/-- The function `txWriteBytes(data, len)`.  `none` is the null pointer;
`some d` is a buffer holding the `len = d.length` bytes `d`.  The result is
the returned flag and the state after the call. -/
def txWriteBytes (s : TxState) (data : Option (List Nat)) : Bool × TxState :=
  match data with
  | none => (true, s)
  | some d =>
    if d.length = 0 then (true, s)
    else if d.length > txFreeBytes s then (false, noteDrop s d.length)
    else
      let count1 := s.s_count + d.length
      (true,
        { s with
          s_txRing := txStore s.s_txRing s.s_head d
          s_head := (s.s_head + d.length) % TX_RING_SIZE
          s_count := count1
          g_txMaxQueuedBytes :=
            if count1 > s.g_txMaxQueuedBytes then count1 % 2 ^ 32 else s.g_txMaxQueuedBytes })

/-- The function `txWriteByte(b)`. -/
def txWriteByte (s : TxState) (b : Nat) : Bool × TxState := txWriteBytes s (some [b])

/-- The function `txService()`.  The serial peripheral is an input of the
model: `available` is what `Serial.availableForWrite()` returns and `accept`
bounds what `Serial.write` takes, so that `Serial.write(&s_txRing[s_tail],
chunk)` returns `min accept chunk`.  The result is the state after the call
and the bytes the peripheral accepted. -/
def txService (s : TxState) (available : Int) (accept : Nat) : TxState × List Nat :=
  if s.s_count = 0 then (s, [])
  else if available ≤ 0 then (s, [])
  else
    let chunk := min available.toNat (contiguousReadable s)
    if chunk = 0 then (s, [])
    else
      let written := min accept chunk
      if written = 0 then (s, [])
      else
        ({ s with s_tail := (s.s_tail + written) % TX_RING_SIZE, s_count := s.s_count - written },
          ((s.s_txRing.drop s.s_tail).take chunk).take written)

/-- Byte stored at ring position `i`. -/
def ringAt (ring : List Nat) (i : Nat) : Nat := (ring[i]?).getD 0

/-- The queued content of the ring in read order: the `s_count` bytes at
positions `s_tail, s_tail + 1, ...` modulo the capacity. -/
def txQueued (s : TxState) : List Nat :=
  (List.range s.s_count).map (fun i => ringAt s.s_txRing ((s.s_tail + i) % TX_RING_SIZE))

/-- Consistency of a ring state: the storage has the capacity of the ring,
`s_tail` is an index into it, at most `TX_RING_SIZE` bytes are queued, and
`s_head` lies `s_count` places after `s_tail`. -/
def TxInv (s : TxState) : Prop :=
  s.s_txRing.length = TX_RING_SIZE ∧ s.s_tail < TX_RING_SIZE ∧ s.s_count ≤ TX_RING_SIZE ∧
    s.s_head = (s.s_tail + s.s_count) % TX_RING_SIZE

instance (s : TxState) : Decidable (TxInv s) := by unfold TxInv; infer_instance

/-! ## Framer admission (`emitBinaryRawPacket`, fw_protocol.cpp) -/

/-- Size of the stack buffer `uint8_t enc[96]` into which
`emitBinaryRawPacket` encodes. -/
def ENC_SIZE : Nat := 96

/-- The function `emitBinaryRawPacket(raw, rawLen)` for raw packets whose
encoding fits the stack buffer `enc[ENC_SIZE]`, which are those of up to 95
bytes (`cobsEncode_fits_enc`); the firmware builds raw packets of 13, 17 and
44 bytes.  For a longer raw packet the source stores past the end of `enc`,
which C leaves undefined; the definition does not stand for the function
there, and what is proved of the function carries the bound. -/
def emitBinaryRawPacket (s : TxState) (raw : List Nat) : Bool × TxState :=
  let enc := cobsEncode raw
  let encLen := enc.length
  if txFreeBytes s < encLen + 1 then
    (false,
      { s with
        g_txBytesDroppedTotal := (s.g_txBytesDroppedTotal + (encLen + 1) % 2 ^ 32) % 2 ^ 32
        g_txPacketsDroppedTotal := (s.g_txPacketsDroppedTotal + 1) % 2 ^ 32
        g_pendingTxOverflowFlag := true })
  else
    let okData := txWriteBytes s (some enc)
    let okTerm := txWriteByte okData.2 0x00
    (okData.1 && okTerm.1, okTerm.2)

/-! ## Interleavings of ring operations -/

/-- One call on the ring: `txWriteBytes(data, len)` or `txService()` with the
answers of the serial peripheral. -/
inductive TxOp where
  | write (data : Option (List Nat))
  | service (available : Int) (accept : Nat)

/-- A ring state together with the history of the run: `written` is the
concatenation of the data of all calls of `txWriteBytes` that returned true,
`wire` the concatenation of the bytes the serial peripheral accepted. -/
structure TxTrace where
  state : TxState
  written : List Nat
  wire : List Nat

/-- Run one call and record it in the history. -/
def txRunOp (t : TxTrace) : TxOp → TxTrace
  | .write data =>
      let r := txWriteBytes t.state data
      { state := r.2, written := if r.1 then t.written ++ data.getD [] else t.written,
        wire := t.wire }
  | .service available accept =>
      let r := txService t.state available accept
      { state := r.1, written := t.written, wire := t.wire ++ r.2 }

/-- Run a sequence of calls, starting with `txInit()` on the state `s0`. -/
def txRun (s0 : TxState) (ops : List TxOp) : TxTrace :=
  ops.foldl txRunOp { state := txInit s0, written := [], wire := [] }

/-! ## Little-endian packers and sign extension (fw_utils.cpp) -/

/-- The cast `static_cast<uint32_t>(v)` of a signed value. -/
def toU32 (v : Int) : Nat := (v % 4294967296).toNat

/-- The cast `static_cast<int32_t>(v)`: the value is reduced into
`[-2^31, 2^31)` modulo `2^32` (two's complement). -/
def toI32 (v : Int) : Int := (v + 2147483648) % 4294967296 - 2147483648

/-- The function `pack_u16_le(p, v)`: the two bytes written to `p[0], p[1]`. -/
def pack_u16_le (v : Nat) : List Nat :=
  [(v &&& 0xFF) % 256, ((v >>> 8) &&& 0xFF) % 256]

/-- The function `pack_u32_le(p, v)`: the four bytes written to `p[0..3]`. -/
def pack_u32_le (v : Nat) : List Nat :=
  [(v &&& 0xFF) % 256, ((v >>> 8) &&& 0xFF) % 256, ((v >>> 16) &&& 0xFF) % 256,
    ((v >>> 24) &&& 0xFF) % 256]

/-- The function `pack_i32_le(p, v)`. -/
def pack_i32_le (v : Int) : List Nat := pack_u32_le (toU32 v)

/-- The function `signExtend24(x)`. -/
def signExtend24 (x : Nat) : Int :=
  toI32 ((if x &&& 0x00800000 ≠ 0 then x ||| 0xFF000000 else x : Nat) : Int)

/-- The `n` little-endian bytes of `v`, least significant first. -/
def leBytes : Nat → Nat → List Nat
  | 0, _ => []
  | n + 1, v => v % 256 :: leBytes n (v / 256)

/-- Little-endian value of a byte sequence. -/
def leValue : List Nat → Nat
  | [] => 0
  | b :: rest => b + 256 * leValue rest

/-! ## Protocol constants (fw_config.h) -/

def PKT_SAMPLE : Nat := 0x01
def PKT_EVENT : Nat := 0x02
def PKT_ERROR : Nat := 0x7F
def PROTO_VER : Nat := 0x01

def FLAG_STREAMING : Nat := 1 <<< 0
def FLAG_RECOVERED : Nat := 1 <<< 1
def FLAG_BTN_TOGGLED : Nat := 1 <<< 2
def FLAG_DRDY_MISSED : Nat := 1 <<< 3
def FLAG_STATUS_INVALID : Nat := 1 <<< 4
def FLAG_ADS_LOFF_ANY : Nat := 1 <<< 5
def FLAG_TX_OVERFLOW : Nat := 1 <<< 6

def ADS_STATUS_HEADER_MASK : Nat := 0xF00000
def ADS_STATUS_HEADER_OK : Nat := 0xC00000

def ADS_VREF_UV : Nat := 4500000
def ADS_DEFAULT_GAIN : Nat := 24
def ADS_DEFAULT_SPS : Nat := 250
def ADS_DRDY_PERIOD_US : Nat := 1000000 / ADS_DEFAULT_SPS

/-- The enumeration `OutputMode`. -/
inductive OutputMode where
  | MODE_BIN
  | MODE_CSV
deriving DecidableEq

/-! ## Raw packets (fw_protocol.cpp) -/

/-- The raw buffer `raw[0 .. idx)` that `emitEventPacket` hands to
`emitBinaryRawPacket`; `eventCode` is a `uint8_t`. -/
def eventRaw (eventCode a b c : Nat) : List Nat :=
  let body := [PKT_EVENT, PROTO_VER, eventCode] ++ pack_u32_le a ++ pack_u32_le b ++ pack_u32_le c
  body ++ pack_u16_le (crc16_ccitt body)

/-- The raw buffer `raw[0 .. idx)` that `emitErrorPacket` hands to
`emitBinaryRawPacket`; `errorCode` is a `uint8_t`. -/
def errorRaw (errorCode a b : Nat) : List Nat :=
  let body := [PKT_ERROR, PROTO_VER, errorCode] ++ pack_u32_le a ++ pack_u32_le b
  body ++ pack_u16_le (crc16_ccitt body)

/-- The 44 byte values that the statements of `emitSamplePacket` store at
`raw[0]` .. `raw[43]`, in the order of their offsets; `sampleIndex` is the
value of `g_sampleIndex` before the increment.  The array `raw` of the source
is declared with `SAMPLE_RAW_DECLARED` = 40 bytes: the last four values (the
upper half of `recoveriesTotal` and the CRC) are stored past its end.
`sampleRawChecked` runs the same stores with the bounds of the array
enforced. -/
def sampleRaw (sampleIndex t_us status24 : Nat) (ch1 ch2 ch3 ch4 : Int)
    (flags missedDrdyFrame recoveriesTotal : Nat) : List Nat :=
  let body := [PKT_SAMPLE, PROTO_VER] ++ pack_u32_le sampleIndex ++ pack_u32_le t_us ++
    pack_u32_le status24 ++ pack_i32_le ch1 ++ pack_i32_le ch2 ++ pack_i32_le ch3 ++
    pack_i32_le ch4 ++ pack_u32_le flags ++ pack_u32_le missedDrdyFrame ++
    pack_u32_le recoveriesTotal
  body ++ pack_u16_le (crc16_ccitt body)

/-- Size of the stack buffer that `emitSamplePacket` declares for the raw
packet, `uint8_t raw[2 + (4 * 9) + 2]`. -/
def SAMPLE_RAW_DECLARED : Nat := 2 + (4 * 9) + 2

/-- The function `emitEventPacket(eventCode, a, b, c)`. -/
def emitEventPacket (s : TxState) (eventCode a b c : Nat) : Bool × TxState :=
  emitBinaryRawPacket s (eventRaw eventCode a b c)

/-- The function `emitErrorPacket(errorCode, a, b)`. -/
def emitErrorPacket (s : TxState) (errorCode a b : Nat) : Bool × TxState :=
  emitBinaryRawPacket s (errorRaw errorCode a b)

/-! ## DRDY timing block (fw_state.cpp, fw_commands.cpp) -/

/-- The `volatile` globals shared between the DRDY interrupt handler and the
main loop.  The sums are `uint64_t`, the other counters `uint32_t`. -/
structure DrdyBlock where
  g_drdyFlag : Bool
  g_missedDrdyTotal : Nat
  g_missedDrdyFrame : Nat
  g_drdyEdgesTotal : Nat
  g_lastDrdyTimestampUs : Nat
  g_prevDrdyTimestampUs : Nat
  g_drdyIntervalLastUs : Nat
  g_drdyIntervalMinUs : Nat
  g_drdyIntervalMaxUs : Nat
  g_drdyJitterAbsLastUs : Nat
  g_drdyJitterAbsMinUs : Nat
  g_drdyJitterAbsMaxUs : Nat
  g_drdyIntervalCount : Nat
  g_drdyIntervalSumUs : Nat
  g_drdyJitterAbsSumUs : Nat
deriving DecidableEq

/-- Initial values of the block in fw_state.cpp. -/
def drdyBoot : DrdyBlock :=
  { g_drdyFlag := false, g_missedDrdyTotal := 0, g_missedDrdyFrame := 0, g_drdyEdgesTotal := 0,
    g_lastDrdyTimestampUs := 0, g_prevDrdyTimestampUs := 0, g_drdyIntervalLastUs := 0,
    g_drdyIntervalMinUs := 0xFFFFFFFF, g_drdyIntervalMaxUs := 0, g_drdyJitterAbsLastUs := 0,
    g_drdyJitterAbsMinUs := 0xFFFFFFFF, g_drdyJitterAbsMaxUs := 0, g_drdyIntervalCount := 0,
    g_drdyIntervalSumUs := 0, g_drdyJitterAbsSumUs := 0 }

/-- The struct `DrdyFrameSnapshot`. -/
structure DrdyFrameSnapshot where
  ready : Bool
  drdyTimestampUs : Nat
  drdyIntervalUs : Nat
  missedDrdyFrame : Nat
  missedDrdyTotal : Nat
  drdyEdgesTotal : Nat
deriving DecidableEq

/-- The helper `u32AbsDiff(a, b)`. -/
def u32AbsDiff (a b : Nat) : Nat := if a ≥ b then a - b else b - a

/-- The expression `static_cast<uint32_t>(a - b)` on `uint32_t` operands. -/
def u32Sub (a b : Nat) : Nat := (((a : Int) - (b : Int)) % 4294967296).toNat

/-- The interrupt handler `onDrdyFalling()`.  `g_sampleRateSps` is the global
it reads and `nowUs` the value `micros()` returns. -/
def onDrdyFalling (d : DrdyBlock) (g_sampleRateSps : Nat) (nowUs : Nat) : DrdyBlock :=
  let d1 := { d with
    g_drdyEdgesTotal := (d.g_drdyEdgesTotal + 1) % 2 ^ 32
    g_lastDrdyTimestampUs := nowUs }
  let d2 :=
    if d1.g_prevDrdyTimestampUs ≠ 0 then
      let dt := u32Sub nowUs d1.g_prevDrdyTimestampUs
      let expectedUs :=
        if g_sampleRateSps > 0 then 1000000 / g_sampleRateSps else ADS_DRDY_PERIOD_US
      let jitterAbs := u32AbsDiff dt expectedUs
      { d1 with
        g_drdyIntervalLastUs := dt
        g_drdyIntervalMinUs := if dt < d1.g_drdyIntervalMinUs then dt else d1.g_drdyIntervalMinUs
        g_drdyIntervalMaxUs := if dt > d1.g_drdyIntervalMaxUs then dt else d1.g_drdyIntervalMaxUs
        g_drdyIntervalCount := (d1.g_drdyIntervalCount + 1) % 2 ^ 32
        g_drdyIntervalSumUs := (d1.g_drdyIntervalSumUs + dt) % 2 ^ 64
        g_drdyJitterAbsLastUs := jitterAbs
        g_drdyJitterAbsMinUs :=
          if jitterAbs < d1.g_drdyJitterAbsMinUs then jitterAbs else d1.g_drdyJitterAbsMinUs
        g_drdyJitterAbsMaxUs :=
          if jitterAbs > d1.g_drdyJitterAbsMaxUs then jitterAbs else d1.g_drdyJitterAbsMaxUs
        g_drdyJitterAbsSumUs := (d1.g_drdyJitterAbsSumUs + jitterAbs) % 2 ^ 64 }
    else d1
  let d3 := { d2 with g_prevDrdyTimestampUs := nowUs }
  if d3.g_drdyFlag then
    { d3 with
      g_missedDrdyTotal := (d3.g_missedDrdyTotal + 1) % 2 ^ 32
      g_missedDrdyFrame := (d3.g_missedDrdyFrame + 1) % 2 ^ 32 }
  else
    { d3 with g_drdyFlag := true }

/-- A burst of DRDY edges at the times `nows`, with no access of the main
loop to the block in between. -/
def drdyEdges (d : DrdyBlock) (g_sampleRateSps : Nat) (nows : List Nat) : DrdyBlock :=
  nows.foldl (fun acc nowUs => onDrdyFalling acc g_sampleRateSps nowUs) d

/-- The function `capturePendingDrdySnapshot(out)`.  `none` is the null
pointer, `some o` the snapshot `*out` before the call; the result is the
returned flag, `*out` after the call and the block after the call. -/
def capturePendingDrdySnapshot (d : DrdyBlock) (out : Option DrdyFrameSnapshot) :
    Bool × Option DrdyFrameSnapshot × DrdyBlock :=
  match out with
  | none => (false, none, d)
  | some o =>
    if d.g_drdyFlag = false then
      (false, some { o with ready := false }, d)
    else
      (true,
        some { ready := true
               drdyTimestampUs := d.g_lastDrdyTimestampUs
               drdyIntervalUs := d.g_drdyIntervalLastUs
               missedDrdyFrame := d.g_missedDrdyFrame
               missedDrdyTotal := d.g_missedDrdyTotal
               drdyEdgesTotal := d.g_drdyEdgesTotal },
        { d with g_drdyFlag := false, g_missedDrdyFrame := 0 })

/-! ## Firmware state and sample pipeline (fw_state.cpp, ads1299_driver.cpp) -/

/-- A line the firmware prints to the serial port directly, outside the
transmit ring: a CSV row (its numeric fields in print order), the text
`# ERR FRAME_READ_FAIL`, and the lines of the driver: `# ADS_INIT_OK
attempt=<n>`, `# ERR ADS_INIT_FAIL`, the CSV header row, `# STREAM_ON`,
`# WARN CSV_DEBUG_ONLY`, `# STREAM_OFF`, `# WARN DRDY_TIMEOUT_RECOVER` and
`# SELFTEST good_frames=<g> status_bad=<b> result=PASS|FAIL`.  The replies of
the command handler are `text` with the literal line, `report` for a
multi-line report named by its command (the values it prints are not part of
the model), and `# ERR UNKNOWN_CMD <cmd>`. -/
inductive SerialLine where
  | csvRow (fields : List Int)
  | errFrameReadFail
  | adsInitOk (attempt : Nat)
  | errAdsInitFail
  | csvHeader
  | streamOn
  | warnCsvDebugOnly
  | streamOff
  | warnDrdyTimeoutRecover
  | selfTest (goodFrames statusBad : Nat) (pass : Bool)
  | text (line : String)
  | report (name : String)
  | errUnknownCmd (cmd : List Nat)
deriving DecidableEq

/-- The globals of fw_state.cpp used by the sample pipeline, with the
transmit ring state, the DRDY timing block and the serial output so far. -/
structure FwState where
  tx : TxState
  drdy : DrdyBlock
  serialOut : List SerialLine
  g_outputMode : OutputMode
  g_streaming : Bool
  g_adsReady : Bool
  g_pendingRecoveredFlag : Bool
  g_pendingBtnFlag : Bool
  g_sampleIndex : Nat
  g_recoveriesTotal : Nat
  g_lastGoodFrameUs : Nat
  g_lastButtonToggleMs : Nat
  g_lastSampleProcessUs : Nat
  g_lastDrdyToProcessLatencyUs : Nat
  g_lastBtnState : Bool
  g_rawFrame : List Nat
  g_sampleRateSps : Nat
  g_adsGain : Nat
  g_adsVrefUv : Nat
  g_internalTestSignalEnabled : Bool
  g_leadOffDiagEnabled : Bool
  g_lastLeadOffStatP : Nat
  g_lastLeadOffStatN : Nat
  g_lastStatus24 : Nat
  g_statusInvalidTotal : Nat
  g_leadOffAnyTotal : Nat
deriving DecidableEq

/-- Initial values of the globals in fw_state.cpp (`g_lastBtnState = HIGH`). -/
def fwBoot : FwState :=
  { tx := txBoot, drdy := drdyBoot, serialOut := [], g_outputMode := OutputMode.MODE_BIN,
    g_streaming := false, g_adsReady := false, g_pendingRecoveredFlag := false,
    g_pendingBtnFlag := false, g_sampleIndex := 0, g_recoveriesTotal := 0,
    g_lastGoodFrameUs := 0, g_lastButtonToggleMs := 0, g_lastSampleProcessUs := 0,
    g_lastDrdyToProcessLatencyUs := 0, g_lastBtnState := true,
    g_rawFrame := List.replicate 15 0, g_sampleRateSps := ADS_DEFAULT_SPS,
    g_adsGain := ADS_DEFAULT_GAIN, g_adsVrefUv := ADS_VREF_UV,
    g_internalTestSignalEnabled := false, g_leadOffDiagEnabled := false,
    g_lastLeadOffStatP := 0, g_lastLeadOffStatN := 0, g_lastStatus24 := 0,
    g_statusInvalidTotal := 0, g_leadOffAnyTotal := 0 }

/-- The function `emitSamplePacket(...)` in the execution in which the four
bytes stored past the end of `raw` are kept and read back, as in a build that
does not check the stack: the raw packet carries `g_sampleIndex++`, then goes
to `emitBinaryRawPacket`.  C leaves a call that stores past the end of an
array undefined, and every call of this function does; `emitSamplePacketChecked`
is the function with the bounds of `raw` enforced. -/
def emitSamplePacket (s : FwState) (t_us status24 : Nat) (ch1 ch2 ch3 ch4 : Int)
    (flags missedDrdyFrame recoveriesTotal : Nat) : Bool × FwState :=
  let raw := sampleRaw s.g_sampleIndex t_us status24 ch1 ch2 ch3 ch4 flags missedDrdyFrame
    recoveriesTotal
  let s1 := { s with g_sampleIndex := (s.g_sampleIndex + 1) % 2 ^ 32 }
  let r := emitBinaryRawPacket s1.tx raw
  (r.1, { s1 with tx := r.2 })

/-- The function `emitCsvFrame(...)`: one row printed to the serial port,
starting with `g_sampleIndex++`. -/
def emitCsvFrame (s : FwState) (drdy_t_us proc_t_us drdy_interval_us status24 : Nat)
    (ch1 ch2 ch3 ch4 ch1_uv ch2_uv ch3_uv ch4_uv : Int)
    (flags missedDrdyFrame missedDrdyTotal recoveriesTotal : Nat) : FwState :=
  { s with
    g_sampleIndex := (s.g_sampleIndex + 1) % 2 ^ 32
    serialOut := s.serialOut ++ [SerialLine.csvRow
      [s.g_sampleIndex, drdy_t_us, proc_t_us, drdy_interval_us, status24, ch1, ch2, ch3, ch4,
        ch1_uv, ch2_uv, ch3_uv, ch4_uv, flags, missedDrdyFrame, missedDrdyTotal,
        recoveriesTotal]] }

/-- The function `adsCountsToMicrovolts(counts)`, in 64-bit signed
arithmetic with C division (truncation toward zero). -/
def adsCountsToMicrovolts (s : FwState) (counts : Int) : Int :=
  if s.g_adsGain = 0 then 0
  else
    let numerator : Int := counts * (s.g_adsVrefUv : Int)
    let denominator : Int := (s.g_adsGain : Int) * 8388607
    toI32 (Int.tdiv numerator denominator)

/-- The helper `statusLeadOffP(status24)`. -/
def statusLeadOffP (status24 : Nat) : Nat := (status24 >>> 8) &&& 0xFF

/-- The helper `statusLeadOffN(status24)`. -/
def statusLeadOffN (status24 : Nat) : Nat := status24 &&& 0xFF

/-- The helper `statusHeaderValid(status24)`. -/
def statusHeaderValid (status24 : Nat) : Bool :=
  decide (status24 &&& ADS_STATUS_HEADER_MASK = ADS_STATUS_HEADER_OK)

/-- Byte `frame[i]` of a 15-byte frame buffer. -/
def frameByte (frame : List Nat) (i : Nat) : Nat := (frame[i]?).getD 0

/-- The 24-bit big-endian word at `frame[i], frame[i+1], frame[i+2]`. -/
def frameWord24 (frame : List Nat) (i : Nat) : Nat :=
  (frameByte frame i <<< 16) ||| (frameByte frame (i + 1) <<< 8) ||| frameByte frame (i + 2)

/-- The call `adsReadDataFrame15(g_rawFrame)`: fifteen SPI transfers, whose
answers are `spi`, fill `g_rawFrame`.  The argument is the address of a
static array, so the null check of the source cannot fire and the call
returns true. -/
def adsReadDataFrame15 (s : FwState) (spi : List Nat) : Bool × FwState :=
  (true, { s with g_rawFrame := (List.range 15).map (fun i => frameByte spi i) })

/-- The locals of `handleOneSampleFrame` that are live at the emission. -/
structure SampleLocals where
  snap : DrdyFrameSnapshot
  status24 : Nat
  ch1 : Int
  ch2 : Int
  ch3 : Int
  ch4 : Int
  flags : Nat
  procUs : Nat
  sampleTimestampUs : Nat
deriving DecidableEq

/-- Middle part of `handleOneSampleFrame`, from the parsing of the status
word to the latency bookkeeping; `procUs` is what `micros()` returns. -/
def sampleFrameParse (s : FwState) (snap : DrdyFrameSnapshot) (procUs : Nat) :
    SampleLocals × FwState :=
  let status24 := frameWord24 s.g_rawFrame 0
  -- parseChannelsFromFrame
  let ch1 := signExtend24 (frameWord24 s.g_rawFrame 3)
  let ch2 := signExtend24 (frameWord24 s.g_rawFrame 6)
  let ch3 := signExtend24 (frameWord24 s.g_rawFrame 9)
  let ch4 := signExtend24 (frameWord24 s.g_rawFrame 12)
  let flags := 0
  let flags := if s.g_streaming then flags ||| FLAG_STREAMING else flags
  let flags := if s.g_pendingRecoveredFlag then flags ||| FLAG_RECOVERED else flags
  let flags := if s.g_pendingBtnFlag then flags ||| FLAG_BTN_TOGGLED else flags
  let flags := if snap.missedDrdyFrame > 0 then flags ||| FLAG_DRDY_MISSED else flags
  let flags := if s.tx.g_pendingTxOverflowFlag then flags ||| FLAG_TX_OVERFLOW else flags
  let headerOk := statusHeaderValid status24
  let loffP := statusLeadOffP status24 % 256
  let loffN := statusLeadOffN status24 % 256
  let loffAny := decide ((loffP ||| loffN) ≠ 0)
  let s1 := { s with g_lastStatus24 := status24, g_lastLeadOffStatP := loffP,
                     g_lastLeadOffStatN := loffN }
  let flags := if headerOk = false then flags ||| FLAG_STATUS_INVALID else flags
  let s2 := if headerOk = false then
      { s1 with g_statusInvalidTotal := (s1.g_statusInvalidTotal + 1) % 2 ^ 32 } else s1
  let flags := if loffAny then flags ||| FLAG_ADS_LOFF_ANY else flags
  let s3 := if loffAny then
      { s2 with g_leadOffAnyTotal := (s2.g_leadOffAnyTotal + 1) % 2 ^ 32 } else s2
  let sampleTimestampUs := if snap.drdyTimestampUs ≠ 0 then snap.drdyTimestampUs else procUs
  let s4 := { s3 with g_lastGoodFrameUs := procUs, g_lastSampleProcessUs := procUs,
                      g_lastDrdyToProcessLatencyUs := u32Sub procUs sampleTimestampUs }
  ({ snap := snap, status24 := status24, ch1 := ch1, ch2 := ch2, ch3 := ch3, ch4 := ch4,
     flags := flags, procUs := procUs, sampleTimestampUs := sampleTimestampUs }, s4)

/-- The emission of `handleOneSampleFrame`: `emitSamplePacket` in binary
mode, `emitCsvFrame` in CSV mode; the flag is the local `emitted`.  In binary
mode this is the execution of `emitSamplePacket` described there;
`sampleFrameEmitChecked` enforces the bounds of `raw`. -/
def sampleFrameEmit (s : FwState) (l : SampleLocals) : Bool × FwState :=
  match s.g_outputMode with
  | OutputMode.MODE_BIN =>
      emitSamplePacket s l.sampleTimestampUs l.status24 l.ch1 l.ch2 l.ch3 l.ch4 l.flags
        l.snap.missedDrdyFrame s.g_recoveriesTotal
  | OutputMode.MODE_CSV =>
      (true, emitCsvFrame s l.sampleTimestampUs l.procUs l.snap.drdyIntervalUs l.status24
        l.ch1 l.ch2 l.ch3 l.ch4
        (adsCountsToMicrovolts s l.ch1) (adsCountsToMicrovolts s l.ch2)
        (adsCountsToMicrovolts s l.ch3) (adsCountsToMicrovolts s l.ch4)
        l.flags l.snap.missedDrdyFrame l.snap.missedDrdyTotal s.g_recoveriesTotal)

/-- The end of `handleOneSampleFrame`: the pending flags are cleared. -/
def sampleFrameFinish (s : FwState) (emitted : Bool) : FwState :=
  let s1 := { s with g_pendingRecoveredFlag := false, g_pendingBtnFlag := false }
  if emitted then { s1 with tx := { s1.tx with g_pendingTxOverflowFlag := false } } else s1

/-- The zero-initialised local `DrdyFrameSnapshot snap = {}`. -/
def snapZero : DrdyFrameSnapshot :=
  { ready := false, drdyTimestampUs := 0, drdyIntervalUs := 0, missedDrdyFrame := 0,
    missedDrdyTotal := 0, drdyEdgesTotal := 0 }

/-- The function `handleOneSampleFrame()`.  `spi` are the answers of the SPI
bus to the fifteen transfers of the frame read and `procUs` is what
`micros()` returns; the result is the returned flag and the state after the
call.  In binary mode a call that finds a pending edge runs
`emitSamplePacket`, in the execution described there;
`handleOneSampleFrameChecked` enforces the bounds of `raw`. -/
def handleOneSampleFrame (s : FwState) (spi : List Nat) (procUs : Nat) : Bool × FwState :=
  let cap := capturePendingDrdySnapshot s.drdy (some snapZero)
  let s1 := { s with drdy := cap.2.2 }
  if cap.1 = false then (false, s1)
  else
    let snap := cap.2.1.getD snapZero
    let rd := adsReadDataFrame15 s1 spi
    if rd.1 = false then
      match rd.2.g_outputMode with
      | OutputMode.MODE_BIN => (false, { rd.2 with tx := (emitErrorPacket rd.2.tx 0xE2 0 0).2 })
      | OutputMode.MODE_CSV =>
          (false, { rd.2 with serialOut := rd.2.serialOut ++ [SerialLine.errFrameReadFail] })
    else
      let p := sampleFrameParse rd.2 snap procUs
      let e := sampleFrameEmit p.2 p.1
      (true, sampleFrameFinish e.2 e.1)

/-- The snapshot `snap` that `handleOneSampleFrame` works with after its call
of `capturePendingDrdySnapshot(&snap)`. -/
def consumedSnap (s : FwState) : DrdyFrameSnapshot :=
  (capturePendingDrdySnapshot s.drdy (some snapZero)).2.1.getD snapZero

/-- The state of `handleOneSampleFrame` after the capture of the snapshot and
the frame read. -/
def afterFrameRead (s : FwState) (spi : List Nat) : FwState :=
  (adsReadDataFrame15 { s with drdy := (capturePendingDrdySnapshot s.drdy (some snapZero)).2.2 }
    spi).2

/-- The locals and the state of `handleOneSampleFrame` right before the
emission, for a call that found a pending edge. -/
def sampleFrameOf (s : FwState) (spi : List Nat) (procUs : Nat) : SampleLocals × FwState :=
  sampleFrameParse (afterFrameRead s spi) (consumedSnap s) procUs

/-- The flags word as the specification composes it: the OR of one bit per
condition. -/
def flagsWord (streaming recovered btnToggled drdyMissed statusInvalid leadOffAny
    txOverflow : Bool) : Nat :=
  (if streaming then 0x01 else 0) ||| (if recovered then 0x02 else 0) |||
    (if btnToggled then 0x04 else 0) ||| (if drdyMissed then 0x08 else 0) |||
    (if statusInvalid then 0x10 else 0) ||| (if leadOffAny then 0x20 else 0) |||
    (if txOverflow then 0x40 else 0)

/-! ## ADS1299 driver: initialisation, streaming and recovery (ads1299_driver.cpp)

The chip is outside the state: what it answers is an input of each function.
The DRDY interrupt is not interleaved inside a driver call; between calls it
is the step `onDrdyFalling`. -/

/-- The function `resetStreamEdgeStats()`. -/
def resetStreamEdgeStats (d : DrdyBlock) : DrdyBlock :=
  { d with
    g_drdyFlag := false
    g_missedDrdyFrame := 0
    g_prevDrdyTimestampUs := 0
    g_lastDrdyTimestampUs := 0
    g_drdyIntervalLastUs := 0
    g_drdyIntervalMinUs := 0xFFFFFFFF
    g_drdyIntervalMaxUs := 0
    g_drdyJitterAbsLastUs := 0
    g_drdyJitterAbsMinUs := 0xFFFFFFFF
    g_drdyJitterAbsMaxUs := 0
    g_drdyIntervalCount := 0
    g_drdyIntervalSumUs := 0
    g_drdyJitterAbsSumUs := 0 }

/-- The function `adsConfigureRegisters()`.  The register writes go to the
chip; `readbackOk` says whether every value read back afterwards matched
what was written.  On a mismatch the call returns false before it touches
the globals. -/
def adsConfigureRegisters (s : FwState) (readbackOk : Bool) : Bool × FwState :=
  if readbackOk = false then (false, s)
  else
    (true, { s with g_sampleRateSps := ADS_DEFAULT_SPS, g_adsGain := ADS_DEFAULT_GAIN,
                    g_adsVrefUv := ADS_VREF_UV })

/-- What the chip answers during one call of `adsInitOnce()`: the byte read
from `REG_ID` and the outcome of the read-backs of `adsConfigureRegisters`. -/
structure InitAttempt where
  id : Nat
  readbackOk : Bool
deriving DecidableEq

/-- The function `adsInitOnce()`. -/
def adsInitOnce (s : FwState) (a : InitAttempt) : Bool × FwState :=
  let id := a.id % 256
  if id = 0x00 ∨ id = 0xFF then (false, s)
  else
    let r := adsConfigureRegisters s a.readbackOk
    if r.1 = false then (false, r.2) else (true, r.2)

/-- What the chip answers during one call of `adsInitRobust`: the answers to
attempt `i` (counted from 0) and the byte read from `REG_ID` for the event
packet. -/
structure InitHw where
  attempt : Nat → InitAttempt
  idAfter : Nat

/-- The success branch of `adsInitRobust` in iteration `i`: the chip is
marked ready and the attempt number `i + 1` is reported. -/
def adsInitOkTail (hw : InitHw) (i : Nat) (s : FwState) : Bool × FwState :=
  let s1 := { s with g_adsReady := true }
  match s1.g_outputMode with
  | OutputMode.MODE_BIN =>
      (true, { s1 with tx := (emitEventPacket s1.tx 0x10 (hw.idAfter % 256) (i + 1) 0).2 })
  | OutputMode.MODE_CSV =>
      (true, { s1 with serialOut := s1.serialOut ++ [SerialLine.adsInitOk (i + 1)] })

/-- The end of `adsInitRobust` behind its loop: the chip is marked not ready
and the failure is reported. -/
def adsInitFailTail (s : FwState) : Bool × FwState :=
  let s1 := { s with g_adsReady := false }
  match s1.g_outputMode with
  | OutputMode.MODE_BIN => (false, { s1 with tx := (emitErrorPacket s1.tx 0xE1 0 0).2 })
  | OutputMode.MODE_CSV =>
      (false, { s1 with serialOut := s1.serialOut ++ [SerialLine.errAdsInitFail] })

/-- The loop of `adsInitRobust(attempts)` from iteration `i` with `n`
iterations left, followed by the end of the function. -/
def adsInitRobustFrom (hw : InitHw) (i : Nat) : Nat → FwState → Bool × FwState
  | 0, s => adsInitFailTail s
  | n + 1, s =>
      let r := adsInitOnce s (hw.attempt i)
      if r.1 then adsInitOkTail hw i r.2
      else adsInitRobustFrom hw (i + 1) n r.2

/-- The function `adsInitRobust(attempts)`; `attempts` is a `uint8_t` and
defaults to 3. -/
def adsInitRobust (s : FwState) (attempts : Nat) (hw : InitHw) : Bool × FwState :=
  adsInitRobustFrom hw 0 attempts s

/-- What the hardware answers during one call of `adsStartStreaming()`: the
answers to the `adsInitRobust()` call made when the chip is not ready, and
what `micros()` returns. -/
structure StartHw where
  init : InitHw
  nowUs : Nat

/-- The function `adsStartStreaming()`. -/
def adsStartStreaming (s : FwState) (hw : StartHw) : FwState :=
  let r := if s.g_adsReady = false then adsInitRobust s 3 hw.init else (true, s)
  if r.1 = false then r.2
  else
    let s1 := { r.2 with drdy := resetStreamEdgeStats r.2.drdy }
    let s2 := { s1 with g_sampleIndex := 0, g_lastGoodFrameUs := hw.nowUs }
    let s3 := { s2 with g_streaming := true }
    match s3.g_outputMode with
    | OutputMode.MODE_CSV =>
        { s3 with serialOut := s3.serialOut ++
            [SerialLine.csvHeader, SerialLine.streamOn, SerialLine.warnCsvDebugOnly] }
    | OutputMode.MODE_BIN => { s3 with tx := (emitEventPacket s3.tx 0x01 1 0 0).2 }

/-- The function `adsStopStreaming()`. -/
def adsStopStreaming (s : FwState) : FwState :=
  let s1 := { s with g_streaming := false }
  match s1.g_outputMode with
  | OutputMode.MODE_CSV => { s1 with serialOut := s1.serialOut ++ [SerialLine.streamOff] }
  | OutputMode.MODE_BIN => { s1 with tx := (emitEventPacket s1.tx 0x01 0 0 0).2 }

/-- What the hardware answers during the recovery of `recoverAdsIfNeeded()`:
the answers to `adsInitRobust()` and to `adsStartStreaming()`. -/
structure RecoverHw where
  init : InitHw
  start : StartHw

/-- The local `timeoutUs` of `recoverAdsIfNeeded()`, in `uint32_t`
arithmetic. -/
def recoverTimeoutUs (s : FwState) : Nat :=
  let periodUs := if s.g_sampleRateSps > 0 then 1000000 / s.g_sampleRateSps
    else ADS_DRDY_PERIOD_US
  max 50000 ((periodUs * 8) % 2 ^ 32)

/-- The first part of a recovery in `recoverAdsIfNeeded()`: the stream is
stopped and the stall is reported. -/
def recoverStop (s : FwState) (nowUs : Nat) : FwState :=
  let s1 := adsStopStreaming s
  match s1.g_outputMode with
  | OutputMode.MODE_BIN =>
      { s1 with tx := (emitErrorPacket s1.tx 0xE3 nowUs s1.g_recoveriesTotal).2 }
  | OutputMode.MODE_CSV =>
      { s1 with serialOut := s1.serialOut ++ [SerialLine.warnDrdyTimeoutRecover] }

/-- The part of `recoverAdsIfNeeded()` behind its two early returns: stop,
report, re-initialise and, on success, restart. -/
def recoverSequence (s : FwState) (nowUs : Nat) (hw : RecoverHw) : FwState :=
  let wasStreaming := s.g_streaming
  let s2 := recoverStop s nowUs
  let r := adsInitRobust s2 3 hw.init
  if r.1 then
    let s3 := { r.2 with g_recoveriesTotal := (r.2.g_recoveriesTotal + 1) % 2 ^ 32,
                         g_pendingRecoveredFlag := true }
    if wasStreaming then adsStartStreaming s3 hw.start else s3
  else r.2

/-- The function `recoverAdsIfNeeded()`; `nowUs` is what `micros()` returns. -/
def recoverAdsIfNeeded (s : FwState) (nowUs : Nat) (hw : RecoverHw) : FwState :=
  if s.g_streaming = false then s
  else if u32Sub nowUs s.g_lastGoodFrameUs < recoverTimeoutUs s then s
  else recoverSequence s nowUs hw

/-! ## Steps between two handled samples -/

/-- What happens between two handled samples while the stream state is left
alone: a DRDY edge (the interrupt handler), a `txService()` call, or a packet
handed to the framer (an event or an error packet). -/
inductive LoopOp where
  | edge (nowUs : Nat)
  | service (available : Int) (accept : Nat)
  | packet (raw : List Nat)

/-- One such step; the flag is false when the framer refused the packet. -/
def loopStep (s : FwState) : LoopOp → Bool × FwState
  | LoopOp.edge nowUs => (true, { s with drdy := onDrdyFalling s.drdy s.g_sampleRateSps nowUs })
  | LoopOp.service available accept =>
      (true, { s with tx := (txService s.tx available accept).1 })
  | LoopOp.packet raw => ((emitBinaryRawPacket s.tx raw).1,
      { s with tx := (emitBinaryRawPacket s.tx raw).2 })

/-- A sequence of such steps; the flag is true when no packet was refused. -/
def loopRun (s : FwState) : List LoopOp → Bool × FwState
  | [] => (true, s)
  | op :: ops => ((loopStep s op).1 && (loopRun (loopStep s op).2 ops).1,
      (loopRun (loopStep s op).2 ops).2)

/-- The local `emitted` of a `handleOneSampleFrame` call that found a pending
edge: whether the sample went out. -/
def sampleEmitted (s : FwState) (spi : List Nat) (procUs : Nat) : Bool :=
  (sampleFrameEmit (sampleFrameOf s spi procUs).2 (sampleFrameOf s spi procUs).1).1

/-- The raw packet that a `handleOneSampleFrame` call in binary mode builds in
`emitSamplePacket` and hands to `emitBinaryRawPacket`. -/
def samplePacketOf (s : FwState) (spi : List Nat) (procUs : Nat) : List Nat :=
  sampleRaw (sampleFrameOf s spi procUs).2.g_sampleIndex
    (sampleFrameOf s spi procUs).1.sampleTimestampUs (sampleFrameOf s spi procUs).1.status24
    (sampleFrameOf s spi procUs).1.ch1 (sampleFrameOf s spi procUs).1.ch2
    (sampleFrameOf s spi procUs).1.ch3 (sampleFrameOf s spi procUs).1.ch4
    (sampleFrameOf s spi procUs).1.flags (sampleFrameOf s spi procUs).1.snap.missedDrdyFrame
    (sampleFrameOf s spi procUs).2.g_recoveriesTotal

/-- A state in binary mode while streaming, with 2 free bytes in the ring, a
pending DRDY edge and the recovered and the button flag pending. -/
def ringFullState : FwState :=
  { fwBoot with
    tx := { txBoot with s_head := 8190, s_count := 8190 }
    drdy := onDrdyFalling drdyBoot 250 4000
    g_streaming := true
    g_adsReady := true
    g_pendingRecoveredFlag := true
    g_pendingBtnFlag := true }

/-- A data frame with a valid status header and the channel values 1, 2, 3, 4. -/
def demoFrame : List Nat := [0xC0, 0, 0, 0, 0, 1, 0, 0, 2, 0, 0, 3, 0, 0, 4]

/-- A state in binary mode while streaming at 250 SPS, chip ready, last good
frame at time 0. -/
def streamingState : FwState := { fwBoot with g_streaming := true, g_adsReady := true }

/-- A chip that answers every attempt with id `0x3E` and matching read-backs. -/
def goodChip : InitHw :=
  { attempt := fun _ => { id := 0x3E, readbackOk := true }, idAfter := 0x3E }

/-- A chip that answers every attempt with id `0x00`. -/
def deadChip : InitHw :=
  { attempt := fun _ => { id := 0x00, readbackOk := false }, idAfter := 0x00 }

/-- Hardware answers of a recovery on a chip that answers. -/
def goodRecoverHw : RecoverHw :=
  { init := goodChip, start := { init := goodChip, nowUs := 61000 } }

/-- Hardware answers of a recovery on a chip that is silent. -/
def deadRecoverHw : RecoverHw :=
  { init := deadChip, start := { init := deadChip, nowUs := 61000 } }

/-! ## Internal self-test (ads1299_driver.cpp) -/

/-- What the chip answers during one call of `adsSetInternalTestSignal` or
`adsSetLeadOffDiagnostics`: the outcome of the read-backs of the
reconfiguration, and of the second reconfiguration that follows a failure. -/
structure ReconfigHw where
  readbackOk : Bool
  rollbackOk : Bool
deriving DecidableEq

/-- The function `adsSetInternalTestSignal(enable)`. -/
def adsSetInternalTestSignal (s : FwState) (enable : Bool) (hw : ReconfigHw) : Bool × FwState :=
  let old := s.g_internalTestSignalEnabled
  let s1 := { s with g_internalTestSignalEnabled := enable }
  let r := adsConfigureRegisters s1 hw.readbackOk
  if r.1 = false then
    let s2 := { r.2 with g_internalTestSignalEnabled := old }
    (false, (adsConfigureRegisters s2 hw.rollbackOk).2)
  else (true, r.2)

/-- The function `adsSetLeadOffDiagnostics(enable)`. -/
def adsSetLeadOffDiagnostics (s : FwState) (enable : Bool) (hw : ReconfigHw) : Bool × FwState :=
  let old := s.g_leadOffDiagEnabled
  let s1 := { s with g_leadOffDiagEnabled := enable }
  let r := adsConfigureRegisters s1 hw.readbackOk
  if r.1 = false then
    let s2 := { r.2 with g_leadOffDiagEnabled := old }
    (false, (adsConfigureRegisters s2 hw.rollbackOk).2)
  else (true, r.2)

/-- What the hardware answers during one iteration of the frame loop of the
self-test: the peripheral's answers to the `txService()` call of the
iteration and to those made while `waitForDrdyEdgeLow` polls, whether the
DRDY pin went low within the 50 ms, and the fifteen bytes of the frame. -/
structure SelfTestFrameHw where
  service : Int × Nat
  waitServices : List (Int × Nat)
  drdyLow : Bool
  spi : List Nat

/-- What the hardware answers during one call of `adsRunInternalSelfTest`. -/
structure SelfTestHw where
  init : InitHw
  loffOff : ReconfigHw
  testOn : ReconfigHw
  frame : Nat → SelfTestFrameHw
  testRestore : ReconfigHw
  loffRestore : ReconfigHw
  start : StartHw

/-- The constant `INT32_MAX`. -/
def INT32_MAX : Int := 2147483647

/-- The constant `INT32_MIN`. -/
def INT32_MIN : Int := -2147483648

/-- The locals `minCh[4]`, `maxCh[4]`, `statusBad` and `goodFrames` of the
self-test. -/
structure SelfTestLocals where
  minCh : Nat → Int
  maxCh : Nat → Int
  statusBad : Nat
  goodFrames : Nat

/-- The initial values of the locals. -/
def selfTestLocalsInit : SelfTestLocals :=
  { minCh := fun _ => INT32_MAX, maxCh := fun _ => INT32_MIN, statusBad := 0, goodFrames := 0 }

/-- Channel `ch` (0 to 3) of a frame buffer, as `parseChannelsFromFrame`
reads it. -/
def frameChannel (frame : List Nat) (ch : Nat) : Int :=
  signExtend24 (frameWord24 frame (3 + 3 * ch))

/-- A sequence of `txService()` calls. -/
def txServiceAll (t : TxState) (calls : List (Int × Nat)) : TxState :=
  calls.foldl (fun t c => (txService t c.1 c.2).1) t

/-- The bookkeeping of one iteration of the frame loop after the frame was
read into `frame`: the status count, the per-channel minimum and maximum,
and `goodFrames++` (both counters are `uint8_t`). -/
def selfTestAccumulate (l : SelfTestLocals) (frame : List Nat) : SelfTestLocals :=
  let status24 := frameWord24 frame 0
  { statusBad := if statusHeaderValid status24 = false then (l.statusBad + 1) % 256
      else l.statusBad
    minCh := fun ch =>
      if ch < 4 ∧ frameChannel frame ch < l.minCh ch then frameChannel frame ch else l.minCh ch
    maxCh := fun ch =>
      if ch < 4 ∧ frameChannel frame ch > l.maxCh ch then frameChannel frame ch else l.maxCh ch
    goodFrames := (l.goodFrames + 1) % 256 }

/-- One iteration of the frame loop; the flag is false when the loop breaks. -/
def selfTestIteration (s : FwState) (l : SelfTestLocals) (f : SelfTestFrameHw) :
    Bool × FwState × SelfTestLocals :=
  let s1 := { s with tx := (txService s.tx f.service.1 f.service.2).1 }
  -- waitForDrdyEdgeLow(50000)
  let s2 := { s1 with tx := txServiceAll s1.tx f.waitServices }
  if f.drdyLow = false then (false, s2, l)
  else
    let rd := adsReadDataFrame15 s2 f.spi
    if rd.1 = false then (false, rd.2, l)
    else (true, rd.2, selfTestAccumulate l rd.2.g_rawFrame)

/-- The frame loop of the self-test from iteration `i` with `n` iterations
left. -/
def selfTestLoopFrom (frame : Nat → SelfTestFrameHw) (i : Nat) :
    Nat → FwState → SelfTestLocals → FwState × SelfTestLocals
  | 0, s, l => (s, l)
  | n + 1, s, l =>
      let r := selfTestIteration s l (frame i)
      if r.1 = false then (r.2.1, r.2.2) else selfTestLoopFrom frame (i + 1) n r.2.1 r.2.2

/-- The loop that computes `dynamicOk` over the channels `chs`. -/
def selfTestDynamicOk (l : SelfTestLocals) : List Nat → Bool
  | [] => true
  | ch :: chs =>
      if l.goodFrames = 0 then false
      else
        let p2p := toI32 (l.maxCh ch - l.minCh ch)
        if p2p < 50 then false else selfTestDynamicOk l chs

/-- The first part of `adsRunInternalSelfTest`, up to the last early return:
streaming is stopped, the chip is initialised if need be, lead-off
diagnostics are switched off and the test signal is switched on.  The flag is
false when the function returns early. -/
def selfTestSetup (s : FwState) (hw : SelfTestHw) : Bool × FwState :=
  let s1 := if s.g_streaming then adsStopStreaming s else s
  let ri := if s1.g_adsReady = false then adsInitRobust s1 3 hw.init else (true, s1)
  if ri.1 = false then (false, ri.2)
  else
    let rl := if ri.2.g_leadOffDiagEnabled then adsSetLeadOffDiagnostics ri.2 false hw.loffOff
      else (true, ri.2)
    if rl.1 = false then (false, rl.2)
    else
      let rt := adsSetInternalTestSignal rl.2 true hw.testOn
      if rt.1 = false then (false, rt.2) else (true, rt.2)

/-- The verdict `overallOk` of the self-test from the locals after the frame
loop. -/
def selfTestVerdict (l : SelfTestLocals) (frames : Nat) : Bool :=
  let dynamicOk := selfTestDynamicOk l [0, 1, 2, 3]
  let statusOk := decide (l.goodFrames = frames) && decide (l.statusBad ≤ frames / 4)
  dynamicOk && statusOk

/-- The last part of `adsRunInternalSelfTest`: the result is reported, the
test signal and the lead-off diagnostics are set back and streaming is
restarted if it was on. -/
def selfTestFinish (s : FwState) (hw : SelfTestHw) (wasStreaming oldTest oldLoff : Bool)
    (overallOk : Bool) (goodFrames statusBad : Nat) : FwState :=
  let s4 := match s.g_outputMode with
    | OutputMode.MODE_BIN =>
        { s with tx := (emitEventPacket s.tx 0x30 (if overallOk then 1 else 0) goodFrames
            statusBad).2 }
    | OutputMode.MODE_CSV =>
        { s with serialOut := s.serialOut ++ [SerialLine.selfTest goodFrames statusBad overallOk] }
  let s5 := if oldTest ≠ s4.g_internalTestSignalEnabled then
      (adsSetInternalTestSignal s4 oldTest hw.testRestore).2
    else if oldTest = false then (adsSetInternalTestSignal s4 false hw.testRestore).2
    else s4
  let s6 := if oldLoff ≠ s5.g_leadOffDiagEnabled then
      (adsSetLeadOffDiagnostics s5 oldLoff hw.loffRestore).2
    else if oldLoff then (adsSetLeadOffDiagnostics s5 true hw.loffRestore).2
    else s5
  if wasStreaming then adsStartStreaming s6 hw.start else s6

/-- The function `adsRunInternalSelfTest(frames)`; `frames` is a `uint8_t`. -/
def adsRunInternalSelfTest (s : FwState) (frames0 : Nat) (hw : SelfTestHw) : Bool × FwState :=
  let frames := if frames0 = 0 then 32 else frames0
  let wasStreaming := s.g_streaming
  let oldTest := s.g_internalTestSignalEnabled
  let oldLoff := s.g_leadOffDiagEnabled
  let su := selfTestSetup s hw
  if su.1 = false then (false, su.2)
  else
    let s2 := { su.2 with drdy := resetStreamEdgeStats su.2.drdy }
    let lp := selfTestLoopFrom hw.frame 0 frames s2 selfTestLocalsInit
    let overallOk := selfTestVerdict lp.2 frames
    (overallOk,
      selfTestFinish lp.1 hw wasStreaming oldTest oldLoff overallOk lp.2.goodFrames lp.2.statusBad)

/-- The frame buffer after the fifteen transfers of a frame read. -/
def readFrame (spi : List Nat) : List Nat := (List.range 15).map (fun i => frameByte spi i)

/-- The largest value of `v` over the frames `i, ..., i + n - 1` (`INT32_MIN`
for no frame). -/
def framesMax (v : Nat → Int) : Nat → Nat → Int
  | _, 0 => INT32_MIN
  | i, n + 1 => max (v i) (framesMax v (i + 1) n)

/-- The smallest value of `v` over the frames `i, ..., i + n - 1` (`INT32_MAX`
for no frame). -/
def framesMin (v : Nat → Int) : Nat → Nat → Int
  | _, 0 => INT32_MAX
  | i, n + 1 => min (v i) (framesMin v (i + 1) n)

/-- The number of frames among `i, ..., i + n - 1` whose status header is
invalid. -/
def framesInvalid (frame : Nat → SelfTestFrameHw) : Nat → Nat → Nat
  | _, 0 => 0
  | i, n + 1 =>
      (if statusHeaderValid (frameWord24 (readFrame (frame i).spi) 0) = false then 1 else 0)
        + framesInvalid frame (i + 1) n

/-- The value of channel `ch` in frame `i` of the self-test. -/
def selfTestValue (frame : Nat → SelfTestFrameHw) (ch : Nat) (i : Nat) : Int :=
  frameChannel (readFrame (frame i).spi) ch

/-- The locals of the self-test after the frames `i, ..., i + n - 1` have all
arrived, starting from the locals `l`. -/
def selfTestFold (frame : Nat → SelfTestFrameHw) : Nat → Nat → SelfTestLocals → SelfTestLocals
  | _, 0, l => l
  | i, n + 1, l => selfTestFold frame (i + 1) n (selfTestAccumulate l (readFrame (frame i).spi))

/-- Hardware answers of a self-test in which all frames arrive with a valid
status header and every channel alternates between 0 and 50 counts. -/
def swing50Hw : SelfTestHw :=
  { init := goodChip
    loffOff := { readbackOk := true, rollbackOk := true }
    testOn := { readbackOk := true, rollbackOk := true }
    frame := fun i =>
      { service := (0, 0)
        waitServices := []
        drdyLow := true
        spi := [0xC0, 0, 0, 0, 0, (if i % 2 = 0 then 0 else 50), 0, 0,
          (if i % 2 = 0 then 0 else 50), 0, 0, (if i % 2 = 0 then 0 else 50), 0, 0,
          (if i % 2 = 0 then 0 else 50)] }
    testRestore := { readbackOk := true, rollbackOk := true }
    loffRestore := { readbackOk := true, rollbackOk := true }
    start := { init := goodChip, nowUs := 200000 } }

/-- A state in binary mode, not streaming, chip ready, test signal and
lead-off diagnostics off. -/
def idleReadyState : FwState := { fwBoot with g_adsReady := true }

/-- The answers of `swing50Hw`, except that the reconfiguration which switches
the test signal off again fails its read-back. -/
def restoreFailHw : SelfTestHw :=
  { swing50Hw with testRestore := { readbackOk := false, rollbackOk := true } }

/-- A state while streaming with lead-off diagnostics enabled. -/
def streamingLoffState : FwState := { streamingState with g_leadOffDiagEnabled := true }

/-- The answers of `swing50Hw`, except that the reconfiguration which switches
the lead-off diagnostics off fails its read-back. -/
def loffOffFailHw : SelfTestHw :=
  { swing50Hw with loffOff := { readbackOk := false, rollbackOk := true } }

/-- A chip that is silent on the first attempt and answers from the second
attempt on. -/
def secondTryChip : InitHw :=
  { attempt := fun i =>
      if i = 0 then { id := 0x00, readbackOk := false } else { id := 0x3E, readbackOk := true }
    idAfter := 0x3E }

/-! ## Accesses to the DRDY block -/

/-- An access to the DRDY block: an edge handled by `onDrdyFalling` (with the
sample rate it reads and the value of `micros()`), or a call of
`capturePendingDrdySnapshot(&snap)` by the main loop. -/
inductive DrdyOp where
  | edge (g_sampleRateSps nowUs : Nat)
  | capture

/-- The block after a sequence of accesses, with the number of captures that
returned true. -/
structure DrdyTrace where
  block : DrdyBlock
  captures : Nat

/-- One access. -/
def drdyRunOp (t : DrdyTrace) : DrdyOp → DrdyTrace
  | DrdyOp.edge rate nowUs => { t with block := onDrdyFalling t.block rate nowUs }
  | DrdyOp.capture =>
      { block := (capturePendingDrdySnapshot t.block (some snapZero)).2.2
        captures :=
          if (capturePendingDrdySnapshot t.block (some snapZero)).1 then t.captures + 1
          else t.captures }

/-- A sequence of accesses from the initial values of the block. -/
def drdyRun (ops : List DrdyOp) : DrdyTrace :=
  ops.foldl drdyRunOp { block := drdyBoot, captures := 0 }

/-! ## Button and commands (fw_commands.cpp) -/

/-- The function `handleButton()`.  `nowState` is what
`digitalRead(PIN_BTN_START)` returns (`true` for HIGH), `nowMs` what
`millis()` returns, `hw` what the hardware answers to `adsStartStreaming()`. -/
def handleButton (s : FwState) (nowState : Bool) (nowMs : Nat) (hw : StartHw) : FwState :=
  let s1 :=
    if s.g_lastBtnState = true ∧ nowState = false then
      if u32Sub nowMs s.g_lastButtonToggleMs > 250 then
        let s2 := { s with g_lastButtonToggleMs := nowMs, g_pendingBtnFlag := true }
        if s2.g_streaming then adsStopStreaming s2 else adsStartStreaming s2 hw
      else s
    else s
  { s1 with g_lastBtnState := nowState }

/-- The constant `CSV_DEBUG_ENABLED` of fw_config.h. -/
def CSV_DEBUG_ENABLED : Bool := true

/-- What the hardware answers during one call of `processCommand`: to
`adsInitRobust()` (REINIT), to `adsStartStreaming()`, to the reconfiguration
of TEST ON/OFF and LOFF ON/OFF, and to the self-test. -/
structure CommandHw where
  init : InitHw
  start : StartHw
  reconfig : ReconfigHw
  selfTest : SelfTestHw

/-- The character codes of a command name. -/
def cmdText (name : String) : List Nat := name.toList.map Char.toNat

/-- The first loop of `processCommand`: leading blanks and tabs are skipped. -/
def cmdSkipBlanks : List Nat → List Nat
  | [] => []
  | c :: rest => if c = 32 ∨ c = 9 then cmdSkipBlanks rest else c :: rest

/-- The second loop of `processCommand` on one character: `a` to `z` become
upper case. -/
def cmdUpper (c : Nat) : Nat := if 97 ≤ c ∧ c ≤ 122 then c - 32 else c

/-- A line printed to the serial port. -/
def serialPrint (s : FwState) (line : SerialLine) : FwState :=
  { s with serialOut := s.serialOut ++ [line] }

/-- The branches TEST ON, TEST OFF, LOFF ON and LOFF OFF of `processCommand`
share one shape: streaming is stopped, the setter is called, and on success
the reply is printed and streaming restarted if it was on. -/
def processReconfig (s : FwState) (hw : CommandHw)
    (setter : FwState → ReconfigHw → Bool × FwState) (okLine errLine : String) : FwState :=
  let wasStreaming := s.g_streaming
  let s1 := if s.g_streaming then adsStopStreaming s else s
  let r := setter s1 hw.reconfig
  if r.1 then
    let s2 := serialPrint r.2 (SerialLine.text okLine)
    if wasStreaming then adsStartStreaming s2 hw.start else s2
  else serialPrint r.2 (SerialLine.text errLine)

/-- The function `processCommand(cmd)`; `buf` holds the characters of the
buffer, the string ends at the first NUL. -/
def processCommand (s : FwState) (buf : List Nat) (hw : CommandHw) : FwState :=
  let cmd := (cmdSkipBlanks (buf.takeWhile (fun c => decide (c ≠ 0)))).map cmdUpper
  if cmd = [] then s
  else if cmd = cmdText "HELP" ∨ cmd = cmdText "?" then serialPrint s (SerialLine.report "HELP")
  else if cmd = cmdText "PING" then serialPrint s (SerialLine.text "# PONG")
  else if cmd = cmdText "INFO" then serialPrint s (SerialLine.report "INFO")
  else if cmd = cmdText "STATS" then serialPrint s (SerialLine.report "STATS")
  else if cmd = cmdText "REGS" then serialPrint s (SerialLine.report "REGS")
  else if cmd = cmdText "START" then adsStartStreaming s hw.start
  else if cmd = cmdText "STOP" then adsStopStreaming s
  else if cmd = cmdText "REINIT" then
    let wasStreaming := s.g_streaming
    let s1 := if s.g_streaming then adsStopStreaming s else s
    let s2 := (adsInitRobust s1 3 hw.init).2
    if wasStreaming then adsStartStreaming s2 hw.start else s2
  else if cmd = cmdText "MODE BIN" then
    let s1 := if s.g_streaming then adsStopStreaming s else s
    let s2 := { s1 with g_outputMode := OutputMode.MODE_BIN }
    serialPrint s2 (SerialLine.text "# OK MODE BIN")
  else if cmd = cmdText "MODE CSV" then
    if CSV_DEBUG_ENABLED = false then serialPrint s (SerialLine.text "# ERR CSV_DISABLED")
    else
      let s1 := if s.g_streaming then adsStopStreaming s else s
      let s2 := { s1 with g_outputMode := OutputMode.MODE_CSV }
      serialPrint (serialPrint s2 (SerialLine.text "# OK MODE CSV")) SerialLine.warnCsvDebugOnly
  else if cmd = cmdText "TEST ON" then
    processReconfig s hw (fun x r => adsSetInternalTestSignal x true r) "# OK TEST ON"
      "# ERR TEST_ON_FAIL"
  else if cmd = cmdText "TEST OFF" then
    processReconfig s hw (fun x r => adsSetInternalTestSignal x false r) "# OK TEST OFF"
      "# ERR TEST_OFF_FAIL"
  else if cmd = cmdText "SELFTEST" then
    let s1 := serialPrint s (SerialLine.text "# SELFTEST RUNNING")
    let r := adsRunInternalSelfTest s1 32 hw.selfTest
    serialPrint r.2 (SerialLine.text (if r.1 then "# SELFTEST PASS" else "# SELFTEST FAIL"))
  else if cmd = cmdText "LOFF ON" then
    processReconfig s hw (fun x r => adsSetLeadOffDiagnostics x true r) "# OK LOFF ON"
      "# ERR LOFF_ON_FAIL"
  else if cmd = cmdText "LOFF OFF" then
    processReconfig s hw (fun x r => adsSetLeadOffDiagnostics x false r) "# OK LOFF OFF"
      "# ERR LOFF_OFF_FAIL"
  else if cmd = cmdText "LOFF STATUS" then serialPrint s (SerialLine.report "LOFF STATUS")
  else serialPrint s (SerialLine.errUnknownCmd cmd)

/-- The accounting invariant of the DRDY block: the edges are the missed
edges, the captured edges and the pending one (modulo `2^32`), and a clear
flag goes with a zero count of missed edges for the current frame. -/
def DrdyAccounted (t : DrdyTrace) : Prop :=
  t.block.g_drdyEdgesTotal % 2 ^ 32
      = (t.block.g_missedDrdyTotal + t.captures + (if t.block.g_drdyFlag then 1 else 0)) % 2 ^ 32 ∧
    (t.block.g_drdyFlag = false → t.block.g_missedDrdyFrame = 0)

/-- A state with the chip ready and not streaming, after two DRDY edges of
which the second was missed. -/
def edgesSeenState : FwState :=
  { idleReadyState with
    drdy := onDrdyFalling (onDrdyFalling drdyBoot 250 4000) 250 8000 }

/-- A state in binary mode, streaming, with a pending DRDY edge and an empty
ring. -/
def edgePendingState : FwState :=
  { streamingState with drdy := onDrdyFalling drdyBoot 250 4000 }

/-- A state with the chip ready, the stream off, the button released (HIGH)
and the last accepted toggle at 1000 ms. -/
def buttonReleasedState : FwState := { idleReadyState with g_lastButtonToggleMs := 1000 }

/-- Hardware answers of a command on a chip that answers. -/
def demoCommandHw : CommandHw :=
  { init := goodChip
    start := { init := goodChip, nowUs := 9000 }
    reconfig := { readbackOk := true, rollbackOk := true }
    selfTest := swing50Hw }

/-! ## The sample pipeline with the bounds of `raw` enforced (fw_protocol.cpp)

`emitSamplePacket` declares its local array as `uint8_t raw[2 + (4 * 9) + 2]`,
which are `SAMPLE_RAW_DECLARED` = 40 bytes, and stores 44 bytes through it.
The definitions of this section run the same statements on an array with
bounds: a store or a read that leaves the array, which C leaves undefined, is
the result `none`. -/

/-- A store of `bytes` to `raw[off], raw[off + 1], ...` of a local array;
`none` when a byte lands outside the array. -/
def rawStore (raw : List Nat) (off : Nat) (bytes : List Nat) : Option (List Nat) :=
  if off + bytes.length ≤ raw.length then some (memcpy raw off bytes) else none

/-- A read of `raw[0 .. n)` from a local array; `none` when it leaves the
array. -/
def rawRead (raw : List Nat) (n : Nat) : Option (List Nat) :=
  if n ≤ raw.length then some (raw.take n) else none

/-- The statements of `emitSamplePacket` in front of its call of
`emitBinaryRawPacket`, run on a local array `raw` of `size` bytes: the two
header bytes, the ten `pack_u32_le` / `pack_i32_le` stores at `idx` = 2, 6,
.., 38, the call `crc16_ccitt(raw, 42)`, the store of the CRC at 42, and the
read of `raw[0 .. 44)` by the framer.  The array of the source is not
initialised; every byte that is read was stored before, so it starts as
zeros.  `sampleIndex` is the value of `g_sampleIndex` before the increment. -/
def sampleRawChecked (size : Nat) (sampleIndex t_us status24 : Nat) (ch1 ch2 ch3 ch4 : Int)
    (flags missedDrdyFrame recoveriesTotal : Nat) : Option (List Nat) := do
  let raw ← rawStore (List.replicate size 0) 0 [PKT_SAMPLE]
  let raw ← rawStore raw 1 [PROTO_VER]
  let raw ← rawStore raw 2 (pack_u32_le sampleIndex)
  let raw ← rawStore raw 6 (pack_u32_le t_us)
  let raw ← rawStore raw 10 (pack_u32_le status24)
  let raw ← rawStore raw 14 (pack_i32_le ch1)
  let raw ← rawStore raw 18 (pack_i32_le ch2)
  let raw ← rawStore raw 22 (pack_i32_le ch3)
  let raw ← rawStore raw 26 (pack_i32_le ch4)
  let raw ← rawStore raw 30 (pack_u32_le flags)
  let raw ← rawStore raw 34 (pack_u32_le missedDrdyFrame)
  let raw ← rawStore raw 38 (pack_u32_le recoveriesTotal)
  let body ← rawRead raw 42
  let raw ← rawStore raw 42 (pack_u16_le (crc16_ccitt body))
  rawRead raw 44

/-- The function `emitSamplePacket(...)` with the bounds of its array `raw`
enforced: `none` is a call that leaves the array. -/
def emitSamplePacketChecked (s : FwState) (t_us status24 : Nat) (ch1 ch2 ch3 ch4 : Int)
    (flags missedDrdyFrame recoveriesTotal : Nat) : Option (Bool × FwState) :=
  match sampleRawChecked SAMPLE_RAW_DECLARED s.g_sampleIndex t_us status24 ch1 ch2 ch3 ch4
      flags missedDrdyFrame recoveriesTotal with
  | none => none
  | some raw =>
      let s1 := { s with g_sampleIndex := (s.g_sampleIndex + 1) % 2 ^ 32 }
      let r := emitBinaryRawPacket s1.tx raw
      some (r.1, { s1 with tx := r.2 })

/-- The emission of `handleOneSampleFrame` with the bounds of `raw`
enforced. -/
def sampleFrameEmitChecked (s : FwState) (l : SampleLocals) : Option (Bool × FwState) :=
  match s.g_outputMode with
  | OutputMode.MODE_BIN =>
      emitSamplePacketChecked s l.sampleTimestampUs l.status24 l.ch1 l.ch2 l.ch3 l.ch4 l.flags
        l.snap.missedDrdyFrame s.g_recoveriesTotal
  | OutputMode.MODE_CSV =>
      some (true, emitCsvFrame s l.sampleTimestampUs l.procUs l.snap.drdyIntervalUs l.status24
        l.ch1 l.ch2 l.ch3 l.ch4
        (adsCountsToMicrovolts s l.ch1) (adsCountsToMicrovolts s l.ch2)
        (adsCountsToMicrovolts s l.ch3) (adsCountsToMicrovolts s l.ch4)
        l.flags l.snap.missedDrdyFrame l.snap.missedDrdyTotal s.g_recoveriesTotal)

/-- The function `handleOneSampleFrame()` with the bounds of `raw` enforced:
`none` is a call whose emission leaves the array. -/
def handleOneSampleFrameChecked (s : FwState) (spi : List Nat) (procUs : Nat) :
    Option (Bool × FwState) :=
  let cap := capturePendingDrdySnapshot s.drdy (some snapZero)
  let s1 := { s with drdy := cap.2.2 }
  if cap.1 = false then some (false, s1)
  else
    let snap := cap.2.1.getD snapZero
    let rd := adsReadDataFrame15 s1 spi
    if rd.1 = false then
      match rd.2.g_outputMode with
      | OutputMode.MODE_BIN =>
          some (false, { rd.2 with tx := (emitErrorPacket rd.2.tx 0xE2 0 0).2 })
      | OutputMode.MODE_CSV =>
          some (false, { rd.2 with serialOut := rd.2.serialOut ++ [SerialLine.errFrameReadFail] })
    else
      let p := sampleFrameParse rd.2 snap procUs
      match sampleFrameEmitChecked p.2 p.1 with
      | none => none
      | some e => some (true, sampleFrameFinish e.2 e.1)

/-- A state in CSV mode while streaming, with a pending DRDY edge and the
recovered and the button flag pending. -/
def csvPendingState : FwState :=
  { edgePendingState with
    g_outputMode := OutputMode.MODE_CSV
    g_pendingRecoveredFlag := true
    g_pendingBtnFlag := true }

/-! ## Lemmas on the COBS encoder -/

/-- Writing the code byte into the reserved slot that follows `done`. -/
theorem set_at_length (done run : List Nat) (p c : Nat) :
    (done ++ p :: run).set done.length c = done ++ c :: run := by
  induction done with
  | nil => rfl
  | cons d ds ih => simp [List.set, ih]

/-- Loop invariant of `cobsEncode`: with `done` finished, one reserved slot and the
run `run` pending, the loop and the final store produce `done ++ cobsRuns run input`. -/
theorem cobs_fold_eq (input : List Nat) : ∀ (done run : List Nat) (p : Nat),
    run.length + 2 ≤ 0xFF →
    cobsFinish (input.foldl cobsStep
        { out := done ++ p :: run, codePtr := done.length, code := run.length + 1 })
      = done ++ cobsRuns run input := by
  induction input with
  | nil =>
    intro done run p _
    simp [cobsFinish, cobsRuns, set_at_length]
  | cons b rest ih =>
    intro done run p hrun
    rw [List.foldl_cons]
    by_cases hb : b = 0
    · have h := ih (done ++ (run.length + 1) :: run) [] 0 (by simp)
      simp only [cobsStep, hb, if_true, set_at_length, cobsRuns]
      simp only [List.length_append, List.length_cons, List.length_nil, List.append_assoc,
        List.cons_append, Nat.zero_add] at h ⊢
      exact h
    · have hmod : (run.length + 1 + 1) % 256 = run.length + 2 := by omega
      by_cases hfull : run.length + 2 = 0xFF
      · have h := ih (done ++ 0xFF :: (run ++ [b])) [] 0 (by simp)
        simp only [cobsStep, hb, if_false, hmod, hfull, if_true, cobsRuns]
        have hs : (done ++ p :: run ++ [b]).set done.length 255 = done ++ 255 :: (run ++ [b]) := by
          have hset := set_at_length done (run ++ [b]) p 255
          simp only [List.append_assoc, List.cons_append] at hset ⊢
          exact hset
        rw [hs]
        simp only [List.length_append, List.length_cons, List.length_nil, List.append_assoc,
          List.cons_append, Nat.zero_add, List.nil_append] at h ⊢
        exact h
      · have h := ih done (run ++ [b]) p (by simp; omega)
        simp only [cobsStep, hb, if_false, hmod, hfull, cobsRuns]
        simp only [List.length_append, List.length_cons, List.length_nil, List.append_assoc,
          List.cons_append, Nat.zero_add, List.nil_append] at h ⊢
        exact h

/-- The loop of `cobsEncode` computes the functional reading `cobsRuns`. -/
theorem cobsEncode_eq_runs (input : List Nat) : cobsEncode input = cobsRuns [] input := by
  have := cobs_fold_eq input [] [] 0 (by simp)
  simpa [cobsEncode, cobsStart] using this


/-- The decoder copies the data bytes of a block unchanged. -/
theorem cobsDecodeGo_block (prev : Nat) (run rest : List Nat) :
    cobsDecodeGo prev run.length (run ++ rest) = run ++ cobsDecodeGo prev 0 rest := by
  induction run with
  | nil => simp
  | cons r rs ih => simp [cobsDecodeGo, ih]

/-- Decoding the encoding of `input` behind a pending run gives the run and the
input back, after the zero that separates it from a preceding short block. -/
theorem cobsDecodeGo_runs (input : List Nat) : ∀ (prev : Nat) (run : List Nat),
    run.length + 2 ≤ 0xFF →
    cobsDecodeGo prev 0 (cobsRuns run input)
      = (if prev ≠ 0xFF then [0] else []) ++ (run ++ input) := by
  induction input with
  | nil =>
    intro prev run _
    have h := cobsDecodeGo_block (run.length + 1) run []
    simp only [List.append_nil] at h
    simp [cobsRuns, cobsDecodeGo, h]
  | cons b rest ih =>
    intro prev run hrun
    by_cases hb : b = 0
    · have h := cobsDecodeGo_block (run.length + 1) run (cobsRuns [] rest)
      have hne : run.length + 1 ≠ 0xFF := by omega
      simp [cobsRuns, hb, cobsDecodeGo, h, ih (run.length + 1) [] (by simp), hne]
    · by_cases hfull : run.length + 2 = 0xFF
      · have h := cobsDecodeGo_block 0xFF (run ++ [b]) (cobsRuns [] rest)
        have hlen : (run ++ [b]).length = 254 := by simp; omega
        rw [hlen] at h
        simp only [List.append_assoc, List.singleton_append] at h
        simp [cobsRuns, hb, hfull, cobsDecodeGo, h, ih 0xFF [] (by simp)]
      · simp [cobsRuns, hb, hfull, ih prev (run ++ [b]) (by simp; omega)]

/-- The encoding of a zero-free pending run and any input holds no zero. -/
theorem cobsRuns_ne_zero (input : List Nat) : ∀ (run : List Nat),
    (∀ b ∈ run, b ≠ 0) → ∀ b ∈ cobsRuns run input, b ≠ 0 := by
  induction input with
  | nil =>
    intro run hrun b hb
    simp only [cobsRuns, List.mem_cons] at hb
    rcases hb with hb | hb
    · omega
    · exact hrun b hb
  | cons a rest ih =>
    intro run hrun b hb
    by_cases ha : a = 0
    · simp only [cobsRuns, ha, if_true, List.cons_append, List.mem_cons, List.mem_append] at hb
      rcases hb with hb | hb | hb
      · omega
      · exact hrun b hb
      · exact ih [] (by simp) b hb
    · by_cases hfull : run.length + 2 = 0xFF
      · simp only [cobsRuns, ha, hfull, if_false, if_true, List.cons_append, List.mem_cons,
          List.mem_append, List.mem_singleton, List.mem_nil_iff, or_false] at hb
        rcases hb with hb | (hb | hb) | hb
        · omega
        · exact hrun b hb
        · omega
        · exact ih [] (by simp) b hb
      · simp only [cobsRuns, ha, hfull, if_false] at hb
        refine ih (run ++ [a]) ?_ b hb
        intro c hc
        simp only [List.mem_append, List.mem_singleton] at hc
        rcases hc with hc | hc
        · exact hrun c hc
        · omega

/-- Every input byte and the pending code byte take one output byte each. -/
theorem cobsRuns_length_ge (input : List Nat) : ∀ (run : List Nat),
    run.length + input.length + 1 ≤ (cobsRuns run input).length := by
  induction input with
  | nil => intro run; simp [cobsRuns]
  | cons a rest ih =>
    intro run
    by_cases ha : a = 0
    · have := ih []
      simp [cobsRuns, ha] at this ⊢
      omega
    · by_cases hfull : run.length + 2 = 0xFF
      · have := ih []
        simp [cobsRuns, ha, hfull] at this ⊢
        omega
      · have := ih (run ++ [a])
        simp [cobsRuns, ha, hfull] at this ⊢
        omega

/-- There is at most one extra code byte for every 254 bytes. -/
theorem cobsRuns_length_le (input : List Nat) : ∀ (run : List Nat),
    run.length + 2 ≤ 0xFF →
    (cobsRuns run input).length
      ≤ run.length + input.length + 1 + (run.length + input.length) / 254 := by
  induction input with
  | nil => intro run _; simp [cobsRuns]
  | cons a rest ih =>
    intro run hrun
    by_cases ha : a = 0
    · have := ih [] (by simp)
      simp [cobsRuns, ha] at this ⊢
      omega
    · by_cases hfull : run.length + 2 = 0xFF
      · have := ih [] (by simp)
        simp [cobsRuns, ha, hfull] at this ⊢
        omega
      · have := ih (run ++ [a]) (by simp; omega)
        simp [cobsRuns, ha, hfull] at this ⊢
        omega

/-- Short input without a zero byte: one code byte, then the bytes themselves. -/
theorem cobsRuns_no_zero (input : List Nat) : ∀ (run : List Nat),
    run.length + input.length ≤ 253 → (∀ b ∈ input, b ≠ 0) →
    cobsRuns run input = (run.length + input.length + 1) :: (run ++ input) := by
  induction input with
  | nil => intro run _ _; simp [cobsRuns]
  | cons a rest ih =>
    intro run hlen hnz
    have ha : a ≠ 0 := hnz a (by simp)
    have hfull : ¬ run.length + 2 = 0xFF := by simp at hlen; omega
    have := ih (run ++ [a]) (by simp at hlen ⊢; omega) (fun b hb => hnz b (by simp [hb]))
    simp [cobsRuns, ha, hfull] at this ⊢
    rw [this]
    simp
    omega

/-! ## Lemmas on the CRC

The reference model reproduces the published check values of several
catalogue algorithms; the firmware loop is related to it through the
linearity of the shift step over XOR. -/

/-- Check value of CRC-16/CCITT-FALSE in the reference model. -/
theorem crcRef_check_ccitt_false : crcRef CRC16_CCITT_FALSE crcCheckMessage = 0x29B1 := by
  set_option maxRecDepth 100000 in decide

/-- Check value of CRC-16/XMODEM in the reference model. -/
theorem crcRef_check_xmodem :
    crcRef ⟨16, 0x1021, 0, false, false, 0⟩ crcCheckMessage = 0x31C3 := by
  set_option maxRecDepth 100000 in decide

/-- Check value of CRC-16/KERMIT (reflected input and output) in the reference
model. -/
theorem crcRef_check_kermit :
    crcRef ⟨16, 0x1021, 0, true, true, 0⟩ crcCheckMessage = 0x2189 := by
  set_option maxRecDepth 100000 in decide

/-- Check value of CRC-32 (reflected, final XOR) in the reference model. -/
theorem crcRef_check_crc32 :
    crcRef ⟨32, 0x04C11DB7, 0xFFFFFFFF, true, true, 0xFFFFFFFF⟩ crcCheckMessage
      = 0xCBF43926 := by
  set_option maxRecDepth 100000 in decide

/-- The test `crc & 0x8000` reads bit 15. -/
theorem crcShift_testBit (x : Nat) : (x &&& 0x8000 ≠ 0) ↔ x.testBit 15 = true := by
  have h : (0x8000 : Nat) = 2 ^ 15 := by norm_num
  rw [h, Nat.and_two_pow]
  cases x.testBit 15 <;> simp

/-- The shift step as a shift followed by a conditional XOR of the polynomial. -/
theorem crcShift_eq (x : Nat) :
    crcShift x = ((x <<< 1) % 0x10000) ^^^ (if x.testBit 15 then 0x1021 else 0) := by
  unfold crcShift
  by_cases h : x.testBit 15 = true
  · rw [if_pos ((crcShift_testBit x).2 h), if_pos h]
    apply Nat.eq_of_testBit_eq
    intro i
    have h2 : (0x10000 : Nat) = 2 ^ 16 := by norm_num
    rw [h2]
    simp only [Nat.testBit_mod_two_pow, Nat.testBit_xor]
    by_cases hi : i < 16
    · simp [hi]
    · have : Nat.testBit 0x1021 i = false := by
        apply Nat.testBit_lt_two_pow
        calc 0x1021 < 2 ^ 16 := by norm_num
          _ ≤ 2 ^ i := Nat.pow_le_pow_right (by norm_num) (by omega)
      simp [hi, this]
  · have h' : ¬ (x &&& 0x8000 ≠ 0) := fun hc => h ((crcShift_testBit x).1 hc)
    rw [if_neg h', if_neg h]
    simp

/-- The shift step is linear over XOR. -/
theorem crcShift_xor (x y : Nat) : crcShift (x ^^^ y) = crcShift x ^^^ crcShift y := by
  rw [crcShift_eq, crcShift_eq, crcShift_eq, Nat.testBit_xor]
  generalize x.testBit 15 = p
  generalize y.testBit 15 = q
  apply Nat.eq_of_testBit_eq
  intro i
  have h2 : (0x10000 : Nat) = 2 ^ 16 := by norm_num
  rw [h2]
  simp only [Nat.testBit_mod_two_pow, Nat.testBit_xor, Nat.testBit_shiftLeft]
  generalize x.testBit (i - 1) = a
  generalize y.testBit (i - 1) = b
  generalize decide (i < 16) = c
  generalize decide (i ≥ 1) = d
  cases p <;> cases q <;> simp only [Bool.true_xor, Bool.false_xor, Bool.not_true, Bool.not_false,
      if_true, if_false, Nat.zero_testBit, Bool.false_eq_true] <;>
    generalize Nat.testBit 4129 i = e <;> revert a b c d e <;> decide

/-- Iterated shift steps are linear over XOR. -/
theorem crcShift_iterate_xor (n x y : Nat) :
    Nat.iterate crcShift n (x ^^^ y) = Nat.iterate crcShift n x ^^^ Nat.iterate crcShift n y := by
  induction n generalizing x y with
  | zero => rfl
  | succ n ih => simp only [Function.iterate_succ_apply, crcShift_xor, ih]

/-- One reference bit step is a shift step on the register with the message bit
added at bit 15. -/
theorem crcRefBit_eq (reg : Nat) (bit : Bool) :
    crcRefBit CRC16_CCITT_FALSE reg bit = crcShift (reg ^^^ (bit.toNat <<< 15)) := by
  rw [crcShift_xor, crcShift_eq reg]
  cases bit
  · simp [crcRefBit, CRC16_CCITT_FALSE, crcShift]
    by_cases h : reg.testBit 15 = true <;> simp [h]
  · have : crcShift (true.toNat <<< 15) = 0x1021 := by decide
    rw [this]
    simp [crcRefBit, CRC16_CCITT_FALSE]
    by_cases h : reg.testBit 15 = true <;> simp [h, Nat.xor_assoc]

/-- Feeding bits is affine in the register: a register difference `y` passes
through as `bits.length` shift steps of `y`. -/
theorem crcRef_fold_xor (e : Nat → Bool) (bits : List Nat) : ∀ x y : Nat,
    bits.foldl (fun r i => crcShift (r ^^^ ((e i).toNat <<< 15))) (x ^^^ y)
      = bits.foldl (fun r i => crcShift (r ^^^ ((e i).toNat <<< 15))) x
          ^^^ Nat.iterate crcShift bits.length y := by
  induction bits with
  | nil => intro x y; rfl
  | cons i rest ih =>
    intro x y
    simp only [List.foldl_cons, List.length_cons, Function.iterate_succ_apply]
    rw [← ih, ← crcShift_xor]
    congr 2
    simp only [Nat.xor_assoc, Nat.xor_comm y]

/-- On the zero register the byte-wise and the bit-wise update agree, checked for
all 256 byte values. -/
theorem crcOuter_zero_eq : ∀ b < 256,
    Nat.iterate crcShift 8 (b <<< 8)
      = [7, 6, 5, 4, 3, 2, 1, 0].foldl (fun r i => crcShift (r ^^^ ((b.testBit i).toNat <<< 15))) 0 := by
  set_option maxRecDepth 1000000 in decide


/-- The reference byte update at the CCITT-FALSE parameters, in terms of the
shift step. -/
theorem crcRefByte_eq (reg b : Nat) :
    crcRefByte CRC16_CCITT_FALSE reg b
      = [7, 6, 5, 4, 3, 2, 1, 0].foldl
          (fun r i => crcShift (r ^^^ ((b.testBit i).toNat <<< 15))) reg := by
  have hfun : (fun r i => crcRefBit CRC16_CCITT_FALSE r (b.testBit i))
      = fun r i => crcShift (r ^^^ ((b.testBit i).toNat <<< 15)) := by
    funext r i
    exact crcRefBit_eq r (b.testBit i)
  show [7, 6, 5, 4, 3, 2, 1, 0].foldl
      (fun r i => crcRefBit CRC16_CCITT_FALSE r (b.testBit i)) reg = _
  rw [hfun]

/-- The loop body of `crc16_ccitt` equals the reference byte update. -/
theorem crcOuter_eq_ref (reg b : Nat) (hreg : reg < 0x10000) (hb : b < 256) :
    crcOuter reg b = crcRefByte CRC16_CCITT_FALSE reg b := by
  have hlt : reg ^^^ (b <<< 8) < 2 ^ 16 :=
    Nat.xor_lt_two_pow (by simpa using hreg) (by rw [Nat.shiftLeft_eq]; omega)
  have hmod : (reg ^^^ (b <<< 8)) % 0x10000 = reg ^^^ (b <<< 8) := Nat.mod_eq_of_lt hlt
  have hfold := crcRef_fold_xor (fun i => b.testBit i) [7, 6, 5, 4, 3, 2, 1, 0] 0 reg
  rw [Nat.zero_xor] at hfold
  rw [crcRefByte_eq, hfold, ← crcOuter_zero_eq b hb, Nat.xor_comm]
  simp only [crcOuter, hmod, List.length_cons, List.length_nil, crcShift_iterate_xor]

/-- The shift step stays within 16 bits. -/
theorem crcShift_lt (x : Nat) : crcShift x < 0x10000 := by
  unfold crcShift
  split <;> exact Nat.mod_lt _ (by norm_num)

/-- The loop body of `crc16_ccitt` stays within 16 bits. -/
theorem crcOuter_lt (reg b : Nat) : crcOuter reg b < 0x10000 := by
  unfold crcOuter
  rw [show (8 : Nat) = 7 + 1 from rfl, Function.iterate_succ_apply']
  exact crcShift_lt _

/-- The firmware loop and the reference agree from any 16-bit register value. -/
theorem crc_fold_eq_ref (data : List Nat) (hdata : ∀ b ∈ data, b < 256) :
    ∀ reg, reg < 0x10000 →
      data.foldl crcOuter reg = data.foldl (crcRefByte CRC16_CCITT_FALSE) reg := by
  induction data with
  | nil => intro reg _; rfl
  | cons b rest ih =>
    intro reg hreg
    rw [List.foldl_cons, List.foldl_cons,
      ← crcOuter_eq_ref reg b hreg (hdata b (List.mem_cons_self _ _))]
    exact ih (fun c hc => hdata c (List.mem_cons_of_mem _ hc)) _ (crcOuter_lt reg b)

/-- The firmware CRC equals the reference CRC at the CCITT-FALSE parameters. -/
theorem crc16_eq_ref (data : List Nat) (hdata : ∀ b ∈ data, b < 256) :
    crc16_ccitt data = crcRef CRC16_CCITT_FALSE data := by
  have h := crc_fold_eq_ref data hdata 0xFFFF (by norm_num)
  show data.foldl crcOuter 0xFFFF = data.foldl (crcRefByte CRC16_CCITT_FALSE) 0xFFFF ^^^ 0
  rw [h, Nat.xor_zero]

/-! ## Lemmas on the transmit ring -/

/-- Copying does not change the size of the destination. -/
theorem memcpy_length (src : List Nat) : ∀ (dst : List Nat) (off : Nat),
    (memcpy dst off src).length = dst.length := by
  induction src with
  | nil => intro dst off; rfl
  | cons b rest ih => intro dst off; simp [memcpy, ih]

/-- Contents of the destination after a copy that fits into it. -/
theorem memcpy_getElem? (src : List Nat) : ∀ (dst : List Nat) (off j : Nat),
    off + src.length ≤ dst.length →
    (memcpy dst off src)[j]? = if off ≤ j ∧ j < off + src.length then src[j - off]? else dst[j]? := by
  induction src with
  | nil =>
    intro dst off j _
    rw [memcpy, if_neg (by simp only [List.length_nil]; omega)]
  | cons b rest ih =>
    intro dst off j h
    simp only [List.length_cons] at h
    rw [memcpy, ih _ _ _ (by simp; omega)]
    by_cases h1 : off + 1 ≤ j ∧ j < off + 1 + rest.length
    · have h2 : off ≤ j ∧ j < off + (b :: rest).length := by simp; omega
      rw [if_pos h1, if_pos h2]
      have : j - off = (j - (off + 1)) + 1 := by omega
      rw [this, List.getElem?_cons_succ]
    · rw [if_neg h1]
      by_cases h3 : j = off
      · subst h3
        have h2 : j ≤ j ∧ j < j + (b :: rest).length := by simp
        rw [if_pos h2, Nat.sub_self, List.getElem?_cons_zero, List.getElem?_set_self (by omega)]

      · have h2 : ¬ (off ≤ j ∧ j < off + (b :: rest).length) := by simp; omega
        rw [if_neg h2, List.getElem?_set_ne (by omega)]

/-- Storing data does not change the size of the ring storage. -/
theorem txStore_length (ring : List Nat) (head : Nat) (d : List Nat) :
    (txStore ring head d).length = ring.length := by
  unfold txStore
  simp only []
  split <;> simp [memcpy_length]

/-- Contents of the ring storage after the two copies of `txWriteBytes`: position
`j` holds data byte `(j - head) mod 8192` when that index is below the data
length, and its old value otherwise. -/
theorem txStore_getElem? (ring : List Nat) (head : Nat) (d : List Nat) (j : Nat)
    (hring : ring.length = TX_RING_SIZE) (hhead : head < TX_RING_SIZE)
    (hlen : d.length ≤ TX_RING_SIZE) :
    (txStore ring head d)[j]?
      = if j < TX_RING_SIZE ∧ (j + TX_RING_SIZE - head) % TX_RING_SIZE < d.length
        then d[(j + TX_RING_SIZE - head) % TX_RING_SIZE]? else ring[j]? := by
  unfold txStore TX_RING_SIZE at *
  simp only []
  by_cases hwrap : d.length > min d.length (8192 - head)
  · rw [if_pos hwrap, memcpy_getElem? _ _ _ _ (by simp [memcpy_length]; omega),
      memcpy_getElem? _ _ _ _ (by simp; omega)]
    simp only [List.length_take, List.length_drop, List.getElem?_take, List.getElem?_drop]
    split_ifs <;> first | rfl | (exfalso; omega) | (congr 1; omega)
  · rw [if_neg hwrap, memcpy_getElem? _ _ _ _ (by simp; omega)]
    simp only [List.length_take, List.getElem?_take]
    split_ifs <;> first | rfl | (exfalso; omega) | (congr 1; omega)

/-- Reading a position inside the storage. -/
theorem ringAt_some (ring : List Nat) (p : Nat) (h : p < ring.length) :
    ring[p]? = some (ringAt ring p) := by
  simp [ringAt, List.getElem?_eq_getElem h]

/-- The queued content, position by position. -/
theorem txQueued_getElem? (s : TxState) (i : Nat) :
    (txQueued s)[i]?
      = if i < s.s_count then some (ringAt s.s_txRing ((s.s_tail + i) % TX_RING_SIZE))
        else none := by
  unfold txQueued
  rw [List.getElem?_map]
  by_cases h : i < s.s_count
  · rw [if_pos h, List.getElem?_range h]; rfl
  · rw [if_neg h, List.getElem?_eq_none (by simpa using h)]; rfl

/-- The queued content has `s_count` bytes. -/
theorem txQueued_length (s : TxState) : (txQueued s).length = s.s_count := by
  simp [txQueued]

/-- The state after a call of `txWriteBytes` that has room for its data. -/
theorem txWriteBytes_ok (s : TxState) (d : List Nat) (hd : d.length ≠ 0)
    (hfree : d.length ≤ txFreeBytes s) :
    txWriteBytes s (some d) = (true,
      { s with
        s_txRing := txStore s.s_txRing s.s_head d
        s_head := (s.s_head + d.length) % TX_RING_SIZE
        s_count := s.s_count + d.length
        g_txMaxQueuedBytes :=
          if s.s_count + d.length > s.g_txMaxQueuedBytes then (s.s_count + d.length) % 2 ^ 32
          else s.g_txMaxQueuedBytes }) := by
  simp only [txWriteBytes, if_neg hd, if_neg (Nat.not_lt.mpr hfree)]

/-- A successful write appends its data to the queued content and keeps the ring
consistent. -/
theorem txWriteBytes_queued (s : TxState) (d : List Nat) (hinv : TxInv s)
    (hd : d.length ≠ 0) (hfree : d.length ≤ txFreeBytes s) :
    txQueued (txWriteBytes s (some d)).2 = txQueued s ++ d ∧ TxInv (txWriteBytes s (some d)).2 := by
  rw [txWriteBytes_ok s d hd hfree]
  obtain ⟨hring, htail, hcount, hhead⟩ := hinv
  unfold txFreeBytes at hfree
  have hheadlt : s.s_head < TX_RING_SIZE := by
    rw [hhead]; exact Nat.mod_lt _ (by unfold TX_RING_SIZE; omega)
  constructor
  · apply List.ext_getElem?
    intro i
    rw [txQueued_getElem?]
    simp only []
    by_cases h1 : i < s.s_count
    · have hp : (s.s_tail + i) % TX_RING_SIZE < TX_RING_SIZE :=
        Nat.mod_lt _ (by unfold TX_RING_SIZE; omega)
      rw [if_pos (by omega), List.getElem?_append_left (by rw [txQueued_length]; exact h1),
        txQueued_getElem?, if_pos h1]
      congr 1
      unfold ringAt
      rw [txStore_getElem? _ _ _ _ hring hheadlt (by unfold TX_RING_SIZE at *; omega),
        if_neg (by unfold TX_RING_SIZE at *; omega)]
    · rw [List.getElem?_append_right (by rw [txQueued_length]; omega), txQueued_length]
      by_cases h2 : i < s.s_count + d.length
      · have hp : (s.s_tail + i) % TX_RING_SIZE < TX_RING_SIZE :=
          Nat.mod_lt _ (by unfold TX_RING_SIZE; omega)
        have hk : ((s.s_tail + i) % TX_RING_SIZE + TX_RING_SIZE - s.s_head) % TX_RING_SIZE
            = i - s.s_count := by unfold TX_RING_SIZE at *; omega
        rw [if_pos h2, ← ringAt_some _ _ (by rw [txStore_length, hring]; exact hp),
          txStore_getElem? _ _ _ _ hring hheadlt (by unfold TX_RING_SIZE at *; omega), hk,
          if_pos ⟨hp, by omega⟩]
      · rw [if_neg h2, List.getElem?_eq_none (by omega)]
  · refine ⟨?_, htail, ?_, ?_⟩
    · simp only [txStore_length, hring]
    · simp only []; omega
    · simp only []; unfold TX_RING_SIZE at *; omega


/-- On a consistent ring the contiguous readable span is queued and does not run
past the end of the storage. -/
theorem contiguousReadable_le (s : TxState) (hinv : TxInv s) :
    contiguousReadable s ≤ s.s_count ∧ s.s_tail + contiguousReadable s ≤ TX_RING_SIZE := by
  obtain ⟨_, htail, hcount, hhead⟩ := hinv
  unfold contiguousReadable TX_RING_SIZE at *
  split_ifs <;> omega

/-- A service call removes the accepted bytes from the front of the queued content
and keeps the ring consistent. -/
theorem txService_queued (s : TxState) (available : Int) (accept : Nat) (hinv : TxInv s) :
    txQueued s = (txService s available accept).2 ++ txQueued (txService s available accept).1 ∧
      TxInv (txService s available accept).1 := by
  unfold txService
  simp only []
  split_ifs with h1 h2 h3 h4
  · exact ⟨rfl, hinv⟩
  · exact ⟨rfl, hinv⟩
  · exact ⟨rfl, hinv⟩
  · exact ⟨rfl, hinv⟩
  · obtain ⟨hcr1, hcr2⟩ := contiguousReadable_le s hinv
    obtain ⟨hring, htail, hcount, hhead⟩ := hinv
    generalize hchunk : min available.toNat (contiguousReadable s) = chunk at *
    generalize hw : min accept chunk = w at *
    have hchunk_le : chunk ≤ contiguousReadable s := by omega
    have hw_le : w ≤ chunk := by omega
    have hacc : (List.take w (List.take chunk (List.drop s.s_tail s.s_txRing))).length = w := by
      simp only [List.length_take, List.length_drop, hring]
      omega
    constructor
    · apply List.ext_getElem?
      intro i
      by_cases hi : i < w
      · rw [List.getElem?_append_left (by rw [hacc]; exact hi), txQueued_getElem?,
          if_pos (by omega), List.getElem?_take_of_lt hi, List.getElem?_take_of_lt (by omega),
          List.getElem?_drop, ringAt_some _ _ (by omega)]
        congr 2
        unfold TX_RING_SIZE at *
        omega
      · rw [List.getElem?_append_right (by rw [hacc]; omega), hacc, txQueued_getElem?,
          txQueued_getElem?]
        simp only []
        by_cases hi2 : i < s.s_count
        · rw [if_pos hi2, if_pos (by omega)]
          congr 2
          unfold TX_RING_SIZE at *
          omega
        · rw [if_neg hi2, if_neg (by omega)]
    · refine ⟨hring, ?_, ?_, ?_⟩
      · exact Nat.mod_lt _ (by unfold TX_RING_SIZE; omega)
      · simp only []; omega
      · simp only []; unfold TX_RING_SIZE at *; omega

/-- One call preserves the history invariant `written = wire ++ queued` and the
consistency of the ring. -/
theorem txRunOp_inv (t : TxTrace) (op : TxOp)
    (h : t.written = t.wire ++ txQueued t.state ∧ TxInv t.state) :
    (txRunOp t op).written = (txRunOp t op).wire ++ txQueued (txRunOp t op).state ∧
      TxInv (txRunOp t op).state := by
  obtain ⟨hw, hinv⟩ := h
  cases op with
  | write data =>
    cases data with
    | none => simpa [txRunOp, txWriteBytes] using ⟨hw, hinv⟩
    | some d =>
      by_cases hd : d.length = 0
      · have hnil : d = [] := List.length_eq_zero.mp hd
        simpa [txRunOp, txWriteBytes, hnil] using ⟨hw, hinv⟩
      · by_cases hfree : d.length ≤ txFreeBytes t.state
        · obtain ⟨hq, hinv2⟩ := txWriteBytes_queued t.state d hinv hd hfree
          have hok := txWriteBytes_ok t.state d hd hfree
          refine ⟨?_, hinv2⟩
          simp only [txRunOp, hq]
          rw [hok]
          simp [hw]
        · have hdrop : txWriteBytes t.state (some d) = (false, noteDrop t.state d.length) := by
            simp only [txWriteBytes, if_neg hd, if_pos (Nat.lt_of_not_le hfree)]
          simp only [txRunOp, hdrop]
          exact ⟨hw, hinv⟩
  | service available accept =>
    obtain ⟨hq, hinv2⟩ := txService_queued t.state available accept hinv
    refine ⟨?_, hinv2⟩
    simp only [txRunOp, hw, List.append_assoc]
    rw [← hq]

/-- A sequence of calls preserves the history invariant and the consistency of
the ring. -/
theorem txRun_inv (ops : List TxOp) : ∀ t : TxTrace,
    (t.written = t.wire ++ txQueued t.state ∧ TxInv t.state) →
    ((ops.foldl txRunOp t).written
        = (ops.foldl txRunOp t).wire ++ txQueued (ops.foldl txRunOp t).state ∧
      TxInv (ops.foldl txRunOp t).state) := by
  induction ops with
  | nil => intro t h; exact h
  | cons op rest ih =>
    intro t h
    rw [List.foldl_cons]
    exact ih _ (txRunOp_inv t op h)

/-- After `txInit()` the ring is empty and consistent. -/
theorem txInit_inv (s0 : TxState) (hring : s0.s_txRing.length = TX_RING_SIZE) :
    txQueued (txInit s0) = [] ∧ TxInv (txInit s0) := by
  refine ⟨by simp [txQueued, txInit], hring, ?_, ?_, ?_⟩ <;>
    simp [txInit, TX_RING_SIZE]

/-! ## Lemmas on the framer admission -/

/-- No byte of an encoded packet is zero. -/
theorem cobsEncode_mem_ne_zero (raw : List Nat) : ∀ b ∈ cobsEncode raw, b ≠ 0 := by
  rw [cobsEncode_eq_runs]
  exact cobsRuns_ne_zero raw [] (by simp)

/-- The ring is consistent at boot. -/
theorem txBoot_inv : TxInv txBoot := by
  refine ⟨?_, by decide, by decide, by decide⟩
  simp only [txBoot, List.length_replicate, TX_RING_SIZE]

/-- An encoded packet has at least one byte. -/
theorem cobsEncode_length_ne_zero (raw : List Nat) : (cobsEncode raw).length ≠ 0 := by
  rw [cobsEncode_eq_runs]
  have := cobsRuns_length_ge raw []
  omega

/-- The refusing branch of `emitBinaryRawPacket`. -/
theorem emitBinaryRawPacket_drop (s : TxState) (raw : List Nat)
    (h : txFreeBytes s < (cobsEncode raw).length + 1) :
    emitBinaryRawPacket s raw = (false,
      { s with
        g_txBytesDroppedTotal :=
          (s.g_txBytesDroppedTotal + ((cobsEncode raw).length + 1) % 2 ^ 32) % 2 ^ 32
        g_txPacketsDroppedTotal := (s.g_txPacketsDroppedTotal + 1) % 2 ^ 32
        g_pendingTxOverflowFlag := true }) := by
  simp only [emitBinaryRawPacket, if_pos h]

/-- The admitting branch of `emitBinaryRawPacket`: both writes succeed. -/
theorem emitBinaryRawPacket_accepted (s : TxState) (raw : List Nat)
    (h : (cobsEncode raw).length + 1 ≤ txFreeBytes s) :
    emitBinaryRawPacket s raw
        = (true, (txWriteBytes (txWriteBytes s (some (cobsEncode raw))).2 (some [0])).2) ∧
      [0].length ≤ txFreeBytes (txWriteBytes s (some (cobsEncode raw))).2 ∧
      (txWriteBytes (txWriteBytes s (some (cobsEncode raw))).2 (some [0])).2.s_count
        = s.s_count + (cobsEncode raw).length + 1 := by
  have h1 := txWriteBytes_ok s (cobsEncode raw) (cobsEncode_length_ne_zero raw) (by omega)
  have hfree1 : [0].length ≤ txFreeBytes (txWriteBytes s (some (cobsEncode raw))).2 := by
    rw [h1]
    unfold txFreeBytes at *
    simp only [List.length_cons, List.length_nil]
    omega
  have h2 := txWriteBytes_ok _ [0] (by simp) hfree1
  have e1 : (txWriteBytes s (some (cobsEncode raw))).1 = true := by rw [h1]
  have e2 : (txWriteBytes (txWriteBytes s (some (cobsEncode raw))).2 (some [0])).1 = true := by
    rw [h2]
  refine ⟨?_, hfree1, ?_⟩
  · simp only [emitBinaryRawPacket, if_neg (Nat.not_lt.mpr h), txWriteByte, e1, e2, Bool.and_self]
  · rw [h2]
    simp only [List.length_cons, List.length_nil]
    rw [h1]

/-! ## Properties of the codecs -/

/-- C1: for every byte sequence `x`, of any length and content, the standard
COBS decoder applied to `cobsEncode x` returns exactly `x`. -/
theorem cobsEncode_roundtrip (x : List Nat) : cobsDecode (cobsEncode x) = x := by
  rw [cobsEncode_eq_runs]
  have h := cobsDecodeGo_runs x 0xFF [] (by simp)
  simpa [cobsDecode] using h

/-- C2: no byte of the output of `cobsEncode`, over the returned length, is
`0x00`. -/
theorem cobsEncode_no_zero (x : List Nat) : ∀ b ∈ cobsEncode x, b ≠ 0 :=
  cobsEncode_mem_ne_zero x

/-- Witness of C2 on the first test vector: the code byte `0x04` is in the
output and it is not zero. -/
theorem cobsEncode_no_zero_witness :
    4 ∈ cobsEncode [0x11, 0x22, 0x33] ∧ 4 ≠ 0 :=
  ⟨by decide, cobsEncode_no_zero [0x11, 0x22, 0x33] 4 (by decide)⟩

/-- C3: for an input of length `n` the length returned by `cobsEncode` is at
least `n + 1` and at most `n + ⌈n / 254⌉ + 1`; the ceiling is written
`(n + 253) / 254`. -/
theorem cobsEncode_length_bounds (x : List Nat) :
    x.length + 1 ≤ (cobsEncode x).length ∧
      (cobsEncode x).length ≤ x.length + (x.length + 253) / 254 + 1 := by
  rw [cobsEncode_eq_runs]
  have hlo := cobsRuns_length_ge x []
  have hhi := cobsRuns_length_le x [] (by simp)
  simp only [List.length_nil, Nat.zero_add] at hlo hhi
  constructor
  · omega
  · omega

/-- C4: for an input of length `n ≤ 253`, `cobsEncode` returns exactly `n + 1`
bytes, and when the input has no zero byte the output is the byte `n + 1`
followed by the input unchanged; the two test vectors of the repository
encode to the expected 4 and 7 bytes. -/
theorem cobsEncode_short (x : List Nat) (hlen : x.length ≤ 253) :
    (cobsEncode x).length = x.length + 1 ∧
      ((∀ b ∈ x, b ≠ 0) → cobsEncode x = (x.length + 1) :: x) ∧
      cobsEncode [0x11, 0x22, 0x33] = [0x04, 0x11, 0x22, 0x33] ∧
      cobsEncode [0x11, 0x00, 0x22, 0x00, 0x00, 0x33]
        = [0x02, 0x11, 0x02, 0x22, 0x01, 0x02, 0x33] := by
  refine ⟨?_, ?_, by decide, by decide⟩
  · rw [cobsEncode_eq_runs]
    have hlo := cobsRuns_length_ge x []
    have hhi := cobsRuns_length_le x [] (by simp)
    simp only [List.length_nil, Nat.zero_add] at hlo hhi
    omega
  · intro hnz
    rw [cobsEncode_eq_runs]
    have h := cobsRuns_no_zero x [] (by simpa using hlen) hnz
    simpa using h

/-- Witness of C4 on the first test vector of the repository. -/
theorem cobsEncode_short_witness :
    [0x11, 0x22, 0x33].length ≤ 253 ∧
      (cobsEncode [0x11, 0x22, 0x33]).length = 4 ∧
      cobsEncode [0x11, 0x22, 0x33] = [4, 0x11, 0x22, 0x33] :=
  ⟨by decide, (cobsEncode_short [0x11, 0x22, 0x33] (by decide)).1,
    (cobsEncode_short [0x11, 0x22, 0x33] (by decide)).2.1 (by decide)⟩

/-- C5: on every byte sequence `crc16_ccitt` equals the CRC-16/CCITT-FALSE
reference (polynomial `0x1021`, initial value `0xFFFF`, bits taken most
significant first, no reflection, no final XOR); it returns `0x29B1` on the
nine ASCII bytes "123456789" and `0xFFFF` on the empty input. -/
theorem crc16_ccitt_is_ccitt_false (data : List Nat) (hbytes : ∀ b ∈ data, b < 256) :
    crc16_ccitt data = crcRef CRC16_CCITT_FALSE data ∧
      crc16_ccitt crcCheckMessage = 0x29B1 ∧ crc16_ccitt [] = 0xFFFF := by
  refine ⟨crc16_eq_ref data hbytes, ?_, rfl⟩
  set_option maxRecDepth 100000 in decide

/-- Witness of C5 on the check message "123456789". -/
theorem crc16_ccitt_is_ccitt_false_witness :
    (∀ b ∈ crcCheckMessage, b < 256) ∧
      crc16_ccitt crcCheckMessage = crcRef CRC16_CCITT_FALSE crcCheckMessage :=
  ⟨by decide, (crc16_ccitt_is_ccitt_false crcCheckMessage (by decide)).1⟩

/-! ## Properties of the framer admission and of the transmit ring -/

/-- The encoding of a raw packet of up to 95 bytes fits the buffer `enc`. -/
theorem cobsEncode_fits_enc (raw : List Nat) (hfit : raw.length ≤ 95) :
    (cobsEncode raw).length ≤ ENC_SIZE := by
  rw [cobsEncode_eq_runs]
  have hhi := cobsRuns_length_le raw [] (by simp)
  simp only [List.length_nil, Nat.zero_add] at hhi
  unfold ENC_SIZE
  omega

/-- C6: `emitBinaryRawPacket` never enqueues a part of a packet.  For every
ring state and every raw packet of up to 95 bytes, which are those whose
encoding fits the buffer `enc[96]` of the function, it returns false exactly
when `txFreeBytes() < encLen + 1`; when it returns false the storage, the
indices and the queued byte count are those before the call; when it returns
true the queued byte count has grown by `encLen + 1`. -/
theorem emitBinaryRawPacket_all_or_nothing (s : TxState) (raw : List Nat)
    (hfit : raw.length ≤ 95) :
    (cobsEncode raw).length ≤ ENC_SIZE ∧
      ((emitBinaryRawPacket s raw).1 = false ↔ txFreeBytes s < (cobsEncode raw).length + 1) ∧
      ((emitBinaryRawPacket s raw).1 = false →
        txQueuedBytes (emitBinaryRawPacket s raw).2 = txQueuedBytes s ∧
          (emitBinaryRawPacket s raw).2.s_txRing = s.s_txRing ∧
          (emitBinaryRawPacket s raw).2.s_head = s.s_head ∧
          (emitBinaryRawPacket s raw).2.s_tail = s.s_tail) ∧
      ((emitBinaryRawPacket s raw).1 = true →
        txQueuedBytes (emitBinaryRawPacket s raw).2
          = txQueuedBytes s + (cobsEncode raw).length + 1) := by
  refine ⟨cobsEncode_fits_enc raw hfit, ?_⟩
  by_cases h : txFreeBytes s < (cobsEncode raw).length + 1
  · rw [emitBinaryRawPacket_drop s raw h]
    simp [h, txQueuedBytes]
  · obtain ⟨hret, _, hcount⟩ := emitBinaryRawPacket_accepted s raw (Nat.le_of_not_lt h)
    rw [hret]
    simp [h, txQueuedBytes, hcount]

/-- Witness of C6: at boot a 3-byte packet is admitted and 5 bytes are
queued; with 8190 bytes queued it is refused and the count stays 8190. -/
theorem emitBinaryRawPacket_all_or_nothing_witness :
    [1, 0, 2].length ≤ 95 ∧
      txQueuedBytes (emitBinaryRawPacket txBoot [1, 0, 2]).2 = 0 + 4 + 1 ∧
      txQueuedBytes (emitBinaryRawPacket { txBoot with s_head := 8190, s_count := 8190 } [1, 0, 2]).2 = 8190 :=
  ⟨by decide,
    (emitBinaryRawPacket_all_or_nothing txBoot [1, 0, 2] (by decide)).2.2.2
      (by rw [(emitBinaryRawPacket_accepted txBoot [1, 0, 2] (by decide)).1]),
    ((emitBinaryRawPacket_all_or_nothing { txBoot with s_head := 8190, s_count := 8190 } [1, 0, 2]
      (by decide)).2.2.1
      (by rw [emitBinaryRawPacket_drop _ [1, 0, 2] (by decide)])).1⟩

/-- C7: when `emitBinaryRawPacket` succeeds on a consistent ring for a raw
packet of up to 95 bytes, which are those whose encoding fits the buffer
`enc[96]` of the function, the queued content after the call is the queued
content before it followed by `cobsEncode raw` and one `0x00`; among these
appended bytes the only `0x00` is the last one. -/
theorem emitBinaryRawPacket_framing (s : TxState) (raw : List Nat) (hinv : TxInv s)
    (hfit : raw.length ≤ 95) (hok : (emitBinaryRawPacket s raw).1 = true) :
    (cobsEncode raw).length ≤ ENC_SIZE ∧
      txQueued (emitBinaryRawPacket s raw).2 = txQueued s ++ (cobsEncode raw ++ [0]) ∧
      (∀ i, (cobsEncode raw ++ [0])[i]? = some 0 ↔ i = (cobsEncode raw).length) ∧
      TxInv (emitBinaryRawPacket s raw).2 := by
  refine ⟨cobsEncode_fits_enc raw hfit, ?_⟩
  have hfree : (cobsEncode raw).length + 1 ≤ txFreeBytes s := by
    by_contra hlt
    rw [emitBinaryRawPacket_drop s raw (Nat.lt_of_not_le hlt)] at hok
    exact Bool.false_ne_true hok
  obtain ⟨hret, hfree1, _⟩ := emitBinaryRawPacket_accepted s raw hfree
  obtain ⟨hq1, hinv1⟩ :=
    txWriteBytes_queued s (cobsEncode raw) hinv (cobsEncode_length_ne_zero raw) (by omega)
  obtain ⟨hq2, hinv2⟩ := txWriteBytes_queued _ [0] hinv1 (by simp) hfree1
  rw [hret]
  refine ⟨?_, ?_, hinv2⟩
  · show txQueued (txWriteBytes (txWriteBytes s (some (cobsEncode raw))).2 (some [0])).2 = _
    rw [hq2, hq1, List.append_assoc]
  · intro i
    by_cases hi : i < (cobsEncode raw).length
    · rw [List.getElem?_append_left hi, List.getElem?_eq_getElem hi]
      have hmem : (cobsEncode raw)[i] ∈ cobsEncode raw := List.getElem_mem hi
      have hne : (cobsEncode raw)[i] ≠ 0 := cobsEncode_mem_ne_zero raw _ hmem
      constructor
      · intro h
        exact absurd (Option.some.inj h) hne
      · intro h
        omega
    · rw [List.getElem?_append_right (by omega)]
      by_cases hi2 : i = (cobsEncode raw).length
      · simp [hi2]
      · have : i - (cobsEncode raw).length = (i - (cobsEncode raw).length - 1) + 1 := by omega
        rw [this]
        simp [hi2]

/-- Witness of C7: at boot, emitting the raw packet `[1, 0, 2]`. -/
theorem emitBinaryRawPacket_framing_witness :
    TxInv txBoot ∧ [1, 0, 2].length ≤ 95 ∧ (emitBinaryRawPacket txBoot [1, 0, 2]).1 = true ∧
      txQueued (emitBinaryRawPacket txBoot [1, 0, 2]).2
        = txQueued txBoot ++ (cobsEncode [1, 0, 2] ++ [0]) :=
  ⟨txBoot_inv, by decide,
    by rw [(emitBinaryRawPacket_accepted txBoot [1, 0, 2] (by decide)).1],
    (emitBinaryRawPacket_framing txBoot [1, 0, 2] txBoot_inv (by decide)
      (by rw [(emitBinaryRawPacket_accepted txBoot [1, 0, 2] (by decide)).1])).2.1⟩

/-- C8: `txWriteBytes` is atomic on overflow.  For a non-null buffer of
`len > txFreeBytes()` bytes the call returns false, leaves the storage,
`s_head`, `s_tail` and `s_count` unchanged, adds `len` to
`g_txBytesDroppedTotal` and 1 to `g_txPacketsDroppedTotal` (both unsigned
32-bit) and sets `g_pendingTxOverflowFlag`. -/
theorem txWriteBytes_overflow (s : TxState) (d : List Nat) (hover : d.length > txFreeBytes s) :
    (txWriteBytes s (some d)).1 = false ∧
      (txWriteBytes s (some d)).2.s_txRing = s.s_txRing ∧
      (txWriteBytes s (some d)).2.s_head = s.s_head ∧
      (txWriteBytes s (some d)).2.s_tail = s.s_tail ∧
      (txWriteBytes s (some d)).2.s_count = s.s_count ∧
      (txWriteBytes s (some d)).2.g_txBytesDroppedTotal
        = (s.g_txBytesDroppedTotal + d.length) % 2 ^ 32 ∧
      (txWriteBytes s (some d)).2.g_txPacketsDroppedTotal
        = (s.g_txPacketsDroppedTotal + 1) % 2 ^ 32 ∧
      (txWriteBytes s (some d)).2.g_pendingTxOverflowFlag = true ∧
      (txWriteBytes s (some d)).2.g_txMaxQueuedBytes = s.g_txMaxQueuedBytes := by
  have hd : d.length ≠ 0 := by omega
  have hdrop : txWriteBytes s (some d) = (false, noteDrop s d.length) := by
    simp only [txWriteBytes, if_neg hd, if_pos hover]
  rw [hdrop]
  refine ⟨rfl, rfl, rfl, rfl, rfl, ?_, rfl, rfl, rfl⟩
  simp only [noteDrop]
  omega

/-- Witness of C8: three bytes offered to a ring with two free places. -/
theorem txWriteBytes_overflow_witness :
    [7, 8, 9].length > txFreeBytes { txBoot with s_head := 8190, s_count := 8190 } ∧
      (txWriteBytes { txBoot with s_head := 8190, s_count := 8190 } (some [7, 8, 9])).1 = false ∧
      (txWriteBytes { txBoot with s_head := 8190, s_count := 8190 } (some [7, 8, 9])).2.s_count = 8190 :=
  ⟨by decide,
    (txWriteBytes_overflow { txBoot with s_head := 8190, s_count := 8190 } [7, 8, 9] (by decide)).1,
    (txWriteBytes_overflow { txBoot with s_head := 8190, s_count := 8190 } [7, 8, 9] (by decide)).2.2.2.2.1⟩

/-- C9: when `0 < len ≤ txFreeBytes()`, `txWriteBytes` returns true, `s_count`
grows by `len`, `s_head` becomes `(s_head + len) mod 8192`, `s_tail` is
unchanged, byte `i` of the data is stored at ring position
`(s_head + i) mod 8192`, the drop counters and the overflow flag are
unchanged, and `g_txMaxQueuedBytes` becomes the maximum of its old value and
the new count. -/
theorem txWriteBytes_append (s : TxState) (d : List Nat)
    (hring : s.s_txRing.length = TX_RING_SIZE) (hhead : s.s_head < TX_RING_SIZE)
    (hd : 0 < d.length) (hfree : d.length ≤ txFreeBytes s) :
    (txWriteBytes s (some d)).1 = true ∧
      (txWriteBytes s (some d)).2.s_count = s.s_count + d.length ∧
      (txWriteBytes s (some d)).2.s_head = (s.s_head + d.length) % 8192 ∧
      (txWriteBytes s (some d)).2.s_tail = s.s_tail ∧
      (∀ i, i < d.length →
        (txWriteBytes s (some d)).2.s_txRing[(s.s_head + i) % 8192]? = d[i]?) ∧
      (txWriteBytes s (some d)).2.g_txBytesDroppedTotal = s.g_txBytesDroppedTotal ∧
      (txWriteBytes s (some d)).2.g_txPacketsDroppedTotal = s.g_txPacketsDroppedTotal ∧
      (txWriteBytes s (some d)).2.g_pendingTxOverflowFlag = s.g_pendingTxOverflowFlag ∧
      (txWriteBytes s (some d)).2.g_txMaxQueuedBytes
        = max s.g_txMaxQueuedBytes (s.s_count + d.length) := by
  rw [txWriteBytes_ok s d (by omega) hfree]
  have hlen : d.length ≤ TX_RING_SIZE := by unfold txFreeBytes at hfree; omega
  refine ⟨rfl, rfl, rfl, rfl, ?_, rfl, rfl, rfl, ?_⟩
  · intro i hi
    show (txStore s.s_txRing s.s_head d)[(s.s_head + i) % 8192]? = d[i]?
    have hk : ((s.s_head + i) % 8192 + TX_RING_SIZE - s.s_head) % TX_RING_SIZE = i := by
      unfold TX_RING_SIZE at *; omega
    rw [txStore_getElem? _ _ _ _ hring hhead hlen, hk,
      if_pos ⟨by unfold TX_RING_SIZE; omega, hi⟩]
  · show (if s.s_count + d.length > s.g_txMaxQueuedBytes then (s.s_count + d.length) % 2 ^ 32
        else s.g_txMaxQueuedBytes) = _
    unfold txFreeBytes TX_RING_SIZE at *
    split <;> omega

/-- Witness of C9: three bytes written to the empty ring at boot. -/
theorem txWriteBytes_append_witness :
    (txWriteBytes txBoot (some [7, 8, 9])).1 = true ∧
      (txWriteBytes txBoot (some [7, 8, 9])).2.s_count = 0 + 3 ∧
      (txWriteBytes txBoot (some [7, 8, 9])).2.s_head = (0 + 3) % 8192 :=
  ⟨(txWriteBytes_append txBoot [7, 8, 9] txBoot_inv.1 (by decide) (by decide) (by decide)).1,
    (txWriteBytes_append txBoot [7, 8, 9] txBoot_inv.1 (by decide) (by decide) (by decide)).2.1,
    (txWriteBytes_append txBoot [7, 8, 9] txBoot_inv.1 (by decide) (by decide)
      (by decide)).2.2.1⟩

/-- C10: the transmit ring preserves FIFO order.  For every sequence of
`txWriteBytes` and `txService` calls run after `txInit()`, whatever the
serial peripheral reports and accepts (up to the offered chunk), the bytes
accepted by the peripheral are a leading segment of the concatenation of all
successfully written data, and what remains of that concatenation is exactly
the queued content of the ring, in order. -/
theorem txRing_fifo (s0 : TxState) (ops : List TxOp)
    (hring : s0.s_txRing.length = TX_RING_SIZE) :
    (txRun s0 ops).wire <+: (txRun s0 ops).written ∧
      (txRun s0 ops).written = (txRun s0 ops).wire ++ txQueued (txRun s0 ops).state := by
  obtain ⟨hq, hinv⟩ := txInit_inv s0 hring
  have h := (txRun_inv ops { state := txInit s0, written := [], wire := [] }
    ⟨by simp [hq], hinv⟩).1
  exact ⟨⟨_, h.symm⟩, h⟩

/-- Witness of C10: two writes with a partial drain in between and after. -/
theorem txRing_fifo_witness :
    txBoot.s_txRing.length = TX_RING_SIZE ∧
      (txRun txBoot [TxOp.write (some [1, 2, 3]), TxOp.service 2 5,
          TxOp.write (some [4, 5]), TxOp.service 64 1]).written
        = (txRun txBoot [TxOp.write (some [1, 2, 3]), TxOp.service 2 5,
            TxOp.write (some [4, 5]), TxOp.service 64 1]).wire
          ++ txQueued (txRun txBoot [TxOp.write (some [1, 2, 3]), TxOp.service 2 5,
            TxOp.write (some [4, 5]), TxOp.service 64 1]).state :=
  ⟨txBoot_inv.1,
    (txRing_fifo txBoot [TxOp.write (some [1, 2, 3]), TxOp.service 2 5,
      TxOp.write (some [4, 5]), TxOp.service 64 1] txBoot_inv.1).2⟩

/-! ## Lemmas on the packers and on the raw packets -/

/-- Masking with `0xFF` keeps the low byte. -/
theorem and_ff_eq_mod (v : Nat) : v &&& 0xFF = v % 256 :=
  Nat.and_pow_two_sub_one_eq_mod v 8

/-- The bytes of `pack_u16_le` in terms of division and remainder. -/
theorem pack_u16_le_eq (v : Nat) : pack_u16_le v = [v % 256, v / 256 % 256] := by
  simp only [pack_u16_le, and_ff_eq_mod, Nat.shiftRight_eq_div_pow, Nat.mod_mod]

/-- The bytes of `pack_u32_le` in terms of division and remainder. -/
theorem pack_u32_le_eq (v : Nat) :
    pack_u32_le v = [v % 256, v / 256 % 256, v / 65536 % 256, v / 16777216 % 256] := by
  simp only [pack_u32_le, and_ff_eq_mod, Nat.shiftRight_eq_div_pow, Nat.mod_mod]

/-- Sign extension of a 24-bit value. -/
theorem signExtend24_eq (x : Nat) (hx : x < 2 ^ 24) :
    signExtend24 x = if x < 2 ^ 23 then (x : Int) else (x : Int) - 2 ^ 24 := by
  have hand : x &&& 0x00800000 = (x.testBit 23).toNat * 2 ^ 23 := Nat.and_two_pow x 23
  have hbit : x.testBit 23 = decide (x / 2 ^ 23 % 2 = 1) := Nat.testBit_to_div_mod
  unfold signExtend24 toI32
  by_cases hlt : x < 2 ^ 23
  · have hb : x.testBit 23 = false := by rw [hbit]; simp; omega
    rw [hand, hb, if_pos hlt]
    simp only [Bool.toNat_false, Nat.zero_mul, ne_eq, not_true_eq_false, if_false]
    omega
  · have hb : x.testBit 23 = true := by rw [hbit]; simp; omega
    have hor : x ||| 0xFF000000 = 0xFF000000 + x := by
      have h := Nat.mul_add_lt_is_or hx 255
      rw [Nat.or_comm]
      exact h.symm
    rw [hand, hb, if_neg hlt, if_pos (by simp), hor]
    push_cast
    omega

/-- The register of `crc16_ccitt` fits in 16 bits. -/
theorem crc16_ccitt_lt (data : List Nat) : crc16_ccitt data < 0x10000 := by
  unfold crc16_ccitt
  rcases List.eq_nil_or_concat data with h | ⟨init, b, h⟩
  · subst h; decide
  · subst h
    rw [List.concat_eq_append, List.foldl_append]
    exact crcOuter_lt _ _

/-- The two bytes of `pack_u16_le` are the little-endian bytes of `v`. -/
theorem pack_u16_le_leBytes (v : Nat) : pack_u16_le v = leBytes 2 v := by
  rw [pack_u16_le_eq]; rfl

/-- The four bytes of `pack_u32_le` are the little-endian bytes of `v`. -/
theorem pack_u32_le_leBytes (v : Nat) : pack_u32_le v = leBytes 4 v := by
  rw [pack_u32_le_eq]
  simp only [leBytes, Nat.div_div_eq_div_mul]

/-- Reassembling little-endian bytes gives the value back modulo `256 ^ n`. -/
theorem leValue_leBytes (n : Nat) : ∀ v, leValue (leBytes n v) = v % 256 ^ n := by
  induction n with
  | zero => intro v; simp [leBytes, leValue, Nat.mod_one]
  | succ n ih =>
    intro v
    simp only [leBytes, leValue, ih]
    rw [Nat.pow_succ, Nat.mul_comm (256 ^ n) 256, Nat.mod_mul]

/-- A packet made of a body and its CRC: the CRC recomputed over everything
but the last two bytes is the little-endian value of the last two bytes. -/
theorem crc_trailer (body : List Nat) :
    crc16_ccitt ((body ++ pack_u16_le (crc16_ccitt body)).take
        ((body ++ pack_u16_le (crc16_ccitt body)).length - 2))
      = leValue ((body ++ pack_u16_le (crc16_ccitt body)).drop
        ((body ++ pack_u16_le (crc16_ccitt body)).length - 2)) := by
  have hlen : (body ++ pack_u16_le (crc16_ccitt body)).length - 2 = body.length := by
    simp [pack_u16_le]
  rw [hlen, List.take_left', List.drop_left', pack_u16_le_leBytes, leValue_leBytes]
  · exact (Nat.mod_eq_of_lt (crc16_ccitt_lt body)).symm
  · rfl
  · rfl

/-- On a consistent ring `contiguousReadable()` is `min(count, capacity - tail)`. -/
theorem contiguousReadable_eq_min (s : TxState) (hinv : TxInv s) :
    contiguousReadable s = min s.s_count (TX_RING_SIZE - s.s_tail) := by
  obtain ⟨_, htail, hcount, hhead⟩ := hinv
  unfold contiguousReadable TX_RING_SIZE at *
  split_ifs <;> omega

/-! ## Properties of the ring invariant, the packers and the raw packets -/

/-- C11: in every ring state reached from `txInit()` through `txWriteBytes`
and `txService` calls, `s_count ≤ 8192` and `contiguousReadable()` equals
`min(s_count, 8192 - s_tail)`. -/
theorem txRing_reachable_invariant (s0 : TxState) (ops : List TxOp)
    (hring : s0.s_txRing.length = TX_RING_SIZE) :
    (txRun s0 ops).state.s_count ≤ 8192 ∧
      contiguousReadable (txRun s0 ops).state
        = min (txRun s0 ops).state.s_count (8192 - (txRun s0 ops).state.s_tail) := by
  obtain ⟨hq, hinv⟩ := txInit_inv s0 hring
  have h := (txRun_inv ops { state := txInit s0, written := [], wire := [] }
    ⟨by simp [hq], hinv⟩).2
  exact ⟨h.2.2.1, contiguousReadable_eq_min _ h⟩

/-- Witness of C11: a write, a partial drain and a second write after boot. -/
theorem txRing_reachable_invariant_witness :
    txBoot.s_txRing.length = TX_RING_SIZE ∧
      (txRun txBoot [TxOp.write (some [1, 2, 3]), TxOp.service 2 5,
        TxOp.write (some [4, 5])]).state.s_count ≤ 8192 :=
  ⟨txBoot_inv.1,
    (txRing_reachable_invariant txBoot [TxOp.write (some [1, 2, 3]), TxOp.service 2 5,
      TxOp.write (some [4, 5])] txBoot_inv.1).1⟩

/-- The body of a sample packet (header and ten fields) has 42 bytes. -/
theorem sampleRaw_body_length (sampleIndex t_us status24 : Nat) (ch1 ch2 ch3 ch4 : Int)
    (flags missedDrdyFrame recoveriesTotal : Nat) :
    ([PKT_SAMPLE, PROTO_VER] ++ pack_u32_le sampleIndex ++ pack_u32_le t_us ++
      pack_u32_le status24 ++ pack_i32_le ch1 ++ pack_i32_le ch2 ++ pack_i32_le ch3 ++
      pack_i32_le ch4 ++ pack_u32_le flags ++ pack_u32_le missedDrdyFrame ++
      pack_u32_le recoveriesTotal).length = 42 := by
  simp [pack_u32_le, pack_i32_le]

/-- A raw sample packet has 44 bytes. -/
theorem sampleRaw_length (sampleIndex t_us status24 : Nat) (ch1 ch2 ch3 ch4 : Int)
    (flags missedDrdyFrame recoveriesTotal : Nat) :
    (sampleRaw sampleIndex t_us status24 ch1 ch2 ch3 ch4 flags missedDrdyFrame
      recoveriesTotal).length = 44 := by
  simp only [sampleRaw, List.length_append, sampleRaw_body_length]
  rfl

/-- An input of at most 253 bytes is encoded with one byte of overhead. -/
theorem cobsEncode_length_short (x : List Nat) (hlen : x.length ≤ 253) :
    (cobsEncode x).length = x.length + 1 := by
  rw [cobsEncode_eq_runs]
  have hlo := cobsRuns_length_ge x []
  have hhi := cobsRuns_length_le x [] (by simp)
  simp only [List.length_nil, Nat.zero_add] at hlo hhi
  omega

/-- A raw event packet has 17 bytes. -/
theorem eventRaw_length (eventCode a b c : Nat) : (eventRaw eventCode a b c).length = 17 := by
  simp [eventRaw, pack_u32_le, pack_u16_le]

/-- A raw error packet has 13 bytes. -/
theorem errorRaw_length (errorCode a b : Nat) : (errorRaw errorCode a b).length = 13 := by
  simp [errorRaw, pack_u32_le, pack_u16_le]

/-- C14: for every `x < 2^24`, `signExtend24 x` is `x` when `x < 2^23` and
`x - 2^24` otherwise, so it lies in `[-8388608, 8388607]`; the five test
values of the repository evaluate as expected. -/
theorem signExtend24_spec (x : Nat) (hx : x < 2 ^ 24) :
    signExtend24 x = (if x < 2 ^ 23 then (x : Int) else (x : Int) - 2 ^ 24) ∧
      -8388608 ≤ signExtend24 x ∧ signExtend24 x ≤ 8388607 ∧
      signExtend24 0 = 0 ∧ signExtend24 1 = 1 ∧ signExtend24 0x7FFFFF = 0x7FFFFF ∧
      signExtend24 0xFFFFFF = -1 ∧ signExtend24 0x800000 = -8388608 := by
  have h := signExtend24_eq x hx
  refine ⟨h, ?_, ?_, by decide, by decide, by decide, by decide, by decide⟩
  · rw [h]; split <;> omega
  · rw [h]; split <;> omega

/-- Witness of C14 at the most negative 24-bit value. -/
theorem signExtend24_spec_witness :
    (0x800000 : Nat) < 2 ^ 24 ∧ signExtend24 0x800000 = (0x800000 : Int) - 2 ^ 24 :=
  ⟨by decide, (signExtend24_spec 0x800000 (by decide)).1⟩

/-- C15: the packers write the least significant byte first.  For a 16-bit
`v`, `pack_u16_le` writes `[v mod 256, v / 256]`; for a 32-bit `v`,
`pack_u32_le` writes the bytes `(v >> 8i) mod 256`, `i = 0..3`; in both cases
the little-endian value of the bytes is `v`.  `pack_i32_le v` writes the
bytes of `pack_u32_le` on the two's-complement value of `v`.  The test
vectors of the repository evaluate as expected. -/
theorem packers_little_endian (v16 v32 : Nat) (vi : Int) (h16 : v16 < 2 ^ 16)
    (h32 : v32 < 2 ^ 32) (hlo : -2 ^ 31 ≤ vi) (hhi : vi < 2 ^ 31) :
    pack_u16_le v16 = [v16 % 256, v16 / 256] ∧ leValue (pack_u16_le v16) = v16 ∧
      pack_u32_le v32
        = [(v32 >>> 0) % 256, (v32 >>> 8) % 256, (v32 >>> 16) % 256, (v32 >>> 24) % 256] ∧
      leValue (pack_u32_le v32) = v32 ∧
      pack_i32_le vi = pack_u32_le (if 0 ≤ vi then vi.toNat else (vi + 2 ^ 32).toNat) ∧
      pack_u16_le 0xABCD = [0xCD, 0xAB] ∧
      pack_u32_le 0x12345678 = [0x78, 0x56, 0x34, 0x12] ∧
      pack_i32_le (-2) = [0xFE, 0xFF, 0xFF, 0xFF] := by
  refine ⟨?_, ?_, ?_, ?_, ?_, by decide, by decide, by decide⟩
  · rw [pack_u16_le_eq]
    have : v16 / 256 % 256 = v16 / 256 := Nat.mod_eq_of_lt (by omega)
    rw [this]
  · rw [pack_u16_le_leBytes, leValue_leBytes]
    exact Nat.mod_eq_of_lt h16
  · rw [pack_u32_le_eq]
    simp only [Nat.shiftRight_eq_div_pow]
    norm_num
  · rw [pack_u32_le_leBytes, leValue_leBytes]
    exact Nat.mod_eq_of_lt h32
  · unfold pack_i32_le toU32
    congr 1
    split <;> omega

/-- Witness of C15 on the test vectors of the repository. -/
theorem packers_little_endian_witness :
    pack_u16_le 0xABCD = [0xABCD % 256, 0xABCD / 256] ∧
      leValue (pack_u32_le 0x12345678) = 0x12345678 ∧
      pack_i32_le (-2) = pack_u32_le (if (0 : Int) ≤ -2 then (-2 : Int).toNat
        else ((-2 : Int) + 2 ^ 32).toNat) :=
  ⟨(packers_little_endian 0xABCD 0x12345678 (-2) (by decide) (by decide) (by decide)
      (by decide)).1,
    (packers_little_endian 0xABCD 0x12345678 (-2) (by decide) (by decide) (by decide)
      (by decide)).2.2.2.1,
    (packers_little_endian 0xABCD 0x12345678 (-2) (by decide) (by decide) (by decide)
      (by decide)).2.2.2.2.1⟩

/-! ## Lemmas on the DRDY edge tracker -/

/-- An edge that finds the flag set counts as missed and leaves it set. -/
theorem onDrdyFalling_pending (d : DrdyBlock) (rate now : Nat) (h : d.g_drdyFlag = true) :
    (onDrdyFalling d rate now).g_drdyFlag = true ∧
      (onDrdyFalling d rate now).g_missedDrdyTotal = (d.g_missedDrdyTotal + 1) % 2 ^ 32 ∧
      (onDrdyFalling d rate now).g_missedDrdyFrame = (d.g_missedDrdyFrame + 1) % 2 ^ 32 := by
  unfold onDrdyFalling
  simp only []
  split_ifs <;> simp_all

/-- An edge that finds the flag clear sets it and counts nothing as missed. -/
theorem onDrdyFalling_idle (d : DrdyBlock) (rate now : Nat) (h : d.g_drdyFlag = false) :
    (onDrdyFalling d rate now).g_drdyFlag = true ∧
      (onDrdyFalling d rate now).g_missedDrdyTotal = d.g_missedDrdyTotal ∧
      (onDrdyFalling d rate now).g_missedDrdyFrame = d.g_missedDrdyFrame := by
  unfold onDrdyFalling
  simp only []
  split_ifs <;> simp_all

/-- A burst of edges on a set flag: every edge is counted as missed. -/
theorem drdyEdges_pending (nows : List Nat) : ∀ (d : DrdyBlock) (rate : Nat),
    d.g_drdyFlag = true →
    (drdyEdges d rate nows).g_drdyFlag = true ∧
      (drdyEdges d rate nows).g_missedDrdyTotal % 2 ^ 32
        = (d.g_missedDrdyTotal + nows.length) % 2 ^ 32 ∧
      (drdyEdges d rate nows).g_missedDrdyFrame % 2 ^ 32
        = (d.g_missedDrdyFrame + nows.length) % 2 ^ 32 := by
  induction nows with
  | nil => intro d rate h; exact ⟨h, rfl, rfl⟩
  | cons now rest ih =>
    intro d rate h
    obtain ⟨h1, h2, h3⟩ := onDrdyFalling_pending d rate now h
    obtain ⟨i1, i2, i3⟩ := ih (onDrdyFalling d rate now) rate h1
    have e : drdyEdges d rate (now :: rest) = drdyEdges (onDrdyFalling d rate now) rate rest := rfl
    rw [e, i2, i3, h2, h3]
    refine ⟨i1, ?_, ?_⟩ <;> simp only [List.length_cons] <;> omega

/-- C16: missed-edge accounting.  If `K` DRDY edges arrive while the pending
flag is set and nothing captures in between, `g_missedDrdyTotal` and
`g_missedDrdyFrame` each grow by `K` modulo `2^32` and the flag stays set; an
edge that arrives while the flag is clear sets it and changes neither
counter. -/
theorem drdy_missed_accounting (d : DrdyBlock) (rate : Nat) (nows : List Nat)
    (hpend : d.g_drdyFlag = true) (hT : d.g_missedDrdyTotal < 2 ^ 32)
    (hF : d.g_missedDrdyFrame < 2 ^ 32) :
    (drdyEdges d rate nows).g_missedDrdyTotal = (d.g_missedDrdyTotal + nows.length) % 2 ^ 32 ∧
      (drdyEdges d rate nows).g_missedDrdyFrame
        = (d.g_missedDrdyFrame + nows.length) % 2 ^ 32 ∧
      (drdyEdges d rate nows).g_drdyFlag = true ∧
      (∀ (d0 : DrdyBlock) (now : Nat), d0.g_drdyFlag = false →
        (onDrdyFalling d0 rate now).g_drdyFlag = true ∧
          (onDrdyFalling d0 rate now).g_missedDrdyTotal = d0.g_missedDrdyTotal ∧
          (onDrdyFalling d0 rate now).g_missedDrdyFrame = d0.g_missedDrdyFrame) := by
  obtain ⟨h1, h2, h3⟩ := drdyEdges_pending nows d rate hpend
  have hlt : ∀ (l : List Nat) (d1 : DrdyBlock), d1.g_drdyFlag = true →
      d1.g_missedDrdyTotal < 2 ^ 32 → d1.g_missedDrdyFrame < 2 ^ 32 →
      (drdyEdges d1 rate l).g_missedDrdyTotal < 2 ^ 32 ∧
        (drdyEdges d1 rate l).g_missedDrdyFrame < 2 ^ 32 := by
    intro l
    induction l with
    | nil => intro d1 _ a b; exact ⟨a, b⟩
    | cons now rest ih =>
      intro d1 hp a b
      obtain ⟨q1, q2, q3⟩ := onDrdyFalling_pending d1 rate now hp
      exact ih (onDrdyFalling d1 rate now) q1 (by rw [q2]; exact Nat.mod_lt _ (by norm_num))
        (by rw [q3]; exact Nat.mod_lt _ (by norm_num))
  obtain ⟨b1, b2⟩ := hlt nows d hpend hT hF
  rw [Nat.mod_eq_of_lt b1] at h2
  rw [Nat.mod_eq_of_lt b2] at h3
  exact ⟨h2, h3, h1, fun d0 now h0 => onDrdyFalling_idle d0 rate now h0⟩

/-- Witness of C16: three edges on a pending flag at boot counters. -/
theorem drdy_missed_accounting_witness :
    (drdyEdges { drdyBoot with g_drdyFlag := true } 250 [4000, 8000, 12000]).g_missedDrdyTotal
        = (0 + 3) % 2 ^ 32 ∧
      (drdyEdges { drdyBoot with g_drdyFlag := true } 250 [4000, 8000, 12000]).g_drdyFlag
        = true :=
  ⟨(drdy_missed_accounting { drdyBoot with g_drdyFlag := true } 250 [4000, 8000, 12000]
      (by decide) (by decide) (by decide)).1,
    (drdy_missed_accounting { drdyBoot with g_drdyFlag := true } 250 [4000, 8000, 12000]
      (by decide) (by decide) (by decide)).2.2.1⟩

/-- The fields of the block after one edge, as the handler computes them. -/
theorem onDrdyFalling_fields (d : DrdyBlock) (rate now : Nat) :
    (d.g_prevDrdyTimestampUs ≠ 0 →
        (onDrdyFalling d rate now).g_drdyIntervalLastUs = u32Sub now d.g_prevDrdyTimestampUs ∧
          (onDrdyFalling d rate now).g_drdyJitterAbsLastUs
            = u32AbsDiff (u32Sub now d.g_prevDrdyTimestampUs)
                (if rate > 0 then 1000000 / rate else ADS_DRDY_PERIOD_US) ∧
          (onDrdyFalling d rate now).g_drdyIntervalMinUs
            = (if u32Sub now d.g_prevDrdyTimestampUs < d.g_drdyIntervalMinUs
                then u32Sub now d.g_prevDrdyTimestampUs else d.g_drdyIntervalMinUs) ∧
          (onDrdyFalling d rate now).g_drdyIntervalMaxUs
            = (if u32Sub now d.g_prevDrdyTimestampUs > d.g_drdyIntervalMaxUs
                then u32Sub now d.g_prevDrdyTimestampUs else d.g_drdyIntervalMaxUs) ∧
          (onDrdyFalling d rate now).g_drdyJitterAbsMinUs
            = (if u32AbsDiff (u32Sub now d.g_prevDrdyTimestampUs)
                  (if rate > 0 then 1000000 / rate else ADS_DRDY_PERIOD_US)
                  < d.g_drdyJitterAbsMinUs
                then u32AbsDiff (u32Sub now d.g_prevDrdyTimestampUs)
                  (if rate > 0 then 1000000 / rate else ADS_DRDY_PERIOD_US)
                else d.g_drdyJitterAbsMinUs) ∧
          (onDrdyFalling d rate now).g_drdyJitterAbsMaxUs
            = (if u32AbsDiff (u32Sub now d.g_prevDrdyTimestampUs)
                  (if rate > 0 then 1000000 / rate else ADS_DRDY_PERIOD_US)
                  > d.g_drdyJitterAbsMaxUs
                then u32AbsDiff (u32Sub now d.g_prevDrdyTimestampUs)
                  (if rate > 0 then 1000000 / rate else ADS_DRDY_PERIOD_US)
                else d.g_drdyJitterAbsMaxUs) ∧
          (onDrdyFalling d rate now).g_drdyIntervalSumUs
            = (d.g_drdyIntervalSumUs + u32Sub now d.g_prevDrdyTimestampUs) % 2 ^ 64 ∧
          (onDrdyFalling d rate now).g_drdyJitterAbsSumUs
            = (d.g_drdyJitterAbsSumUs + u32AbsDiff (u32Sub now d.g_prevDrdyTimestampUs)
                (if rate > 0 then 1000000 / rate else ADS_DRDY_PERIOD_US)) % 2 ^ 64 ∧
          (onDrdyFalling d rate now).g_drdyIntervalCount
            = (d.g_drdyIntervalCount + 1) % 2 ^ 32) ∧
      (d.g_prevDrdyTimestampUs = 0 →
        (onDrdyFalling d rate now).g_drdyIntervalLastUs = d.g_drdyIntervalLastUs ∧
          (onDrdyFalling d rate now).g_drdyIntervalMinUs = d.g_drdyIntervalMinUs ∧
          (onDrdyFalling d rate now).g_drdyIntervalMaxUs = d.g_drdyIntervalMaxUs ∧
          (onDrdyFalling d rate now).g_drdyIntervalCount = d.g_drdyIntervalCount ∧
          (onDrdyFalling d rate now).g_drdyIntervalSumUs = d.g_drdyIntervalSumUs ∧
          (onDrdyFalling d rate now).g_drdyJitterAbsLastUs = d.g_drdyJitterAbsLastUs ∧
          (onDrdyFalling d rate now).g_drdyJitterAbsMinUs = d.g_drdyJitterAbsMinUs ∧
          (onDrdyFalling d rate now).g_drdyJitterAbsMaxUs = d.g_drdyJitterAbsMaxUs ∧
          (onDrdyFalling d rate now).g_drdyJitterAbsSumUs = d.g_drdyJitterAbsSumUs) ∧
      (onDrdyFalling d rate now).g_drdyEdgesTotal = (d.g_drdyEdgesTotal + 1) % 2 ^ 32 ∧
      (onDrdyFalling d rate now).g_lastDrdyTimestampUs = now ∧
      (onDrdyFalling d rate now).g_prevDrdyTimestampUs = now := by
  unfold onDrdyFalling
  simp only []
  by_cases hprev : d.g_prevDrdyTimestampUs = 0 <;> by_cases hflag : d.g_drdyFlag = true <;>
    simp [hprev, hflag]

/-- The wrapped difference of two `uint32_t` values as an integer. -/
theorem u32Sub_cast (a b : Nat) : (u32Sub a b : Int) = ((a : Int) - (b : Int)) % 2 ^ 32 := by
  unfold u32Sub
  omega

/-- The helper `u32AbsDiff` is the absolute value of the difference. -/
theorem u32AbsDiff_cast (a b : Nat) : (u32AbsDiff a b : Int) = |(a : Int) - (b : Int)| := by
  unfold u32AbsDiff
  rw [abs_eq_max_neg]
  split <;> omega

/-- The expected period: `1000000 / rate`, and 4000 when the rate is 0. -/
theorem expectedUs_eq (rate : Nat) :
    (if rate > 0 then 1000000 / rate else ADS_DRDY_PERIOD_US)
      = (if rate = 0 then 4000 else 1000000 / rate) := by
  by_cases h : rate = 0
  · subst h; rfl
  · rw [if_pos (by omega), if_neg h]

/-- Lowering a minimum to include a new value. -/
theorem ite_lt_eq_min (a m : Nat) : (if a < m then a else m) = min m a := by
  split <;> omega

/-- Raising a maximum to include a new value. -/
theorem ite_gt_eq_max (a m : Nat) : (if a > m then a else m) = max m a := by
  split <;> omega

/-- C17: `capturePendingDrdySnapshot` on a non-null `out`.  If the pending
flag is clear it returns false and leaves the whole DRDY timing block
unchanged; otherwise it returns true, the snapshot holds the values of
`g_lastDrdyTimestampUs`, `g_drdyIntervalLastUs`, `g_missedDrdyFrame`,
`g_missedDrdyTotal` and `g_drdyEdgesTotal` before the call, the flag and
`g_missedDrdyFrame` are cleared and every other field of the block is
unchanged. -/
theorem capturePendingDrdySnapshot_spec (d : DrdyBlock) (o : DrdyFrameSnapshot) :
    (d.g_drdyFlag = false →
        (capturePendingDrdySnapshot d (some o)).1 = false ∧
          (capturePendingDrdySnapshot d (some o)).2.2 = d) ∧
      (d.g_drdyFlag = true →
        (capturePendingDrdySnapshot d (some o)).1 = true ∧
          (capturePendingDrdySnapshot d (some o)).2.1
            = some { ready := true
                     drdyTimestampUs := d.g_lastDrdyTimestampUs
                     drdyIntervalUs := d.g_drdyIntervalLastUs
                     missedDrdyFrame := d.g_missedDrdyFrame
                     missedDrdyTotal := d.g_missedDrdyTotal
                     drdyEdgesTotal := d.g_drdyEdgesTotal } ∧
          (capturePendingDrdySnapshot d (some o)).2.2
            = { d with g_drdyFlag := false, g_missedDrdyFrame := 0 }) := by
  constructor
  · intro h
    simp [capturePendingDrdySnapshot, h]
  · intro h
    simp [capturePendingDrdySnapshot, h]

/-- Witness of C17: a capture at boot finds nothing; after one edge at
`t = 4000` it returns that edge and clears the flag. -/
theorem capturePendingDrdySnapshot_spec_witness :
    (capturePendingDrdySnapshot drdyBoot (some snapZero)).1 = false ∧
      (capturePendingDrdySnapshot (onDrdyFalling drdyBoot 250 4000) (some snapZero)).1 = true ∧
      (capturePendingDrdySnapshot (onDrdyFalling drdyBoot 250 4000) (some snapZero)).2.2
        = { onDrdyFalling drdyBoot 250 4000 with g_drdyFlag := false, g_missedDrdyFrame := 0 } :=
  ⟨((capturePendingDrdySnapshot_spec drdyBoot snapZero).1 (by decide)).1,
    ((capturePendingDrdySnapshot_spec (onDrdyFalling drdyBoot 250 4000) snapZero).2
      (by decide)).1,
    ((capturePendingDrdySnapshot_spec (onDrdyFalling drdyBoot 250 4000) snapZero).2
      (by decide)).2.2⟩

/-- C18: one DRDY edge at time `now`.  With `prev ≠ 0` the tracker sets
`interval_last` to `(now - prev) mod 2^32` and `jitter_last` to
`|interval_last - expected|`, where `expected = 1000000 / g_sampleRateSps`
(4000 when the rate is 0), moves the interval and jitter minima and maxima to
include the new values, adds them to the 64-bit sums and increments the
interval count; with `prev = 0` none of these fields changes.  In both cases
`g_drdyEdgesTotal` grows by 1 and the last and previous edge times are `now`. -/
theorem onDrdyFalling_timing (d : DrdyBlock) (rate now : Nat) :
    (d.g_prevDrdyTimestampUs ≠ 0 →
        ((onDrdyFalling d rate now).g_drdyIntervalLastUs : Int)
            = ((now : Int) - (d.g_prevDrdyTimestampUs : Int)) % 2 ^ 32 ∧
          ((onDrdyFalling d rate now).g_drdyJitterAbsLastUs : Int)
            = |((onDrdyFalling d rate now).g_drdyIntervalLastUs : Int)
                - ((if rate = 0 then 4000 else 1000000 / rate : Nat) : Int)| ∧
          (onDrdyFalling d rate now).g_drdyIntervalMinUs
            = min d.g_drdyIntervalMinUs (onDrdyFalling d rate now).g_drdyIntervalLastUs ∧
          (onDrdyFalling d rate now).g_drdyIntervalMaxUs
            = max d.g_drdyIntervalMaxUs (onDrdyFalling d rate now).g_drdyIntervalLastUs ∧
          (onDrdyFalling d rate now).g_drdyJitterAbsMinUs
            = min d.g_drdyJitterAbsMinUs (onDrdyFalling d rate now).g_drdyJitterAbsLastUs ∧
          (onDrdyFalling d rate now).g_drdyJitterAbsMaxUs
            = max d.g_drdyJitterAbsMaxUs (onDrdyFalling d rate now).g_drdyJitterAbsLastUs ∧
          (onDrdyFalling d rate now).g_drdyIntervalSumUs
            = (d.g_drdyIntervalSumUs + (onDrdyFalling d rate now).g_drdyIntervalLastUs)
                % 2 ^ 64 ∧
          (onDrdyFalling d rate now).g_drdyJitterAbsSumUs
            = (d.g_drdyJitterAbsSumUs + (onDrdyFalling d rate now).g_drdyJitterAbsLastUs)
                % 2 ^ 64 ∧
          (onDrdyFalling d rate now).g_drdyIntervalCount
            = (d.g_drdyIntervalCount + 1) % 2 ^ 32) ∧
      (d.g_prevDrdyTimestampUs = 0 →
        (onDrdyFalling d rate now).g_drdyIntervalLastUs = d.g_drdyIntervalLastUs ∧
          (onDrdyFalling d rate now).g_drdyIntervalMinUs = d.g_drdyIntervalMinUs ∧
          (onDrdyFalling d rate now).g_drdyIntervalMaxUs = d.g_drdyIntervalMaxUs ∧
          (onDrdyFalling d rate now).g_drdyIntervalCount = d.g_drdyIntervalCount ∧
          (onDrdyFalling d rate now).g_drdyIntervalSumUs = d.g_drdyIntervalSumUs ∧
          (onDrdyFalling d rate now).g_drdyJitterAbsLastUs = d.g_drdyJitterAbsLastUs ∧
          (onDrdyFalling d rate now).g_drdyJitterAbsMinUs = d.g_drdyJitterAbsMinUs ∧
          (onDrdyFalling d rate now).g_drdyJitterAbsMaxUs = d.g_drdyJitterAbsMaxUs ∧
          (onDrdyFalling d rate now).g_drdyJitterAbsSumUs = d.g_drdyJitterAbsSumUs) ∧
      (onDrdyFalling d rate now).g_drdyEdgesTotal = (d.g_drdyEdgesTotal + 1) % 2 ^ 32 ∧
      (onDrdyFalling d rate now).g_lastDrdyTimestampUs = now ∧
      (onDrdyFalling d rate now).g_prevDrdyTimestampUs = now := by
  have hfields := onDrdyFalling_fields d rate now
  refine ⟨?_, hfields.2.1, hfields.2.2.1, hfields.2.2.2.1, hfields.2.2.2.2⟩
  intro hprev
  obtain ⟨h1, h2, h3, h4, h5, h6, h7, h8, h9⟩ := hfields.1 hprev
  rw [h3, h4, h5, h6, h7, h8, h9, h2, h1]
  exact ⟨u32Sub_cast _ _, by rw [u32AbsDiff_cast, expectedUs_eq], ite_lt_eq_min _ _,
    ite_gt_eq_max _ _, ite_lt_eq_min _ _, ite_gt_eq_max _ _, rfl, rfl, rfl⟩

/-- Witness of C18: an edge 4010 us after the previous one at 250 SPS, and
a first edge (no previous edge recorded). -/
theorem onDrdyFalling_timing_witness :
    (((onDrdyFalling { drdyBoot with g_prevDrdyTimestampUs := 1000 } 250
        5010).g_drdyIntervalLastUs : Int)
        = (((5010 : Nat) : Int) - ((1000 : Nat) : Int)) % 2 ^ 32) ∧
      (onDrdyFalling drdyBoot 250 5010).g_drdyIntervalLastUs = 0 :=
  ⟨((onDrdyFalling_timing { drdyBoot with g_prevDrdyTimestampUs := 1000 } 250 5010).1
      (by decide)).1,
    ((onDrdyFalling_timing drdyBoot 250 5010).2.1 (by decide)).1⟩

/-! ## Lemmas on the sample pipeline -/

/-- A bitwise OR is zero only when both operands are. -/
theorem nat_or_eq_zero (a b : Nat) : a ||| b = 0 ↔ a = 0 ∧ b = 0 := by
  constructor
  · intro h
    have hbit : ∀ i, (a.testBit i || b.testBit i) = false := by
      intro i
      rw [← Nat.testBit_or, h, Nat.zero_testBit]
    constructor
    · apply Nat.eq_of_testBit_eq
      intro i
      have := hbit i
      rw [Nat.zero_testBit]
      cases ha : a.testBit i <;> simp_all
    · apply Nat.eq_of_testBit_eq
      intro i
      have := hbit i
      rw [Nat.zero_testBit]
      cases hb : b.testBit i <;> simp_all
  · rintro ⟨rfl, rfl⟩
    rfl

/-- The lead-off test of the pipeline reads the low 16 bits of the status word. -/
theorem leadOff_any_iff (status24 : Nat) :
    ((statusLeadOffP status24 % 256) ||| (statusLeadOffN status24 % 256)) ≠ 0
      ↔ status24 &&& 0xFFFF ≠ 0 := by
  have h16 : status24 &&& 0xFFFF = status24 % 65536 := Nat.and_pow_two_sub_one_eq_mod status24 16
  rw [h16, Ne, Ne, nat_or_eq_zero]
  simp only [statusLeadOffP, statusLeadOffN, and_ff_eq_mod, Nat.shiftRight_eq_div_pow,
    Nat.mod_mod]
  omega

/-- The flags word of the pipeline is the OR of one bit per condition. -/
theorem sampleFrameParse_flags (s : FwState) (snap : DrdyFrameSnapshot) (procUs : Nat) :
    (sampleFrameParse s snap procUs).1.flags
      = flagsWord s.g_streaming s.g_pendingRecoveredFlag s.g_pendingBtnFlag
          (decide (snap.missedDrdyFrame > 0))
          (!statusHeaderValid (frameWord24 s.g_rawFrame 0))
          (decide ((statusLeadOffP (frameWord24 s.g_rawFrame 0) % 256
            ||| statusLeadOffN (frameWord24 s.g_rawFrame 0) % 256) ≠ 0))
          s.tx.g_pendingTxOverflowFlag := by
  unfold sampleFrameParse flagsWord
  simp only []
  generalize statusHeaderValid (frameWord24 s.g_rawFrame 0) = hdr
  generalize (decide ((statusLeadOffP (frameWord24 s.g_rawFrame 0) % 256
            ||| statusLeadOffN (frameWord24 s.g_rawFrame 0) % 256) ≠ 0)) = loff
  generalize s.g_streaming = b1
  generalize s.g_pendingRecoveredFlag = b2
  generalize s.g_pendingBtnFlag = b3
  generalize s.tx.g_pendingTxOverflowFlag = b5
  by_cases h4 : snap.missedDrdyFrame > 0 <;>
    cases hdr <;> cases loff <;> cases b1 <;> cases b2 <;> cases b3 <;> cases b5 <;>
    simp [h4, FLAG_STREAMING, FLAG_RECOVERED, FLAG_BTN_TOGGLED, FLAG_DRDY_MISSED,
      FLAG_STATUS_INVALID, FLAG_ADS_LOFF_ANY, FLAG_TX_OVERFLOW]

/-- Each bit of the flags word is set exactly when its condition holds. -/
theorem flagsWord_bits : ∀ (a b c d e f g : Bool),
    (flagsWord a b c d e f g &&& 0x01 = 0x01 ↔ a = true) ∧
      (flagsWord a b c d e f g &&& 0x02 = 0x02 ↔ b = true) ∧
      (flagsWord a b c d e f g &&& 0x04 = 0x04 ↔ c = true) ∧
      (flagsWord a b c d e f g &&& 0x08 = 0x08 ↔ d = true) ∧
      (flagsWord a b c d e f g &&& 0x10 = 0x10 ↔ e = true) ∧
      (flagsWord a b c d e f g &&& 0x20 = 0x20 ↔ f = true) ∧
      (flagsWord a b c d e f g &&& 0x40 = 0x40 ↔ g = true) ∧
      flagsWord a b c d e f g < 0x80 := by
  decide
/-- Without a pending edge `handleOneSampleFrame` returns false and changes
nothing. -/
theorem handleOneSampleFrame_idle (s : FwState) (spi : List Nat) (procUs : Nat)
    (h : s.drdy.g_drdyFlag = false) : handleOneSampleFrame s spi procUs = (false, s) := by
  simp [handleOneSampleFrame, capturePendingDrdySnapshot, h]

/-- With a pending edge `handleOneSampleFrame` parses, emits and finishes. -/
theorem handleOneSampleFrame_consumed (s : FwState) (spi : List Nat) (procUs : Nat)
    (h : s.drdy.g_drdyFlag = true) :
    handleOneSampleFrame s spi procUs
      = (true, sampleFrameFinish
          (sampleFrameEmit (sampleFrameOf s spi procUs).2 (sampleFrameOf s spi procUs).1).2
          (sampleFrameEmit (sampleFrameOf s spi procUs).2 (sampleFrameOf s spi procUs).1).1) := by
  simp [handleOneSampleFrame, sampleFrameOf, afterFrameRead, consumedSnap,
    capturePendingDrdySnapshot, adsReadDataFrame15, h]

/-- The snapshot of a call that found a pending edge. -/
theorem consumedSnap_eq (s : FwState) (h : s.drdy.g_drdyFlag = true) :
    consumedSnap s
      = { ready := true
          drdyTimestampUs := s.drdy.g_lastDrdyTimestampUs
          drdyIntervalUs := s.drdy.g_drdyIntervalLastUs
          missedDrdyFrame := s.drdy.g_missedDrdyFrame
          missedDrdyTotal := s.drdy.g_missedDrdyTotal
          drdyEdgesTotal := s.drdy.g_drdyEdgesTotal } := by
  simp [consumedSnap, capturePendingDrdySnapshot, h]

/-- The frame buffer after the read holds the fifteen SPI answers. -/
theorem afterFrameRead_byte (s : FwState) (spi : List Nat) (i : Nat) (hi : i < 15) :
    frameByte (afterFrameRead s spi).g_rawFrame i = frameByte spi i := by
  simp only [afterFrameRead, adsReadDataFrame15]
  unfold frameByte
  rw [List.getElem?_map, List.getElem?_range hi]
  rfl

/-- The capture and the frame read leave the ring, the mode, the pending
flags and the status counters alone. -/
theorem afterFrameRead_frame (s : FwState) (spi : List Nat) :
    (afterFrameRead s spi).tx = s.tx ∧
      (afterFrameRead s spi).g_outputMode = s.g_outputMode ∧
      (afterFrameRead s spi).g_streaming = s.g_streaming ∧
      (afterFrameRead s spi).g_pendingRecoveredFlag = s.g_pendingRecoveredFlag ∧
      (afterFrameRead s spi).g_pendingBtnFlag = s.g_pendingBtnFlag ∧
      (afterFrameRead s spi).g_statusInvalidTotal = s.g_statusInvalidTotal ∧
      (afterFrameRead s spi).g_leadOffAnyTotal = s.g_leadOffAnyTotal :=
  ⟨rfl, rfl, rfl, rfl, rfl, rfl, rfl⟩

/-- What the parsing part changes and what it leaves alone. -/
theorem sampleFrameParse_state (s : FwState) (snap : DrdyFrameSnapshot) (procUs : Nat) :
    (sampleFrameParse s snap procUs).2.tx = s.tx ∧
      (sampleFrameParse s snap procUs).2.g_outputMode = s.g_outputMode ∧
      (sampleFrameParse s snap procUs).2.g_statusInvalidTotal
        = (if statusHeaderValid (frameWord24 s.g_rawFrame 0) = false
            then (s.g_statusInvalidTotal + 1) % 2 ^ 32 else s.g_statusInvalidTotal) ∧
      (sampleFrameParse s snap procUs).2.g_leadOffAnyTotal
        = (if (statusLeadOffP (frameWord24 s.g_rawFrame 0) % 256
              ||| statusLeadOffN (frameWord24 s.g_rawFrame 0) % 256) ≠ 0
            then (s.g_leadOffAnyTotal + 1) % 2 ^ 32 else s.g_leadOffAnyTotal) ∧
      (sampleFrameParse s snap procUs).1.status24 = frameWord24 s.g_rawFrame 0 := by
  unfold sampleFrameParse
  simp only []
  by_cases h1 : statusHeaderValid (frameWord24 s.g_rawFrame 0) = false <;>
    by_cases h2 : (statusLeadOffP (frameWord24 s.g_rawFrame 0) % 256
              ||| statusLeadOffN (frameWord24 s.g_rawFrame 0) % 256) ≠ 0 <;>
    simp [h1, h2]

/-- The header test of the pipeline in terms of the mask and the marker. -/
theorem statusHeaderValid_false_iff (status24 : Nat) :
    statusHeaderValid status24 = false ↔ status24 &&& 0xF00000 ≠ 0xC00000 := by
  simp [statusHeaderValid, ADS_STATUS_HEADER_MASK, ADS_STATUS_HEADER_OK]
/-- The emission leaves the status counters alone. -/
theorem sampleFrameEmit_counters (s : FwState) (l : SampleLocals) :
    (sampleFrameEmit s l).2.g_statusInvalidTotal = s.g_statusInvalidTotal ∧
      (sampleFrameEmit s l).2.g_leadOffAnyTotal = s.g_leadOffAnyTotal := by
  unfold sampleFrameEmit
  split <;> exact ⟨rfl, rfl⟩

/-- The end of the pipeline: the two pending flags are cleared, the status
counters stay, and the overflow flag is cleared exactly after a successful
emission. -/
theorem sampleFrameFinish_fields (s : FwState) (emitted : Bool) :
    (sampleFrameFinish s emitted).g_pendingRecoveredFlag = false ∧
      (sampleFrameFinish s emitted).g_pendingBtnFlag = false ∧
      (sampleFrameFinish s emitted).g_statusInvalidTotal = s.g_statusInvalidTotal ∧
      (sampleFrameFinish s emitted).g_leadOffAnyTotal = s.g_leadOffAnyTotal ∧
      (sampleFrameFinish s emitted).tx.g_pendingTxOverflowFlag
        = (if emitted then false else s.tx.g_pendingTxOverflowFlag) := by
  unfold sampleFrameFinish
  cases emitted <;> simp

/-- The framer refuses a packet exactly when the ring lacks room for it, and
a refusal raises the overflow flag. -/
theorem emitBinaryRawPacket_refusal (t : TxState) (raw : List Nat) :
    ((emitBinaryRawPacket t raw).1 = false ↔ txFreeBytes t < (cobsEncode raw).length + 1) ∧
      ((emitBinaryRawPacket t raw).1 = false →
        (emitBinaryRawPacket t raw).2.g_pendingTxOverflowFlag = true) := by
  by_cases h : txFreeBytes t < (cobsEncode raw).length + 1
  · rw [emitBinaryRawPacket_drop t raw h]
    simp [h]
  · rw [(emitBinaryRawPacket_accepted t raw (Nat.le_of_not_lt h)).1]
    simp [h]

/-- An encoded sample packet has 45 bytes. -/
theorem cobsEncode_sampleRaw_length (sampleIndex t_us status24 : Nat) (ch1 ch2 ch3 ch4 : Int)
    (flags missedDrdyFrame recoveriesTotal : Nat) :
    (cobsEncode (sampleRaw sampleIndex t_us status24 ch1 ch2 ch3 ch4 flags missedDrdyFrame
      recoveriesTotal)).length = 45 := by
  rw [cobsEncode_length_short _ (by rw [sampleRaw_length]; decide), sampleRaw_length]

/-- A `txService()` call leaves the overflow flag alone. -/
theorem txService_overflowFlag (t : TxState) (available : Int) (accept : Nat) :
    (txService t available accept).1.g_pendingTxOverflowFlag = t.g_pendingTxOverflowFlag := by
  unfold txService
  simp only []
  split_ifs <;> rfl

/-- A packet that the framer accepts leaves the overflow flag alone. -/
theorem emitBinaryRawPacket_overflowFlag (t : TxState) (raw : List Nat)
    (h : (emitBinaryRawPacket t raw).1 = true) :
    (emitBinaryRawPacket t raw).2.g_pendingTxOverflowFlag = t.g_pendingTxOverflowFlag := by
  by_cases hfree : txFreeBytes t < (cobsEncode raw).length + 1
  · rw [emitBinaryRawPacket_drop t raw hfree] at h
    cases h
  · have hacc := emitBinaryRawPacket_accepted t raw (Nat.le_of_not_lt hfree)
    rw [hacc.1]
    simp only []
    rw [txWriteBytes_ok _ [0] (by simp) hacc.2.1,
      txWriteBytes_ok t (cobsEncode raw) (cobsEncode_length_ne_zero raw)
        (by have := Nat.le_of_not_lt hfree; omega)]

/-- An edge always leaves the flag set. -/
theorem onDrdyFalling_flag (d : DrdyBlock) (rate now : Nat) :
    (onDrdyFalling d rate now).g_drdyFlag = true := by
  cases h : d.g_drdyFlag
  · exact (onDrdyFalling_idle d rate now h).1
  · exact (onDrdyFalling_pending d rate now h).1

/-- A step between samples keeps the mode, the stream state, the sample
index, the recovery counter and the two pending flags of the main loop; it
keeps the overflow flag unless the framer refused a packet. -/
theorem loopStep_frame (s : FwState) (op : LoopOp) :
    (loopStep s op).2.g_outputMode = s.g_outputMode ∧
      (loopStep s op).2.g_streaming = s.g_streaming ∧
      (loopStep s op).2.g_pendingRecoveredFlag = s.g_pendingRecoveredFlag ∧
      (loopStep s op).2.g_pendingBtnFlag = s.g_pendingBtnFlag ∧
      (loopStep s op).2.g_sampleIndex = s.g_sampleIndex ∧
      (loopStep s op).2.g_recoveriesTotal = s.g_recoveriesTotal ∧
      ((loopStep s op).1 = true →
        (loopStep s op).2.tx.g_pendingTxOverflowFlag = s.tx.g_pendingTxOverflowFlag) := by
  cases op with
  | edge nowUs => exact ⟨rfl, rfl, rfl, rfl, rfl, rfl, fun _ => rfl⟩
  | service available accept =>
      exact ⟨rfl, rfl, rfl, rfl, rfl, rfl, fun _ => txService_overflowFlag _ _ _⟩
  | packet raw =>
      exact ⟨rfl, rfl, rfl, rfl, rfl, rfl, fun h => emitBinaryRawPacket_overflowFlag _ _ h⟩

/-- A run of steps between samples keeps what each step keeps. -/
theorem loopRun_frame (ops : List LoopOp) : ∀ s : FwState,
    (loopRun s ops).2.g_outputMode = s.g_outputMode ∧
      (loopRun s ops).2.g_streaming = s.g_streaming ∧
      (loopRun s ops).2.g_pendingRecoveredFlag = s.g_pendingRecoveredFlag ∧
      (loopRun s ops).2.g_pendingBtnFlag = s.g_pendingBtnFlag ∧
      (loopRun s ops).2.g_sampleIndex = s.g_sampleIndex ∧
      (loopRun s ops).2.g_recoveriesTotal = s.g_recoveriesTotal ∧
      ((loopRun s ops).1 = true →
        (loopRun s ops).2.tx.g_pendingTxOverflowFlag = s.tx.g_pendingTxOverflowFlag) := by
  induction ops with
  | nil => intro s; exact ⟨rfl, rfl, rfl, rfl, rfl, rfl, fun _ => rfl⟩
  | cons op ops ih =>
      intro s
      obtain ⟨a1, a2, a3, a4, a5, a6, a7⟩ := loopStep_frame s op
      obtain ⟨b1, b2, b3, b4, b5, b6, b7⟩ := ih (loopStep s op).2
      refine ⟨b1.trans a1, b2.trans a2, b3.trans a3, b4.trans a4, b5.trans a5, b6.trans a6, ?_⟩
      intro h
      have h2 : ((loopStep s op).1 && (loopRun (loopStep s op).2 ops).1) = true := h
      rw [Bool.and_eq_true] at h2
      exact (b7 h2.2).trans (a7 h2.1)

/-- The bits of the flags word that come from the main-loop state. -/
theorem sampleFrameOf_flag_bits (s : FwState) (spi : List Nat) (procUs : Nat) :
    ((sampleFrameOf s spi procUs).1.flags &&& 0x01 = 0x01 ↔ s.g_streaming = true) ∧
      ((sampleFrameOf s spi procUs).1.flags &&& 0x02 = 0x02
        ↔ s.g_pendingRecoveredFlag = true) ∧
      ((sampleFrameOf s spi procUs).1.flags &&& 0x04 = 0x04 ↔ s.g_pendingBtnFlag = true) ∧
      ((sampleFrameOf s spi procUs).1.flags &&& 0x40 = 0x40
        ↔ s.tx.g_pendingTxOverflowFlag = true) := by
  have hf := sampleFrameParse_flags (afterFrameRead s spi) (consumedSnap s) procUs
  have hfr := afterFrameRead_frame s spi
  rw [hfr.1, hfr.2.2.1, hfr.2.2.2.1, hfr.2.2.2.2.1] at hf
  have hf2 : (sampleFrameOf s spi procUs).1.flags = _ := hf
  rw [hf2]
  have hb := flagsWord_bits s.g_streaming s.g_pendingRecoveredFlag s.g_pendingBtnFlag
    (decide ((consumedSnap s).missedDrdyFrame > 0))
    (!statusHeaderValid (frameWord24 (afterFrameRead s spi).g_rawFrame 0))
    (decide ((statusLeadOffP (frameWord24 (afterFrameRead s spi).g_rawFrame 0) % 256
      ||| statusLeadOffN (frameWord24 (afterFrameRead s spi).g_rawFrame 0) % 256) ≠ 0))
    s.tx.g_pendingTxOverflowFlag
  exact ⟨hb.1, hb.2.1, hb.2.2.1, hb.2.2.2.2.2.2.1⟩

/-- The state right before the emission has the ring, the mode, the sample
index and the recovery counter of the state at the call. -/
theorem sampleFrameOf_state (s : FwState) (spi : List Nat) (procUs : Nat) :
    (sampleFrameOf s spi procUs).2.tx = s.tx ∧
      (sampleFrameOf s spi procUs).2.g_outputMode = s.g_outputMode ∧
      (sampleFrameOf s spi procUs).2.g_sampleIndex = s.g_sampleIndex ∧
      (sampleFrameOf s spi procUs).2.g_recoveriesTotal = s.g_recoveriesTotal ∧
      (sampleFrameOf s spi procUs).2.g_streaming = s.g_streaming := by
  have hstate := sampleFrameParse_state (afterFrameRead s spi) (consumedSnap s) procUs
  refine ⟨hstate.1, hstate.2.1, ?_, ?_, ?_⟩
  · unfold sampleFrameOf sampleFrameParse
    simp only []
    split_ifs <;> rfl
  · unfold sampleFrameOf sampleFrameParse
    simp only []
    split_ifs <;> rfl
  · unfold sampleFrameOf sampleFrameParse
    simp only []
    split_ifs <;> rfl

/-- The emission keeps the mode and the stream state. -/
theorem sampleFrameEmit_state (s : FwState) (l : SampleLocals) :
    (sampleFrameEmit s l).2.g_outputMode = s.g_outputMode ∧
      (sampleFrameEmit s l).2.g_streaming = s.g_streaming := by
  unfold sampleFrameEmit
  split <;> exact ⟨rfl, rfl⟩

/-- In binary mode the emission hands `samplePacketOf` to the framer. -/
theorem sampleFrameEmit_bin (s : FwState) (spi : List Nat) (procUs : Nat)
    (hmode : s.g_outputMode = OutputMode.MODE_BIN) :
    sampleEmitted s spi procUs = (emitBinaryRawPacket s.tx (samplePacketOf s spi procUs)).1 ∧
      (sampleFrameEmit (sampleFrameOf s spi procUs).2 (sampleFrameOf s spi procUs).1).2.tx
        = (emitBinaryRawPacket s.tx (samplePacketOf s spi procUs)).2 ∧
      (sampleFrameEmit (sampleFrameOf s spi procUs).2
        (sampleFrameOf s spi procUs).1).2.g_sampleIndex = (s.g_sampleIndex + 1) % 2 ^ 32 := by
  have hst := sampleFrameOf_state s spi procUs
  have hm : (sampleFrameOf s spi procUs).2.g_outputMode = OutputMode.MODE_BIN :=
    hst.2.1.trans hmode
  unfold sampleEmitted samplePacketOf sampleFrameEmit
  rw [hm]
  simp only [emitSamplePacket]
  rw [hst.1, hst.2.2.1]
  exact ⟨rfl, rfl, rfl⟩

/-- A bit of a word is either clear or set. -/
theorem and_two_pow_cases (x i : Nat) : x &&& 2 ^ i = 0 ∨ x &&& 2 ^ i = 2 ^ i := by
  rw [Nat.and_two_pow]
  cases x.testBit i <;> simp

/-- A flag that is not pending leaves its bit of the flags word clear. -/
theorem sampleFrameOf_flag_clear (s : FwState) (spi : List Nat) (procUs : Nat) :
    (s.g_pendingRecoveredFlag = false → (sampleFrameOf s spi procUs).1.flags &&& 0x02 = 0) ∧
      (s.g_pendingBtnFlag = false → (sampleFrameOf s spi procUs).1.flags &&& 0x04 = 0) ∧
      (s.tx.g_pendingTxOverflowFlag = false
        → (sampleFrameOf s spi procUs).1.flags &&& 0x40 = 0) := by
  have hb := sampleFrameOf_flag_bits s spi procUs
  refine ⟨fun hf => ?_, fun hf => ?_, fun hf => ?_⟩
  · rcases and_two_pow_cases (sampleFrameOf s spi procUs).1.flags 1 with h | h
    · exact h
    · have := hb.2.1.1 h
      rw [hf] at this
      cases this
  · rcases and_two_pow_cases (sampleFrameOf s spi procUs).1.flags 2 with h | h
    · exact h
    · have := hb.2.2.1.1 h
      rw [hf] at this
      cases this
  · rcases and_two_pow_cases (sampleFrameOf s spi procUs).1.flags 6 with h | h
    · exact h
    · have := hb.2.2.2.1 h
      rw [hf] at this
      cases this

/-! ## Lemmas on initialisation, streaming and recovery -/

/-- An attempt succeeds exactly when the id byte is neither `0x00` nor `0xFF`
and every read-back matches; a failed attempt leaves the globals alone and a
successful one sets the three configuration globals. -/
theorem adsInitOnce_spec (s : FwState) (a : InitAttempt) :
    ((adsInitOnce s a).1 = true
        ↔ a.id % 256 ≠ 0x00 ∧ a.id % 256 ≠ 0xFF ∧ a.readbackOk = true) ∧
      (adsInitOnce s a).2
        = (if (adsInitOnce s a).1 then
            { s with g_sampleRateSps := ADS_DEFAULT_SPS, g_adsGain := ADS_DEFAULT_GAIN,
                     g_adsVrefUv := ADS_VREF_UV }
          else s) := by
  unfold adsInitOnce adsConfigureRegisters
  simp only []
  by_cases h1 : a.id % 256 = 0x00 ∨ a.id % 256 = 0xFF
  · rw [if_pos h1]
    refine ⟨⟨fun h => (by cases h), fun h => ?_⟩, rfl⟩
    rcases h1 with h1 | h1
    · exact absurd h1 h.1
    · exact absurd h1 h.2.1
  · rw [if_neg h1]
    have h1' : a.id % 256 ≠ 0x00 ∧ a.id % 256 ≠ 0xFF := not_or.1 h1
    cases hr : a.readbackOk
    · simp
    · simp [h1'.1, h1'.2]

/-- Whether an attempt succeeds does not depend on the globals. -/
theorem adsInitOnce_ok_indep (s s1 : FwState) (a : InitAttempt) :
    (adsInitOnce s a).1 = (adsInitOnce s1 a).1 := by
  have h := (adsInitOnce_spec s a).1
  have h1 := (adsInitOnce_spec s1 a).1
  cases hb : (adsInitOnce s a).1 <;> cases hb1 : (adsInitOnce s1 a).1 <;> simp_all

/-- A failed attempt leaves the state alone. -/
theorem adsInitOnce_fail (s : FwState) (a : InitAttempt) (h : (adsInitOnce s a).1 = false) :
    (adsInitOnce s a).2 = s := by
  rw [(adsInitOnce_spec s a).2, h]
  rfl

/-- The loop of `adsInitRobust` when the attempts `i .. i + k - 1` fail and
attempt `i + k` succeeds within the remaining `n` iterations. -/
theorem adsInitRobustFrom_first (hw : InitHw) (s : FwState) : ∀ (n i k : Nat), k < n →
    (∀ j, j < k → (adsInitOnce s (hw.attempt (i + j))).1 = false) →
    (adsInitOnce s (hw.attempt (i + k))).1 = true →
    adsInitRobustFrom hw i n s = adsInitOkTail hw (i + k) (adsInitOnce s (hw.attempt (i + k))).2 := by
  intro n
  induction n with
  | zero => intro i k hk; omega
  | succ n ih =>
      intro i k hk hfail hok
      cases k with
      | zero =>
          simp only [adsInitRobustFrom, Nat.add_zero] at *
          rw [if_pos hok]
      | succ k =>
          have h0 : (adsInitOnce s (hw.attempt i)).1 = false := by
            have := hfail 0 (by omega)
            simpa using this
          simp only [adsInitRobustFrom]
          rw [h0, adsInitOnce_fail s _ h0]
          simp only [Bool.false_eq_true, if_false]
          have e : i + (k + 1) = (i + 1) + k := by omega
          rw [e] at hok ⊢
          apply ih (i + 1) k (by omega) _ hok
          intro j hj
          have := hfail (j + 1) (by omega)
          have e2 : i + (j + 1) = i + 1 + j := by omega
          rw [e2] at this
          exact this

/-- The loop of `adsInitRobust` when all remaining attempts fail. -/
theorem adsInitRobustFrom_none (hw : InitHw) (s : FwState) : ∀ (n i : Nat),
    (∀ j, j < n → (adsInitOnce s (hw.attempt (i + j))).1 = false) →
    adsInitRobustFrom hw i n s = adsInitFailTail s := by
  intro n
  induction n with
  | zero => intro i _; rfl
  | succ n ih =>
      intro i hfail
      have h0 : (adsInitOnce s (hw.attempt i)).1 = false := by
        have := hfail 0 (by omega)
        simpa using this
      simp only [adsInitRobustFrom]
      rw [h0, adsInitOnce_fail s _ h0]
      simp only [Bool.false_eq_true, if_false]
      apply ih (i + 1)
      intro j hj
      have := hfail (j + 1) (by omega)
      have e2 : i + (j + 1) = i + 1 + j := by omega
      rw [e2] at this
      exact this

/-- Among the first `n` attempts either all fail or there is a first success. -/
theorem first_success (p : Nat → Bool) : ∀ n : Nat,
    (∀ j, j < n → p j = false) ∨
      ∃ k, k < n ∧ p k = true ∧ ∀ j, j < k → p j = false := by
  intro n
  induction n with
  | zero => left; intro j hj; omega
  | succ n ih =>
      rcases ih with h | ⟨k, hk, hp, hmin⟩
      · cases hn : p n
        · left
          intro j hj
          rcases Nat.lt_succ_iff_lt_or_eq.1 hj with h1 | h1
          · exact h j h1
          · rw [h1]; exact hn
        · right
          exact ⟨n, by omega, hn, h⟩
      · right
        exact ⟨k, by omega, hp, hmin⟩
/-- What the success branch of `adsInitRobust` returns and changes. -/
theorem adsInitOkTail_fields (hw : InitHw) (i : Nat) (s : FwState) :
    (adsInitOkTail hw i s).1 = true ∧
      (adsInitOkTail hw i s).2.g_adsReady = true ∧
      (adsInitOkTail hw i s).2.g_outputMode = s.g_outputMode ∧
      (adsInitOkTail hw i s).2.g_streaming = s.g_streaming ∧
      (adsInitOkTail hw i s).2.g_recoveriesTotal = s.g_recoveriesTotal ∧
      (adsInitOkTail hw i s).2.g_pendingRecoveredFlag = s.g_pendingRecoveredFlag ∧
      (adsInitOkTail hw i s).2.g_internalTestSignalEnabled = s.g_internalTestSignalEnabled ∧
      (adsInitOkTail hw i s).2.g_leadOffDiagEnabled = s.g_leadOffDiagEnabled ∧
      (s.g_outputMode = OutputMode.MODE_BIN →
        (adsInitOkTail hw i s).2.tx
            = (emitBinaryRawPacket s.tx (eventRaw 0x10 (hw.idAfter % 256) (i + 1) 0)).2 ∧
          (adsInitOkTail hw i s).2.serialOut = s.serialOut) ∧
      (s.g_outputMode = OutputMode.MODE_CSV →
        (adsInitOkTail hw i s).2.serialOut = s.serialOut ++ [SerialLine.adsInitOk (i + 1)] ∧
          (adsInitOkTail hw i s).2.tx = s.tx) := by
  unfold adsInitOkTail emitEventPacket
  cases hm : s.g_outputMode
  · exact ⟨rfl, rfl, rfl, rfl, rfl, rfl, rfl, rfl, fun _ => ⟨rfl, rfl⟩, fun h => (by cases h)⟩
  · exact ⟨rfl, rfl, rfl, rfl, rfl, rfl, rfl, rfl, fun h => (by cases h), fun _ => ⟨rfl, rfl⟩⟩

/-- What the failure end of `adsInitRobust` returns and changes. -/
theorem adsInitFailTail_fields (s : FwState) :
    (adsInitFailTail s).1 = false ∧
      (adsInitFailTail s).2.g_adsReady = false ∧
      (adsInitFailTail s).2.g_outputMode = s.g_outputMode ∧
      (adsInitFailTail s).2.g_streaming = s.g_streaming ∧
      (adsInitFailTail s).2.g_recoveriesTotal = s.g_recoveriesTotal ∧
      (adsInitFailTail s).2.g_pendingRecoveredFlag = s.g_pendingRecoveredFlag ∧
      (adsInitFailTail s).2.g_internalTestSignalEnabled = s.g_internalTestSignalEnabled ∧
      (adsInitFailTail s).2.g_leadOffDiagEnabled = s.g_leadOffDiagEnabled ∧
      (s.g_outputMode = OutputMode.MODE_BIN →
        (adsInitFailTail s).2.tx = (emitBinaryRawPacket s.tx (errorRaw 0xE1 0 0)).2 ∧
          (adsInitFailTail s).2.serialOut = s.serialOut) ∧
      (s.g_outputMode = OutputMode.MODE_CSV →
        (adsInitFailTail s).2.serialOut = s.serialOut ++ [SerialLine.errAdsInitFail] ∧
          (adsInitFailTail s).2.tx = s.tx) := by
  unfold adsInitFailTail emitErrorPacket
  cases hm : s.g_outputMode
  · refine ⟨rfl, rfl, rfl, rfl, rfl, rfl, rfl, rfl, fun _ => ⟨?_, rfl⟩, fun h => (by cases h)⟩
    dsimp only
  · exact ⟨rfl, rfl, rfl, rfl, rfl, rfl, rfl, rfl, fun h => (by cases h), fun _ => ⟨rfl, rfl⟩⟩

/-- The state after a successful attempt differs from the state before only
in the three configuration globals. -/
theorem adsInitOnce_frame (s : FwState) (a : InitAttempt) :
    (adsInitOnce s a).2.tx = s.tx ∧
      (adsInitOnce s a).2.serialOut = s.serialOut ∧
      (adsInitOnce s a).2.g_outputMode = s.g_outputMode ∧
      (adsInitOnce s a).2.g_streaming = s.g_streaming ∧
      (adsInitOnce s a).2.g_recoveriesTotal = s.g_recoveriesTotal ∧
      (adsInitOnce s a).2.g_pendingRecoveredFlag = s.g_pendingRecoveredFlag ∧
      (adsInitOnce s a).2.g_internalTestSignalEnabled = s.g_internalTestSignalEnabled ∧
      (adsInitOnce s a).2.g_leadOffDiagEnabled = s.g_leadOffDiagEnabled := by
  rw [(adsInitOnce_spec s a).2]
  cases (adsInitOnce s a).1 <;> exact ⟨rfl, rfl, rfl, rfl, rfl, rfl, rfl, rfl⟩

/-- The call `adsInitRobust` is one of its two ends: the success branch at
the first successful attempt, or the failure end when no attempt succeeds. -/
theorem adsInitRobust_cases (s : FwState) (attempts : Nat) (hw : InitHw) :
    ((∀ j, j < attempts → (adsInitOnce s (hw.attempt j)).1 = false) ∧
        adsInitRobust s attempts hw = adsInitFailTail s) ∨
      ∃ k, k < attempts ∧ (adsInitOnce s (hw.attempt k)).1 = true ∧
        (∀ j, j < k → (adsInitOnce s (hw.attempt j)).1 = false) ∧
        adsInitRobust s attempts hw = adsInitOkTail hw k (adsInitOnce s (hw.attempt k)).2 := by
  rcases first_success (fun j => (adsInitOnce s (hw.attempt j)).1) attempts with h | ⟨k, hk, hp, hmin⟩
  · left
    refine ⟨h, ?_⟩
    unfold adsInitRobust
    apply adsInitRobustFrom_none
    intro j hj
    rw [Nat.zero_add]
    exact h j hj
  · right
    refine ⟨k, hk, hp, hmin, ?_⟩
    unfold adsInitRobust
    have := adsInitRobustFrom_first hw s attempts 0 k hk
      (by intro j hj; rw [Nat.zero_add]; exact hmin j hj) (by rw [Nat.zero_add]; exact hp)
    rw [Nat.zero_add] at this
    exact this

/-- What `adsInitRobust` leaves alone, and the ready flag it sets. -/
theorem adsInitRobust_frame (s : FwState) (attempts : Nat) (hw : InitHw) :
    (adsInitRobust s attempts hw).2.g_adsReady = (adsInitRobust s attempts hw).1 ∧
      (adsInitRobust s attempts hw).2.g_outputMode = s.g_outputMode ∧
      (adsInitRobust s attempts hw).2.g_streaming = s.g_streaming ∧
      (adsInitRobust s attempts hw).2.g_recoveriesTotal = s.g_recoveriesTotal ∧
      (adsInitRobust s attempts hw).2.g_pendingRecoveredFlag = s.g_pendingRecoveredFlag ∧
      (adsInitRobust s attempts hw).2.g_internalTestSignalEnabled
        = s.g_internalTestSignalEnabled ∧
      (adsInitRobust s attempts hw).2.g_leadOffDiagEnabled = s.g_leadOffDiagEnabled := by
  rcases adsInitRobust_cases s attempts hw with ⟨_, h⟩ | ⟨k, _, _, _, h⟩
  · rw [h]
    have f := adsInitFailTail_fields s
    exact ⟨f.2.1.trans f.1.symm, f.2.2.1, f.2.2.2.1, f.2.2.2.2.1, f.2.2.2.2.2.1,
      f.2.2.2.2.2.2.1, f.2.2.2.2.2.2.2.1⟩
  · rw [h]
    have f := adsInitOkTail_fields hw k (adsInitOnce s (hw.attempt k)).2
    have g := adsInitOnce_frame s (hw.attempt k)
    exact ⟨f.2.1.trans f.1.symm, f.2.2.1.trans g.2.2.1, f.2.2.2.1.trans g.2.2.2.1,
      f.2.2.2.2.1.trans g.2.2.2.2.1, f.2.2.2.2.2.1.trans g.2.2.2.2.2.1,
      f.2.2.2.2.2.2.1.trans g.2.2.2.2.2.2.1, f.2.2.2.2.2.2.2.1.trans g.2.2.2.2.2.2.2⟩

/-- C29: `adsInitRobust(attempts)` returns true iff one of the first
`attempts` attempts of `adsInitOnce` succeeds, and `g_adsReady` equals the
returned value afterwards.  It stops at the first success `i` (counted from
0): the result is the success branch of iteration `i`, which in binary mode
hands one event packet `0x10` with `a` = chip id and `b = i + 1` to the framer
and in CSV mode prints `# ADS_INIT_OK attempt=<i + 1>`.  When no attempt
succeeds (also for `attempts = 0`) the result is the failure end, which in
binary mode hands the error packet `0xE1` to the framer and in CSV mode
prints `# ERR ADS_INIT_FAIL`. -/
theorem adsInitRobust_spec (s : FwState) (attempts : Nat) (hw : InitHw) :
    ((adsInitRobust s attempts hw).1 = true
        ↔ ∃ i, i < attempts ∧ (adsInitOnce s (hw.attempt i)).1 = true) ∧
      (adsInitRobust s attempts hw).2.g_adsReady = (adsInitRobust s attempts hw).1 ∧
      (∀ i, i < attempts → (adsInitOnce s (hw.attempt i)).1 = true →
        (∀ j, j < i → (adsInitOnce s (hw.attempt j)).1 = false) →
        adsInitRobust s attempts hw = adsInitOkTail hw i (adsInitOnce s (hw.attempt i)).2 ∧
          (s.g_outputMode = OutputMode.MODE_BIN →
            (adsInitRobust s attempts hw).2.tx
                = (emitBinaryRawPacket s.tx (eventRaw 0x10 (hw.idAfter % 256) (i + 1) 0)).2 ∧
              (adsInitRobust s attempts hw).2.serialOut = s.serialOut) ∧
          (s.g_outputMode = OutputMode.MODE_CSV →
            (adsInitRobust s attempts hw).2.serialOut
                = s.serialOut ++ [SerialLine.adsInitOk (i + 1)] ∧
              (adsInitRobust s attempts hw).2.tx = s.tx)) ∧
      ((∀ i, i < attempts → (adsInitOnce s (hw.attempt i)).1 = false) →
        adsInitRobust s attempts hw = adsInitFailTail s ∧
          (s.g_outputMode = OutputMode.MODE_BIN →
            (adsInitRobust s attempts hw).2.tx
                = (emitBinaryRawPacket s.tx (errorRaw 0xE1 0 0)).2 ∧
              (adsInitRobust s attempts hw).2.serialOut = s.serialOut) ∧
          (s.g_outputMode = OutputMode.MODE_CSV →
            (adsInitRobust s attempts hw).2.serialOut
                = s.serialOut ++ [SerialLine.errAdsInitFail] ∧
              (adsInitRobust s attempts hw).2.tx = s.tx)) := by
  have hcases := adsInitRobust_cases s attempts hw
  refine ⟨?_, (adsInitRobust_frame s attempts hw).1, ?_, ?_⟩
  · rcases hcases with ⟨hall, h⟩ | ⟨k, hk, hp, _, h⟩
    · rw [h, (adsInitFailTail_fields s).1]
      constructor
      · intro hc; cases hc
      · rintro ⟨i, hi, hok⟩
        rw [hall i hi] at hok
        cases hok
    · rw [h, (adsInitOkTail_fields hw k _).1]
      exact ⟨fun _ => ⟨k, hk, hp⟩, fun _ => rfl⟩
  · intro i hi hok hmin
    have h : adsInitRobust s attempts hw
        = adsInitOkTail hw i (adsInitOnce s (hw.attempt i)).2 := by
      unfold adsInitRobust
      have := adsInitRobustFrom_first hw s attempts 0 i hi
        (by intro j hj; rw [Nat.zero_add]; exact hmin j hj) (by rw [Nat.zero_add]; exact hok)
      rw [Nat.zero_add] at this
      exact this
    have f := adsInitOkTail_fields hw i (adsInitOnce s (hw.attempt i)).2
    have g := adsInitOnce_frame s (hw.attempt i)
    rw [g.1, g.2.1, g.2.2.1] at f
    rw [h]
    exact ⟨rfl, f.2.2.2.2.2.2.2.2.1, f.2.2.2.2.2.2.2.2.2⟩
  · intro hall
    have h : adsInitRobust s attempts hw = adsInitFailTail s := by
      unfold adsInitRobust
      apply adsInitRobustFrom_none
      intro j hj
      rw [Nat.zero_add]
      exact hall j hj
    have f := adsInitFailTail_fields s
    rw [h]
    exact ⟨rfl, f.2.2.2.2.2.2.2.2.1, f.2.2.2.2.2.2.2.2.2⟩

/-- Witness of C29: on a chip that answers from the second attempt on,
`adsInitRobust(3)` returns true and hands the event `0x10` with `b = 2` to the
framer; `adsInitRobust(0)` returns false. -/
theorem adsInitRobust_spec_witness :
    (adsInitRobust idleReadyState 3 secondTryChip).1 = true ∧
      (adsInitRobust idleReadyState 3 secondTryChip).2.g_adsReady = true ∧
      (adsInitRobust idleReadyState 3 secondTryChip).2.tx
        = (emitBinaryRawPacket idleReadyState.tx
            (eventRaw 0x10 (secondTryChip.idAfter % 256) (1 + 1) 0)).2 ∧
      (adsInitRobust idleReadyState 0 secondTryChip).1 = false :=
  have hok : (adsInitOnce idleReadyState (secondTryChip.attempt 1)).1 = true := by decide
  have h := adsInitRobust_spec idleReadyState 3 secondTryChip
  have h1 := h.2.2.1 1 (by decide) hok (fun j hj => by
    have hj0 : j = 0 := by omega
    rw [hj0]
    decide)
  have hret : (adsInitRobust idleReadyState 3 secondTryChip).1 = true :=
    h.1.2 ⟨1, by decide, hok⟩
  have h0 := (adsInitRobust_spec idleReadyState 0 secondTryChip).2.2.2
    (fun i hi => absurd hi (Nat.not_lt_zero i))
  ⟨hret, h.2.1.trans hret, (h1.2.1 (by decide)).1, by rw [h0.1]; exact (adsInitFailTail_fields _).1⟩

/-- A packet that finds room is appended to the queued content with its
terminator. -/
theorem emitBinaryRawPacket_queued (t : TxState) (raw : List Nat) (hinv : TxInv t)
    (hfree : (cobsEncode raw).length + 1 ≤ txFreeBytes t) :
    (emitBinaryRawPacket t raw).1 = true ∧
      txQueued (emitBinaryRawPacket t raw).2 = txQueued t ++ (cobsEncode raw ++ [0]) ∧
      TxInv (emitBinaryRawPacket t raw).2 := by
  obtain ⟨hret, hfree1, _⟩ := emitBinaryRawPacket_accepted t raw hfree
  obtain ⟨hq1, hinv1⟩ :=
    txWriteBytes_queued t (cobsEncode raw) hinv (cobsEncode_length_ne_zero raw) (by omega)
  obtain ⟨hq2, hinv2⟩ := txWriteBytes_queued _ [0] hinv1 (by simp) hfree1
  rw [hret]
  refine ⟨rfl, ?_, hinv2⟩
  show txQueued (txWriteBytes (txWriteBytes t (some (cobsEncode raw))).2 (some [0])).2 = _
  rw [hq2, hq1, List.append_assoc]

/-- What `adsStopStreaming` changes and what it leaves alone. -/
theorem adsStopStreaming_fields (s : FwState) :
    (adsStopStreaming s).g_streaming = false ∧
      (adsStopStreaming s).g_outputMode = s.g_outputMode ∧
      (adsStopStreaming s).g_adsReady = s.g_adsReady ∧
      (adsStopStreaming s).g_recoveriesTotal = s.g_recoveriesTotal ∧
      (adsStopStreaming s).g_pendingRecoveredFlag = s.g_pendingRecoveredFlag ∧
      (adsStopStreaming s).g_internalTestSignalEnabled = s.g_internalTestSignalEnabled ∧
      (adsStopStreaming s).g_leadOffDiagEnabled = s.g_leadOffDiagEnabled := by
  unfold adsStopStreaming
  cases hm : s.g_outputMode <;> exact ⟨rfl, rfl, rfl, rfl, rfl, rfl, rfl⟩

/-- What the first part of a recovery changes and what it leaves alone. -/
theorem recoverStop_fields (s : FwState) (nowUs : Nat) :
    (recoverStop s nowUs).g_streaming = false ∧
      (recoverStop s nowUs).g_outputMode = s.g_outputMode ∧
      (recoverStop s nowUs).g_adsReady = s.g_adsReady ∧
      (recoverStop s nowUs).g_recoveriesTotal = s.g_recoveriesTotal ∧
      (recoverStop s nowUs).g_pendingRecoveredFlag = s.g_pendingRecoveredFlag ∧
      (recoverStop s nowUs).g_internalTestSignalEnabled = s.g_internalTestSignalEnabled ∧
      (recoverStop s nowUs).g_leadOffDiagEnabled = s.g_leadOffDiagEnabled := by
  have h := adsStopStreaming_fields s
  unfold recoverStop
  simp only []
  split <;> exact h

/-- The call `adsStartStreaming()` on a ready chip. -/
theorem adsStartStreaming_ready (s : FwState) (hw : StartHw) (hready : s.g_adsReady = true) :
    (adsStartStreaming s hw).g_streaming = true ∧
      (adsStartStreaming s hw).g_sampleIndex = 0 ∧
      (adsStartStreaming s hw).g_lastGoodFrameUs = hw.nowUs ∧
      (adsStartStreaming s hw).drdy = resetStreamEdgeStats s.drdy ∧
      (adsStartStreaming s hw).g_outputMode = s.g_outputMode ∧
      (adsStartStreaming s hw).g_adsReady = true ∧
      (adsStartStreaming s hw).g_recoveriesTotal = s.g_recoveriesTotal ∧
      (adsStartStreaming s hw).g_pendingRecoveredFlag = s.g_pendingRecoveredFlag ∧
      (adsStartStreaming s hw).g_internalTestSignalEnabled = s.g_internalTestSignalEnabled ∧
      (adsStartStreaming s hw).g_leadOffDiagEnabled = s.g_leadOffDiagEnabled ∧
      (s.g_outputMode = OutputMode.MODE_BIN →
        (adsStartStreaming s hw).tx = (emitBinaryRawPacket s.tx (eventRaw 0x01 1 0 0)).2 ∧
          (adsStartStreaming s hw).serialOut = s.serialOut) ∧
      (s.g_outputMode = OutputMode.MODE_CSV →
        (adsStartStreaming s hw).serialOut = s.serialOut ++
            [SerialLine.csvHeader, SerialLine.streamOn, SerialLine.warnCsvDebugOnly] ∧
          (adsStartStreaming s hw).tx = s.tx) := by
  unfold adsStartStreaming emitEventPacket
  simp only [hready, Bool.true_eq_false, if_false]
  cases hm : s.g_outputMode
  · dsimp only
    exact ⟨rfl, rfl, rfl, rfl, rfl, rfl, rfl, rfl, rfl,
      rfl, fun _ => ⟨rfl, rfl⟩, fun h => (by cases h)⟩
  · dsimp only
    exact ⟨rfl, rfl, rfl, rfl, rfl, rfl, rfl, rfl, rfl,
      rfl, fun h => (by cases h), fun _ => ⟨rfl, rfl⟩⟩
/-- The timeout of the stall detector is `max(50000, 8 * period)`: the
product does not wrap. -/
theorem recoverTimeoutUs_eq (s : FwState) :
    recoverTimeoutUs s
      = max 50000 (8 * (if s.g_sampleRateSps = 0 then 4000 else 1000000 / s.g_sampleRateSps)) := by
  unfold recoverTimeoutUs
  simp only []
  rw [expectedUs_eq]
  by_cases h : s.g_sampleRateSps = 0
  · rw [if_pos h]
    rfl
  · rw [if_neg h]
    have hle : 1000000 / s.g_sampleRateSps ≤ 1000000 := Nat.div_le_self _ _
    generalize 1000000 / s.g_sampleRateSps = p at hle
    omega

/-- The two outcomes of a recovery that was started while streaming. -/
theorem recoverSequence_fields (s : FwState) (nowUs : Nat) (hw : RecoverHw)
    (hstream : s.g_streaming = true) :
    ((adsInitRobust (recoverStop s nowUs) 3 hw.init).1 = true →
        (recoverSequence s nowUs hw).g_recoveriesTotal = (s.g_recoveriesTotal + 1) % 2 ^ 32 ∧
          (recoverSequence s nowUs hw).g_streaming = true ∧
          (recoverSequence s nowUs hw).g_pendingRecoveredFlag = true ∧
          (recoverSequence s nowUs hw).g_adsReady = true) ∧
      ((adsInitRobust (recoverStop s nowUs) 3 hw.init).1 = false →
        (recoverSequence s nowUs hw).g_recoveriesTotal = s.g_recoveriesTotal ∧
          (recoverSequence s nowUs hw).g_pendingRecoveredFlag = s.g_pendingRecoveredFlag ∧
          (recoverSequence s nowUs hw).g_streaming = false ∧
          (recoverSequence s nowUs hw).g_adsReady = false) := by
  have hfr := adsInitRobust_frame (recoverStop s nowUs) 3 hw.init
  have hst := recoverStop_fields s nowUs
  constructor
  · intro hok
    have hready : ({ (adsInitRobust (recoverStop s nowUs) 3 hw.init).2 with
        g_recoveriesTotal :=
          ((adsInitRobust (recoverStop s nowUs) 3 hw.init).2.g_recoveriesTotal + 1) % 2 ^ 32,
        g_pendingRecoveredFlag := true } : FwState).g_adsReady = true := hfr.1.trans hok
    have hstart := adsStartStreaming_ready _ hw.start hready
    have e : recoverSequence s nowUs hw
        = adsStartStreaming { (adsInitRobust (recoverStop s nowUs) 3 hw.init).2 with
            g_recoveriesTotal :=
              ((adsInitRobust (recoverStop s nowUs) 3 hw.init).2.g_recoveriesTotal + 1) % 2 ^ 32,
            g_pendingRecoveredFlag := true } hw.start := by
      unfold recoverSequence
      simp only [hok, hstream, if_true]
    rw [e]
    refine ⟨?_, hstart.1, hstart.2.2.2.2.2.2.2.1, hstart.2.2.2.2.2.1⟩
    rw [hstart.2.2.2.2.2.2.1]
    show ((adsInitRobust (recoverStop s nowUs) 3 hw.init).2.g_recoveriesTotal + 1) % 2 ^ 32 = _
    rw [hfr.2.2.2.1, hst.2.2.2.1]
  · intro hfail
    have e : recoverSequence s nowUs hw = (adsInitRobust (recoverStop s nowUs) 3 hw.init).2 := by
      unfold recoverSequence
      simp only [hfail, Bool.false_eq_true, if_false]
    rw [e]
    exact ⟨hfr.2.2.2.1.trans hst.2.2.2.1, hfr.2.2.2.2.1.trans hst.2.2.2.2.1,
      hfr.2.2.1.trans hst.1, hfr.1.trans hfail⟩

/-- A recovery that was started while streaming leaves a state that differs
from the one it found. -/
theorem recoverSequence_ne (s : FwState) (nowUs : Nat) (hw : RecoverHw)
    (hstream : s.g_streaming = true) : recoverSequence s nowUs hw ≠ s := by
  have h := recoverSequence_fields s nowUs hw hstream
  intro heq
  cases hr : (adsInitRobust (recoverStop s nowUs) 3 hw.init).1
  · have := (h.2 hr).2.2.1
    rw [heq, hstream] at this
    cases this
  · have := (h.1 hr).1
    rw [heq] at this
    omega

/-- The two early returns and the recovery branch of `recoverAdsIfNeeded`. -/
theorem recoverAdsIfNeeded_cases (s : FwState) (nowUs : Nat) (hw : RecoverHw) :
    (s.g_streaming = false → recoverAdsIfNeeded s nowUs hw = s) ∧
      (u32Sub nowUs s.g_lastGoodFrameUs < recoverTimeoutUs s →
        recoverAdsIfNeeded s nowUs hw = s) ∧
      (s.g_streaming = true → recoverTimeoutUs s ≤ u32Sub nowUs s.g_lastGoodFrameUs →
        recoverAdsIfNeeded s nowUs hw = recoverSequence s nowUs hw) := by
  unfold recoverAdsIfNeeded
  refine ⟨fun h => ?_, fun h => ?_, fun h1 h2 => ?_⟩
  · rw [if_pos h]
  · split_ifs <;> rfl
  · rw [if_neg (by rw [h1]; decide), if_neg (by omega)]

/-- C23, amended: `recoverAdsIfNeeded` starts a recovery (and then leaves a
state different from the one it found) if and only if streaming is true and
`(now - last_good_frame_us) mod 2^32` is greater than or equal to
`max(50000, 8 * expected_period_us)`, where the expected period is
`1000000 / rate` (4000 when the rate is 0); the recovery is the sequence
stop, report, re-initialise, restart.  Otherwise the state after the call is
the state before it: nothing is changed and nothing is emitted. -/
theorem recoverAdsIfNeeded_trigger (s : FwState) (nowUs : Nat) (hw : RecoverHw) :
    (recoverAdsIfNeeded s nowUs hw ≠ s
        ↔ s.g_streaming = true ∧
          ((max 50000
              (8 * (if s.g_sampleRateSps = 0 then 4000 else 1000000 / s.g_sampleRateSps)) : Nat)
            : Int) ≤ ((nowUs : Int) - (s.g_lastGoodFrameUs : Int)) % 2 ^ 32) ∧
      (s.g_streaming = true →
        ((max 50000
            (8 * (if s.g_sampleRateSps = 0 then 4000 else 1000000 / s.g_sampleRateSps)) : Nat)
          : Int) ≤ ((nowUs : Int) - (s.g_lastGoodFrameUs : Int)) % 2 ^ 32 →
        recoverAdsIfNeeded s nowUs hw = recoverSequence s nowUs hw) ∧
      (¬ (s.g_streaming = true ∧
          ((max 50000
              (8 * (if s.g_sampleRateSps = 0 then 4000 else 1000000 / s.g_sampleRateSps)) : Nat)
            : Int) ≤ ((nowUs : Int) - (s.g_lastGoodFrameUs : Int)) % 2 ^ 32) →
        recoverAdsIfNeeded s nowUs hw = s) := by
  have hc := recoverAdsIfNeeded_cases s nowUs hw
  rw [← recoverTimeoutUs_eq, ← u32Sub_cast]
  have hseq : s.g_streaming = true →
      ((recoverTimeoutUs s : Nat) : Int) ≤ ((u32Sub nowUs s.g_lastGoodFrameUs : Nat) : Int) →
      recoverAdsIfNeeded s nowUs hw = recoverSequence s nowUs hw :=
    fun h1 h2 => hc.2.2 h1 (by exact_mod_cast h2)
  have hidle : ¬ (s.g_streaming = true ∧
      ((recoverTimeoutUs s : Nat) : Int) ≤ ((u32Sub nowUs s.g_lastGoodFrameUs : Nat) : Int)) →
      recoverAdsIfNeeded s nowUs hw = s := by
    intro hn
    cases hs : s.g_streaming
    · exact hc.1 hs
    · apply hc.2.1
      by_contra hlt
      exact hn ⟨hs, by exact_mod_cast Nat.le_of_not_lt hlt⟩
  refine ⟨⟨fun hne => ?_, fun hdue => ?_⟩, hseq, hidle⟩
  · by_contra hn
    exact hne (hidle hn)
  · rw [hseq hdue.1 hdue.2]
    exact recoverSequence_ne s nowUs hw hdue.1

/-- Counterexample to C23 as stated: while streaming at 250 SPS with the last
good frame at time 0, at `now = 50000` the elapsed time equals the timeout
and is not strictly greater, yet the recovery runs: on a silent chip the
stream is stopped. -/
theorem recoverAdsIfNeeded_trigger_counterexample :
    streamingState.g_streaming = true ∧
      u32Sub 50000 streamingState.g_lastGoodFrameUs = 50000 ∧
      recoverTimeoutUs streamingState = 50000 ∧
      ¬ (recoverTimeoutUs streamingState < u32Sub 50000 streamingState.g_lastGoodFrameUs) ∧
      recoverAdsIfNeeded streamingState 50000 deadRecoverHw
        = recoverSequence streamingState 50000 deadRecoverHw ∧
      recoverAdsIfNeeded streamingState 50000 deadRecoverHw ≠ streamingState := by
  have hseq := (recoverAdsIfNeeded_cases streamingState 50000 deadRecoverHw).2.2 (by decide)
    (by decide)
  refine ⟨by decide, by decide, by decide, by decide, hseq, ?_⟩
  rw [hseq]
  exact recoverSequence_ne streamingState 50000 deadRecoverHw (by decide)

/-- Counterexample to C24 as stated: while streaming at 250 SPS a gap of
40 ms since the last good frame exceeds 32 ms but is below the timeout of
50 ms, and `recoverAdsIfNeeded` returns without a recovery. -/
theorem stall_threshold_counterexample :
    streamingState.g_streaming = true ∧
      streamingState.g_sampleRateSps = 250 ∧
      u32Sub 40000 streamingState.g_lastGoodFrameUs = 40000 ∧
      32000 < u32Sub 40000 streamingState.g_lastGoodFrameUs ∧
      recoverTimeoutUs streamingState = 50000 ∧
      recoverAdsIfNeeded streamingState 40000 goodRecoverHw = streamingState :=
  ⟨by decide, by decide, by decide, by decide, by decide,
    (recoverAdsIfNeeded_cases streamingState 40000 goodRecoverHw).2.1 (by decide)⟩

/-- C24, amended: while streaming at 250 SPS (period 4000 us) the stall
threshold is 50 ms, the maximum of 50000 us and 8 periods (32000 us): a
recovery starts exactly when the gap since the last good frame is at least
50000 us.  A gap of 20 ms does not trigger it, a gap of 40 ms does not
trigger it, a gap of 50 ms does. -/
theorem stall_threshold_250sps (s : FwState) (nowUs : Nat) (hw : RecoverHw)
    (hstream : s.g_streaming = true) (hrate : s.g_sampleRateSps = 250) :
    1000000 / s.g_sampleRateSps = 4000 ∧
      recoverTimeoutUs s = 50000 ∧
      (recoverAdsIfNeeded s nowUs hw ≠ s ↔ 50000 ≤ u32Sub nowUs s.g_lastGoodFrameUs) ∧
      (u32Sub nowUs s.g_lastGoodFrameUs = 20000 → recoverAdsIfNeeded s nowUs hw = s) ∧
      (u32Sub nowUs s.g_lastGoodFrameUs = 40000 → recoverAdsIfNeeded s nowUs hw = s) ∧
      (u32Sub nowUs s.g_lastGoodFrameUs = 50000 →
        recoverAdsIfNeeded s nowUs hw = recoverSequence s nowUs hw ∧
          recoverAdsIfNeeded s nowUs hw ≠ s) := by
  have ht : recoverTimeoutUs s = 50000 := by
    rw [recoverTimeoutUs_eq, hrate]
    rfl
  have hc := recoverAdsIfNeeded_cases s nowUs hw
  rw [ht] at hc
  have hdue : 50000 ≤ u32Sub nowUs s.g_lastGoodFrameUs →
      recoverAdsIfNeeded s nowUs hw = recoverSequence s nowUs hw ∧
        recoverAdsIfNeeded s nowUs hw ≠ s := by
    intro h
    have e := hc.2.2 hstream h
    exact ⟨e, by rw [e]; exact recoverSequence_ne s nowUs hw hstream⟩
  refine ⟨by rw [hrate], ht, ⟨fun hne => ?_, fun h => (hdue h).2⟩, fun h => hc.2.1 (by omega),
    fun h => hc.2.1 (by omega), fun h => hdue (by omega)⟩
  by_contra hlt
  exact hne (hc.2.1 (by omega))

/-- Witness of C24, amended: in `streamingState` a gap of 40 ms changes
nothing and a gap of 50 ms starts the recovery. -/
theorem stall_threshold_250sps_witness :
    recoverTimeoutUs streamingState = 50000 ∧
      recoverAdsIfNeeded streamingState 40000 goodRecoverHw = streamingState ∧
      recoverAdsIfNeeded streamingState 50000 goodRecoverHw ≠ streamingState :=
  ⟨(stall_threshold_250sps streamingState 40000 goodRecoverHw (by decide) (by decide)).2.1,
    (stall_threshold_250sps streamingState 40000 goodRecoverHw (by decide)
      (by decide)).2.2.2.2.1 (by decide),
    ((stall_threshold_250sps streamingState 50000 goodRecoverHw (by decide)
      (by decide)).2.2.2.2.2 (by decide)).2⟩

/-- The call `adsInitRobust` returns true exactly when one of its attempts
succeeds. -/
theorem adsInitRobust_ok_iff (s : FwState) (attempts : Nat) (hw : InitHw) :
    (adsInitRobust s attempts hw).1 = true
      ↔ ∃ i, i < attempts ∧ (adsInitOnce s (hw.attempt i)).1 = true := by
  rcases adsInitRobust_cases s attempts hw with ⟨hall, h⟩ | ⟨k, hk, hp, _, h⟩
  · rw [h, (adsInitFailTail_fields s).1]
    constructor
    · intro hc; cases hc
    · rintro ⟨i, hi, hok⟩
      rw [hall i hi] at hok
      cases hok
  · rw [h, (adsInitOkTail_fields hw k _).1]
    exact ⟨fun _ => ⟨k, hk, hp⟩, fun _ => rfl⟩

/-- C division by a positive divisor truncates toward zero: it is the floor
of the quotient for a non-negative dividend and the negated floor of the
negated dividend otherwise. -/
theorem tdiv_trunc (a b : Int) (hb : 0 < b) :
    (0 ≤ a → Int.tdiv a b = a / b) ∧ (a < 0 → Int.tdiv a b = -((-a) / b)) := by
  constructor
  · intro ha
    exact Int.tdiv_eq_ediv ha (Int.le_of_lt hb)
  · intro ha
    have h1 : Int.tdiv a b = -(Int.tdiv (-a) b) := by
      rw [Int.neg_tdiv, Int.neg_neg]
    rw [h1, Int.tdiv_eq_ediv (by omega) (Int.le_of_lt hb)]

/-- The cast to `int32_t` keeps a value that fits. -/
theorem toI32_of_fits (v : Int) (h1 : -2147483648 ≤ v) (h2 : v < 2147483648) : toI32 v = v := by
  unfold toI32
  omega

/-- C28: `adsCountsToMicrovolts(counts)` returns 0 when the gain is 0.
Otherwise it returns the quotient `(counts * vref_uv) / (gain * 8388607)` cast
to `int32_t`: for an `int32_t` count, a `uint32_t` reference and a `uint8_t`
gain the product and the divisor stay inside the 64-bit range, the division
truncates toward zero (floor for a non-negative product, negated floor of
the negated product otherwise), and the cast keeps every quotient that fits 32 bits.
With the defaults (`vref_uv = 4500000`, `gain = 24`) the quotient of every
`int32_t` count fits, so the result is the quotient; `8388607` gives
`187500`. -/
theorem adsCountsToMicrovolts_spec (s : FwState) (counts : Int)
    (hlo : -2147483648 ≤ counts) (hhi : counts ≤ 2147483647)
    (hv : s.g_adsVrefUv < 2 ^ 32) (hg : s.g_adsGain < 256) :
    (s.g_adsGain = 0 → adsCountsToMicrovolts s counts = 0) ∧
      (s.g_adsGain ≠ 0 →
        adsCountsToMicrovolts s counts
            = toI32 (Int.tdiv (counts * (s.g_adsVrefUv : Int)) ((s.g_adsGain : Int) * 8388607)) ∧
          -2 ^ 63 ≤ counts * (s.g_adsVrefUv : Int) ∧
          counts * (s.g_adsVrefUv : Int) < 2 ^ 63 ∧
          0 < (s.g_adsGain : Int) * 8388607 ∧
          (s.g_adsGain : Int) * 8388607 < 2 ^ 63 ∧
          (0 ≤ counts * (s.g_adsVrefUv : Int) →
            Int.tdiv (counts * (s.g_adsVrefUv : Int)) ((s.g_adsGain : Int) * 8388607)
              = counts * (s.g_adsVrefUv : Int) / ((s.g_adsGain : Int) * 8388607)) ∧
          (counts * (s.g_adsVrefUv : Int) < 0 →
            Int.tdiv (counts * (s.g_adsVrefUv : Int)) ((s.g_adsGain : Int) * 8388607)
              = -((-(counts * (s.g_adsVrefUv : Int))) / ((s.g_adsGain : Int) * 8388607))) ∧
          (-2147483648 ≤ Int.tdiv (counts * (s.g_adsVrefUv : Int))
                ((s.g_adsGain : Int) * 8388607) →
            Int.tdiv (counts * (s.g_adsVrefUv : Int)) ((s.g_adsGain : Int) * 8388607)
                < 2147483648 →
            adsCountsToMicrovolts s counts
              = Int.tdiv (counts * (s.g_adsVrefUv : Int)) ((s.g_adsGain : Int) * 8388607))) ∧
      (s.g_adsGain = 24 → s.g_adsVrefUv = 4500000 →
        adsCountsToMicrovolts s counts = Int.tdiv (counts * 4500000) (24 * 8388607) ∧
          -2147483648 ≤ Int.tdiv (counts * 4500000) (24 * 8388607) ∧
          Int.tdiv (counts * 4500000) (24 * 8388607) ≤ 2147483647) ∧
      (s.g_adsGain = 24 → s.g_adsVrefUv = 4500000 →
        adsCountsToMicrovolts s 8388607 = 187500 ∧
          adsCountsToMicrovolts s (-8388607) = -187500 ∧
          adsCountsToMicrovolts s 1 = 0 ∧
          adsCountsToMicrovolts s (-1) = 0) := by
  refine ⟨fun h0 => ?_, fun hne => ?_, fun h24 hvref => ?_, fun h24 hvref => ?_⟩
  · unfold adsCountsToMicrovolts
    rw [if_pos h0]
  · have hres : adsCountsToMicrovolts s counts
        = toI32 (Int.tdiv (counts * (s.g_adsVrefUv : Int)) ((s.g_adsGain : Int) * 8388607)) := by
      unfold adsCountsToMicrovolts
      rw [if_neg hne]
    have hden : 0 < (s.g_adsGain : Int) * 8388607 := by omega
    have hvI : (s.g_adsVrefUv : Int) < 4294967296 := by
      have : s.g_adsVrefUv < 4294967296 := hv
      exact_mod_cast this
    have hv0 : (0 : Int) ≤ (s.g_adsVrefUv : Int) := Int.ofNat_nonneg _
    have hmul1 : -2 ^ 63 ≤ counts * (s.g_adsVrefUv : Int) := by
      have h1 : -2147483648 * (s.g_adsVrefUv : Int) ≤ counts * (s.g_adsVrefUv : Int) :=
        Int.mul_le_mul_of_nonneg_right hlo hv0
      have h2 : (-2147483648 : Int) * (s.g_adsVrefUv : Int) ≥ -2147483648 * 4294967296 := by
        omega
      omega
    have hmul2 : counts * (s.g_adsVrefUv : Int) < 2 ^ 63 := by
      have h1 : counts * (s.g_adsVrefUv : Int) ≤ 2147483647 * (s.g_adsVrefUv : Int) :=
        Int.mul_le_mul_of_nonneg_right hhi hv0
      have h2 : (2147483647 : Int) * (s.g_adsVrefUv : Int) ≤ 2147483647 * 4294967296 := by
        omega
      omega
    have htr := tdiv_trunc (counts * (s.g_adsVrefUv : Int)) ((s.g_adsGain : Int) * 8388607) hden
    refine ⟨hres, hmul1, hmul2, hden, by omega, htr.1, htr.2, fun h1 h2 => ?_⟩
    rw [hres, toI32_of_fits _ h1 h2]
  · have hq := tdiv_trunc (counts * 4500000) (24 * 8388607) (by decide)
    have hbound : -2147483648 ≤ Int.tdiv (counts * 4500000) (24 * 8388607) ∧
        Int.tdiv (counts * 4500000) (24 * 8388607) ≤ 2147483647 := by
      by_cases hneg : counts < 0
      · rw [hq.2 (by omega)]
        omega
      · rw [hq.1 (by omega)]
        omega
    refine ⟨?_, hbound.1, hbound.2⟩
    have e : adsCountsToMicrovolts s counts
        = toI32 (Int.tdiv (counts * 4500000) (24 * 8388607)) := by
      unfold adsCountsToMicrovolts
      rw [if_neg (by omega), h24, hvref]
      rfl
    rw [e]
    exact toI32_of_fits _ hbound.1 (by omega)
  · unfold adsCountsToMicrovolts
    rw [if_neg (by omega), h24, hvref]
    decide

/-- Witness of C28: with the boot values of the globals, `8388607` counts are
`187500` microvolts and the most negative 24-bit count gives `-187500`. -/
theorem adsCountsToMicrovolts_spec_witness :
    adsCountsToMicrovolts fwBoot 8388607 = 187500 ∧
      adsCountsToMicrovolts fwBoot (-8388608) = -187500 :=
  ⟨((adsCountsToMicrovolts_spec fwBoot 8388607 (by decide) (by decide) (by decide)
      (by decide)).2.2.2 rfl rfl).1,
    ((adsCountsToMicrovolts_spec fwBoot (-8388608) (by decide) (by decide) (by decide)
      (by decide)).2.2.1 rfl rfl).1.trans (by decide)⟩

/-! ## Properties of the stream start -/

/-- The raw stream-on event: type, version, code, `a = 1`, `b = 0`, `c = 0`
and the CRC `0x3E6D`, low byte first. -/
theorem eventRaw_streamOn :
    eventRaw 0x01 1 0 0 = [0x02, 0x01, 0x01, 1, 0, 0, 0, 0, 0, 0, 0, 0, 0, 0, 0, 0x6D, 0x3E] ∧
      crc16_ccitt [0x02, 0x01, 0x01, 1, 0, 0, 0, 0, 0, 0, 0, 0, 0, 0, 0] = 0x3E6D := by
  set_option maxRecDepth 100000 in decide

/-- The first six bytes of a raw sample packet with index 0. -/
theorem sampleRaw_zero_head (t_us status24 : Nat) (ch1 ch2 ch3 ch4 : Int)
    (flags missedDrdyFrame recoveriesTotal : Nat) :
    (sampleRaw 0 t_us status24 ch1 ch2 ch3 ch4 flags missedDrdyFrame recoveriesTotal).take 6
      = [0x01, 0x01, 0, 0, 0, 0] := by
  simp [sampleRaw, pack_u32_le, PKT_SAMPLE, PROTO_VER]

/-- An iteration of the frame loop whose frame arrives accumulates it. -/
theorem selfTestIteration_arrived (s : FwState) (l : SelfTestLocals) (f : SelfTestFrameHw)
    (h : f.drdyLow = true) :
    (selfTestIteration s l f).1 = true ∧
      (selfTestIteration s l f).2.2 = selfTestAccumulate l (readFrame f.spi) := by
  unfold selfTestIteration
  simp only [h, Bool.true_eq_false, if_false, adsReadDataFrame15]
  exact ⟨trivial, rfl⟩

/-- An iteration of the frame loop whose frame does not arrive breaks the
loop and leaves the locals alone. -/
theorem selfTestIteration_timeout (s : FwState) (l : SelfTestLocals) (f : SelfTestFrameHw)
    (h : f.drdyLow = false) :
    (selfTestIteration s l f).1 = false ∧ (selfTestIteration s l f).2.2 = l := by
  unfold selfTestIteration
  simp only [h, if_true]
  exact ⟨trivial, trivial⟩

/-- The frame loop when every remaining frame arrives. -/
theorem selfTestLoopFrom_all (frame : Nat → SelfTestFrameHw) : ∀ (n i : Nat) (s : FwState)
    (l : SelfTestLocals), (∀ k, k < n → (frame (i + k)).drdyLow = true) →
    (selfTestLoopFrom frame i n s l).2 = selfTestFold frame i n l := by
  intro n
  induction n with
  | zero => intro i s l _; rfl
  | succ n ih =>
      intro i s l hall
      have h0 : (frame i).drdyLow = true := by
        have := hall 0 (by omega)
        simpa using this
      have hit := selfTestIteration_arrived s l (frame i) h0
      simp only [selfTestLoopFrom, selfTestFold]
      rw [hit.1]
      simp only [Bool.true_eq_false, if_false]
      rw [hit.2]
      apply ih
      intro k hk
      have := hall (k + 1) (by omega)
      have e : i + (k + 1) = i + 1 + k := by omega
      rw [e] at this
      exact this

/-- The frame loop when the frames `i, ..., i + k - 1` arrive and frame
`i + k` does not. -/
theorem selfTestLoopFrom_break (frame : Nat → SelfTestFrameHw) : ∀ (n i k : Nat) (s : FwState)
    (l : SelfTestLocals), k < n → (∀ j, j < k → (frame (i + j)).drdyLow = true) →
    (frame (i + k)).drdyLow = false →
    (selfTestLoopFrom frame i n s l).2 = selfTestFold frame i k l := by
  intro n
  induction n with
  | zero => intro i k s l hk; omega
  | succ n ih =>
      intro i k s l hk hall hbreak
      cases k with
      | zero =>
          have hit := selfTestIteration_timeout s l (frame i) (by simpa using hbreak)
          simp only [selfTestLoopFrom, selfTestFold]
          rw [hit.1]
          simp only [if_true]
          exact hit.2
      | succ k =>
          have h0 : (frame i).drdyLow = true := by
            have := hall 0 (by omega)
            simpa using this
          have hit := selfTestIteration_arrived s l (frame i) h0
          simp only [selfTestLoopFrom, selfTestFold]
          rw [hit.1]
          simp only [Bool.true_eq_false, if_false]
          rw [hit.2]
          have e : i + (k + 1) = i + 1 + k := by omega
          rw [e] at hbreak
          apply ih (i + 1) k _ _ (by omega) _ hbreak
          intro j hj
          have := hall (j + 1) (by omega)
          have e2 : i + (j + 1) = i + 1 + j := by omega
          rw [e2] at this
          exact this

/-- The two counters after `n` arrived frames. -/
theorem selfTestFold_counters (frame : Nat → SelfTestFrameHw) : ∀ (n i : Nat)
    (l : SelfTestLocals), l.goodFrames < 256 → l.statusBad < 256 →
    (selfTestFold frame i n l).goodFrames = (l.goodFrames + n) % 256 ∧
      (selfTestFold frame i n l).statusBad = (l.statusBad + framesInvalid frame i n) % 256 := by
  intro n
  induction n with
  | zero =>
      intro i l hg hb
      simp only [selfTestFold, framesInvalid]
      omega
  | succ n ih =>
      intro i l hg hb
      simp only [selfTestFold, framesInvalid]
      have h := ih (i + 1) (selfTestAccumulate l (readFrame (frame i).spi))
        (by simp only [selfTestAccumulate]; omega)
        (by simp only [selfTestAccumulate]; split_ifs <;> omega)
      rw [h.1, h.2]
      simp only [selfTestAccumulate]
      constructor
      · omega
      · split_ifs <;> omega

/-- The channel values are `int32_t` values. -/
theorem signExtend24_range (x : Nat) : INT32_MIN ≤ signExtend24 x ∧ signExtend24 x ≤ INT32_MAX := by
  unfold signExtend24 toI32 INT32_MIN INT32_MAX
  omega

/-- The per-channel extremes after `n` arrived frames. -/
theorem selfTestFold_extremes (frame : Nat → SelfTestFrameHw) (ch : Nat) (hch : ch < 4) :
    ∀ (n i : Nat) (l : SelfTestLocals), INT32_MIN ≤ l.maxCh ch → l.minCh ch ≤ INT32_MAX →
    (selfTestFold frame i n l).maxCh ch
        = max (l.maxCh ch) (framesMax (selfTestValue frame ch) i n) ∧
      (selfTestFold frame i n l).minCh ch
        = min (l.minCh ch) (framesMin (selfTestValue frame ch) i n) := by
  intro n
  induction n with
  | zero =>
      intro i l h1 h2
      simp only [selfTestFold, framesMax, framesMin]
      omega
  | succ n ih =>
      intro i l h1 h2
      have hr := signExtend24_range (frameWord24 (readFrame (frame i).spi) (3 + 3 * ch))
      simp only [selfTestFold, framesMax, framesMin]
      have h := ih (i + 1) (selfTestAccumulate l (readFrame (frame i).spi))
        (by simp only [selfTestAccumulate, frameChannel]; split_ifs <;> omega)
        (by simp only [selfTestAccumulate, frameChannel]; split_ifs <;> omega)
      rw [h.1, h.2]
      simp only [selfTestAccumulate, selfTestValue, frameChannel, hch, true_and]
      constructor
      · split_ifs <;> omega
      · split_ifs <;> omega

/-- At most every frame has an invalid header. -/
theorem framesInvalid_le (frame : Nat → SelfTestFrameHw) : ∀ (n i : Nat),
    framesInvalid frame i n ≤ n := by
  intro n
  induction n with
  | zero => intro i; simp [framesInvalid]
  | succ n ih =>
      intro i
      have := ih (i + 1)
      simp only [framesInvalid]
      split_ifs <;> omega

/-- A byte of a frame buffer filled from bytes is a byte. -/
theorem readFrame_byte_lt (spi : List Nat) (hb : ∀ b, b ∈ spi → b < 256) (i : Nat) :
    frameByte (readFrame spi) i < 256 := by
  have hspi : ∀ j, frameByte spi j < 256 := by
    intro j
    unfold frameByte
    cases h : spi[j]? with
    | none => simp
    | some b =>
        simp only [Option.getD_some]
        exact hb b (List.getElem?_mem h)
  unfold readFrame frameByte
  rw [List.getElem?_map]
  cases h : (List.range 15)[i]? with
  | none => simp
  | some j =>
      simp only [Option.map_some', Option.getD_some]
      exact hspi j

/-- A 24-bit word assembled from three bytes is below `2^24`. -/
theorem frameWord24_lt (frame : List Nat) (hb : ∀ i, frameByte frame i < 256) (i : Nat) :
    frameWord24 frame i < 2 ^ 24 := by
  unfold frameWord24
  have h0 := hb i
  have h1 := hb (i + 1)
  have h2 := hb (i + 2)
  apply Nat.or_lt_two_pow
  · apply Nat.or_lt_two_pow
    · rw [Nat.shiftLeft_eq]; omega
    · rw [Nat.shiftLeft_eq]; omega
  · omega

/-- The channel values of a frame of bytes are 24-bit signed values. -/
theorem selfTestValue_range (frame : Nat → SelfTestFrameHw) (ch i : Nat)
    (hb : ∀ b, b ∈ (frame i).spi → b < 256) :
    -8388608 ≤ selfTestValue frame ch i ∧ selfTestValue frame ch i ≤ 8388607 := by
  unfold selfTestValue frameChannel
  have hlt := frameWord24_lt (readFrame (frame i).spi) (readFrame_byte_lt _ hb) (3 + 3 * ch)
  rw [signExtend24_eq _ hlt]
  split_ifs <;> omega

/-- The extremes over at least one frame lie in the range of the values. -/
theorem framesExtremes_range (v : Nat → Int) (lo hi : Int) (hlo : INT32_MIN ≤ lo)
    (hhi : hi ≤ INT32_MAX) (hv : ∀ i, lo ≤ v i ∧ v i ≤ hi) : ∀ (n i : Nat),
    lo ≤ framesMax v i (n + 1) ∧ framesMax v i (n + 1) ≤ hi ∧
      lo ≤ framesMin v i (n + 1) ∧ framesMin v i (n + 1) ≤ hi := by
  intro n
  induction n with
  | zero =>
      intro i
      have := hv i
      simp only [framesMax, framesMin]
      omega
  | succ n ih =>
      intro i
      have := hv i
      have h := ih (i + 1)
      rw [framesMax, framesMin]
      omega

/-- The loop that computes `dynamicOk`: at least one frame, and no channel
with a peak-to-peak below 50. -/
theorem selfTestDynamicOk_iff (l : SelfTestLocals) :
    selfTestDynamicOk l [0, 1, 2, 3] = true
      ↔ l.goodFrames ≠ 0 ∧ ∀ ch, ch < 4 → ¬ toI32 (l.maxCh ch - l.minCh ch) < 50 := by
  have hall : (∀ ch, ch < 4 → ¬ toI32 (l.maxCh ch - l.minCh ch) < 50)
      ↔ (¬ toI32 (l.maxCh 0 - l.minCh 0) < 50) ∧ (¬ toI32 (l.maxCh 1 - l.minCh 1) < 50) ∧
        (¬ toI32 (l.maxCh 2 - l.minCh 2) < 50) ∧ (¬ toI32 (l.maxCh 3 - l.minCh 3) < 50) := by
    constructor
    · intro h
      exact ⟨h 0 (by omega), h 1 (by omega), h 2 (by omega), h 3 (by omega)⟩
    · intro h ch hch
      interval_cases ch
      · exact h.1
      · exact h.2.1
      · exact h.2.2.1
      · exact h.2.2.2
  rw [hall]
  simp only [selfTestDynamicOk]
  by_cases hg : l.goodFrames = 0
  · simp [hg]
  · simp only [hg, if_false]
    by_cases h0 : toI32 (l.maxCh 0 - l.minCh 0) < 50 <;>
    by_cases h1 : toI32 (l.maxCh 1 - l.minCh 1) < 50 <;>
    by_cases h2 : toI32 (l.maxCh 2 - l.minCh 2) < 50 <;>
    by_cases h3 : toI32 (l.maxCh 3 - l.minCh 3) < 50 <;>
    simp [h0, h1, h2, h3, hg]

/-- The returned flag of `adsRunInternalSelfTest`: false after an early
return, the verdict over the locals of the frame loop otherwise. -/
theorem adsRunInternalSelfTest_flag (s : FwState) (frames : Nat) (hw : SelfTestHw) :
    ((selfTestSetup s hw).1 = false → (adsRunInternalSelfTest s frames hw).1 = false) ∧
      ((selfTestSetup s hw).1 = true →
        (adsRunInternalSelfTest s frames hw).1
          = selfTestVerdict
              (selfTestLoopFrom hw.frame 0 (if frames = 0 then 32 else frames)
                { (selfTestSetup s hw).2 with
                  drdy := resetStreamEdgeStats (selfTestSetup s hw).2.drdy }
                selfTestLocalsInit).2
              (if frames = 0 then 32 else frames)) := by
  unfold adsRunInternalSelfTest
  constructor
  · intro h
    simp only [h, if_true]
  · intro h
    simp only [h, Bool.true_eq_false, if_false]

/-- The verdict after a frame loop in which all `n` frames arrived. -/
theorem selfTestVerdict_all (frame : Nat → SelfTestFrameHw) (n : Nat) (hn0 : 0 < n)
    (hn : n < 256) (hbytes : ∀ i b, b ∈ (frame i).spi → b < 256) :
    selfTestVerdict (selfTestFold frame 0 n selfTestLocalsInit) n = true
      ↔ framesInvalid frame 0 n ≤ n / 4 ∧
        ∀ ch, ch < 4 →
          50 ≤ framesMax (selfTestValue frame ch) 0 n - framesMin (selfTestValue frame ch) 0 n := by
  have hc := selfTestFold_counters frame n 0 selfTestLocalsInit (by decide) (by decide)
  have hinv := framesInvalid_le frame n 0
  have hg : (selfTestFold frame 0 n selfTestLocalsInit).goodFrames = n := by
    rw [hc.1]
    simp only [selfTestLocalsInit]
    omega
  have hb : (selfTestFold frame 0 n selfTestLocalsInit).statusBad = framesInvalid frame 0 n := by
    rw [hc.2]
    simp only [selfTestLocalsInit]
    omega
  have hp2p : ∀ ch, ch < 4 →
      toI32 ((selfTestFold frame 0 n selfTestLocalsInit).maxCh ch
        - (selfTestFold frame 0 n selfTestLocalsInit).minCh ch)
      = framesMax (selfTestValue frame ch) 0 n - framesMin (selfTestValue frame ch) 0 n := by
    intro ch hch
    have he := selfTestFold_extremes frame ch hch n 0 selfTestLocalsInit
      (by simp [selfTestLocalsInit]) (by simp [selfTestLocalsInit])
    obtain ⟨m, rfl⟩ : ∃ m, n = m + 1 := ⟨n - 1, by omega⟩
    have hr := framesExtremes_range (selfTestValue frame ch) (-8388608) 8388607
      (by unfold INT32_MIN; omega) (by unfold INT32_MAX; omega)
      (fun i => selfTestValue_range frame ch i (hbytes i)) m 0
    rw [he.1, he.2]
    simp only [selfTestLocalsInit]
    unfold INT32_MIN INT32_MAX toI32
    omega
  unfold selfTestVerdict
  simp only [Bool.and_eq_true, decide_eq_true_eq]
  rw [selfTestDynamicOk_iff, hg, hb]
  constructor
  · rintro ⟨⟨_, hdyn⟩, _, hst⟩
    refine ⟨hst, fun ch hch => ?_⟩
    have := hdyn ch hch
    rw [hp2p ch hch] at this
    omega
  · rintro ⟨hst, hdyn⟩
    refine ⟨⟨by omega, fun ch hch => ?_⟩, rfl, hst⟩
    rw [hp2p ch hch]
    have := hdyn ch hch
    omega

/-- The verdict after a frame loop that broke at frame `k < n`. -/
theorem selfTestVerdict_break (frame : Nat → SelfTestFrameHw) (n k : Nat) (hk : k < n)
    (hn : n < 256) : selfTestVerdict (selfTestFold frame 0 k selfTestLocalsInit) n = false := by
  have hc := selfTestFold_counters frame k 0 selfTestLocalsInit (by decide) (by decide)
  have hg : (selfTestFold frame 0 k selfTestLocalsInit).goodFrames ≠ n := by
    rw [hc.1]
    simp only [selfTestLocalsInit]
    omega
  unfold selfTestVerdict
  simp [hg]

/-- The self-test passes exactly when its set-up reaches the frame loop, all
frames arrive, at most a quarter of them have an invalid status header and
every channel has a peak-to-peak of at least 50 counts. -/
theorem adsRunInternalSelfTest_pass_iff (s : FwState) (frames n : Nat) (hw : SelfTestHw)
    (hframes : frames < 256) (hn : n = if frames = 0 then 32 else frames)
    (hbytes : ∀ i b, b ∈ (hw.frame i).spi → b < 256) :
    (adsRunInternalSelfTest s frames hw).1 = true
      ↔ (selfTestSetup s hw).1 = true ∧
        (∀ i, i < n → (hw.frame i).drdyLow = true) ∧
        framesInvalid hw.frame 0 n ≤ n / 4 ∧
        ∀ ch, ch < 4 →
          50 ≤ framesMax (selfTestValue hw.frame ch) 0 n
            - framesMin (selfTestValue hw.frame ch) 0 n := by
  have hn0 : 0 < n := by rw [hn]; split_ifs <;> omega
  have hn256 : n < 256 := by rw [hn]; split_ifs <;> omega
  have hflag := adsRunInternalSelfTest_flag s frames hw
  rw [← hn] at hflag
  cases hsu : (selfTestSetup s hw).1
  · rw [hflag.1 hsu]
    simp
  · rw [hflag.2 hsu]
    rcases first_success (fun j => !(hw.frame j).drdyLow) n with hall | ⟨k, hk, hbr, hmin⟩
    · have hall' : ∀ j, j < n → (hw.frame (0 + j)).drdyLow = true := by
        intro j hj
        have := hall j hj
        rw [Nat.zero_add]
        simpa using this
      rw [selfTestLoopFrom_all hw.frame n 0 _ _ hall',
        selfTestVerdict_all hw.frame n hn0 hn256 hbytes]
      constructor
      · intro h
        exact ⟨rfl, fun i hi => by simpa using hall i hi, h⟩
      · intro h
        exact h.2.2
    · have hmin' : ∀ j, j < k → (hw.frame (0 + j)).drdyLow = true := by
        intro j hj
        have := hmin j hj
        rw [Nat.zero_add]
        simpa using this
      have hbr' : (hw.frame (0 + k)).drdyLow = false := by
        rw [Nat.zero_add]
        simpa using hbr
      rw [selfTestLoopFrom_break hw.frame n 0 k _ _ hk hmin' hbr',
        selfTestVerdict_break hw.frame n k hk hn256]
      constructor
      · intro h; cases h
      · intro h
        have := h.2.1 k hk
        rw [Nat.zero_add] at hbr'
        rw [hbr'] at this
        cases this
/-- The frames of `swing50Hw` consist of bytes. -/
theorem swing50Hw_bytes : ∀ i b, b ∈ (swing50Hw.frame i).spi → b < 256 := by
  intro i b hb
  simp only [swing50Hw, List.mem_cons, List.mem_singleton, List.not_mem_nil, or_false] at hb
  split_ifs at hb <;> omega

/-- In `swing50Hw` every channel has a peak-to-peak of exactly 50 counts over
32 frames, and no frame has an invalid header. -/
theorem swing50Hw_facts :
    framesMax (selfTestValue swing50Hw.frame 0) 0 32
        - framesMin (selfTestValue swing50Hw.frame 0) 0 32 = 50 ∧
      framesMax (selfTestValue swing50Hw.frame 1) 0 32
        - framesMin (selfTestValue swing50Hw.frame 1) 0 32 = 50 ∧
      framesMax (selfTestValue swing50Hw.frame 2) 0 32
        - framesMin (selfTestValue swing50Hw.frame 2) 0 32 = 50 ∧
      framesMax (selfTestValue swing50Hw.frame 3) 0 32
        - framesMin (selfTestValue swing50Hw.frame 3) 0 32 = 50 ∧
      framesInvalid swing50Hw.frame 0 32 = 0 := by
  set_option maxRecDepth 1000000 in decide

/-- The set-up of the self-test succeeds in `idleReadyState` on `swing50Hw`. -/
theorem swing50Hw_setup : (selfTestSetup idleReadyState swing50Hw).1 = true := by
  decide
/-- Counterexample to C26 as stated: on `swing50Hw` all 32 frames arrive with
a valid header and every channel has a peak-to-peak of exactly 50 counts,
which is not strictly greater than 50, and the self-test passes. -/
theorem selfTest_pass_criteria_counterexample :
    framesMax (selfTestValue swing50Hw.frame 0) 0 32
        - framesMin (selfTestValue swing50Hw.frame 0) 0 32 = 50 ∧
      framesMax (selfTestValue swing50Hw.frame 1) 0 32
        - framesMin (selfTestValue swing50Hw.frame 1) 0 32 = 50 ∧
      framesMax (selfTestValue swing50Hw.frame 2) 0 32
        - framesMin (selfTestValue swing50Hw.frame 2) 0 32 = 50 ∧
      framesMax (selfTestValue swing50Hw.frame 3) 0 32
        - framesMin (selfTestValue swing50Hw.frame 3) 0 32 = 50 ∧
      (adsRunInternalSelfTest idleReadyState 32 swing50Hw).1 = true := by
  have hf := swing50Hw_facts
  refine ⟨hf.1, hf.2.1, hf.2.2.1, hf.2.2.2.1, ?_⟩
  rw [adsRunInternalSelfTest_pass_iff idleReadyState 32 32 swing50Hw (by decide) (by decide)
    swing50Hw_bytes]
  refine ⟨swing50Hw_setup, fun i _ => rfl, by rw [hf.2.2.2.2]; decide, fun ch hch => ?_⟩
  interval_cases ch
  · rw [hf.1]
  · rw [hf.2.1]
  · rw [hf.2.2.1]
  · rw [hf.2.2.2.1]

/-- C26, amended: the self-test passes (`adsRunInternalSelfTest` returns
true) if and only if its set-up reached the frame loop, all `frames` frames
arrived (`frames = 0` stands for 32), at most 25% of them had an invalid
status header, and every one of the four channels has a peak-to-peak (max -
min over the frames) of at least 50 counts.  `frames` is a `uint8_t` and the
frames consist of bytes. -/
theorem selfTest_pass_criteria (s : FwState) (frames n : Nat) (hw : SelfTestHw)
    (hframes : frames < 256) (hn : n = if frames = 0 then 32 else frames)
    (hbytes : ∀ i b, b ∈ (hw.frame i).spi → b < 256) :
    ((adsRunInternalSelfTest s frames hw).1 = true
      ↔ (selfTestSetup s hw).1 = true ∧
        (∀ i, i < n → (hw.frame i).drdyLow = true) ∧
        4 * framesInvalid hw.frame 0 n ≤ n ∧
        ∀ ch, ch < 4 →
          50 ≤ framesMax (selfTestValue hw.frame ch) 0 n
            - framesMin (selfTestValue hw.frame ch) 0 n) ∧
      (4 * framesInvalid hw.frame 0 n ≤ n ↔ framesInvalid hw.frame 0 n ≤ n / 4) := by
  have hq : 4 * framesInvalid hw.frame 0 n ≤ n ↔ framesInvalid hw.frame 0 n ≤ n / 4 := by
    omega
  rw [adsRunInternalSelfTest_pass_iff s frames n hw hframes hn hbytes, hq]
  exact ⟨Iff.rfl, Iff.rfl⟩

/-- Witness of C26, amended: on `swing50Hw`, with a peak-to-peak of 50 on
every channel, the self-test over 32 frames passes. -/
theorem selfTest_pass_criteria_witness :
    (adsRunInternalSelfTest idleReadyState 32 swing50Hw).1 = true :=
  (selfTest_pass_criteria idleReadyState 32 32 swing50Hw (by decide) (by decide)
    swing50Hw_bytes).1.2
    ⟨swing50Hw_setup, fun _ _ => rfl, by rw [swing50Hw_facts.2.2.2.2]; decide,
      fun ch hch => by
        interval_cases ch
        · rw [swing50Hw_facts.1]
        · rw [swing50Hw_facts.2.1]
        · rw [swing50Hw_facts.2.2.1]
        · rw [swing50Hw_facts.2.2.2.1]⟩

/-! ## Lemmas on what the self-test restores -/

/-- The call `adsConfigureRegisters` touches only the three configuration
globals. -/
theorem adsConfigureRegisters_frame (s : FwState) (ok : Bool) :
    (adsConfigureRegisters s ok).1 = ok ∧
      (adsConfigureRegisters s ok).2.g_streaming = s.g_streaming ∧
      (adsConfigureRegisters s ok).2.g_adsReady = s.g_adsReady ∧
      (adsConfigureRegisters s ok).2.g_outputMode = s.g_outputMode ∧
      (adsConfigureRegisters s ok).2.g_internalTestSignalEnabled
        = s.g_internalTestSignalEnabled ∧
      (adsConfigureRegisters s ok).2.g_leadOffDiagEnabled = s.g_leadOffDiagEnabled := by
  unfold adsConfigureRegisters
  cases ok <;> exact ⟨rfl, rfl, rfl, rfl, rfl, rfl⟩

/-- The call `adsSetInternalTestSignal(enable)`: the flag takes the new value
when the read-backs match and keeps the old one otherwise. -/
theorem adsSetInternalTestSignal_fields (s : FwState) (enable : Bool) (hw : ReconfigHw) :
    (adsSetInternalTestSignal s enable hw).1 = hw.readbackOk ∧
      (adsSetInternalTestSignal s enable hw).2.g_internalTestSignalEnabled
        = (if hw.readbackOk then enable else s.g_internalTestSignalEnabled) ∧
      (adsSetInternalTestSignal s enable hw).2.g_leadOffDiagEnabled = s.g_leadOffDiagEnabled ∧
      (adsSetInternalTestSignal s enable hw).2.g_streaming = s.g_streaming ∧
      (adsSetInternalTestSignal s enable hw).2.g_adsReady = s.g_adsReady ∧
      (adsSetInternalTestSignal s enable hw).2.g_outputMode = s.g_outputMode := by
  unfold adsSetInternalTestSignal adsConfigureRegisters
  cases h1 : hw.readbackOk <;> cases h2 : hw.rollbackOk <;> exact ⟨rfl, rfl, rfl, rfl, rfl, rfl⟩

/-- The call `adsSetLeadOffDiagnostics(enable)`: the flag takes the new value
when the read-backs match and keeps the old one otherwise. -/
theorem adsSetLeadOffDiagnostics_fields (s : FwState) (enable : Bool) (hw : ReconfigHw) :
    (adsSetLeadOffDiagnostics s enable hw).1 = hw.readbackOk ∧
      (adsSetLeadOffDiagnostics s enable hw).2.g_leadOffDiagEnabled
        = (if hw.readbackOk then enable else s.g_leadOffDiagEnabled) ∧
      (adsSetLeadOffDiagnostics s enable hw).2.g_internalTestSignalEnabled
        = s.g_internalTestSignalEnabled ∧
      (adsSetLeadOffDiagnostics s enable hw).2.g_streaming = s.g_streaming ∧
      (adsSetLeadOffDiagnostics s enable hw).2.g_adsReady = s.g_adsReady ∧
      (adsSetLeadOffDiagnostics s enable hw).2.g_outputMode = s.g_outputMode := by
  unfold adsSetLeadOffDiagnostics adsConfigureRegisters
  cases h1 : hw.readbackOk <;> cases h2 : hw.rollbackOk <;> exact ⟨rfl, rfl, rfl, rfl, rfl, rfl⟩

/-- The set-up of the self-test.  It always leaves streaming off and the test
flag is changed only when it succeeds; a successful set-up leaves the chip
ready, the test signal on and the lead-off diagnostics off. -/
theorem selfTestSetup_fields (s : FwState) (hw : SelfTestHw) :
    (selfTestSetup s hw).2.g_streaming = false ∧
      ((selfTestSetup s hw).1 = false →
        (selfTestSetup s hw).2.g_internalTestSignalEnabled = s.g_internalTestSignalEnabled) ∧
      ((selfTestSetup s hw).1 = true →
        (selfTestSetup s hw).2.g_internalTestSignalEnabled = true ∧
          (selfTestSetup s hw).2.g_leadOffDiagEnabled = false ∧
          (selfTestSetup s hw).2.g_adsReady = true) := by
  -- the state after the optional stop
  have hstop : ∀ s1 : FwState, s1 = (if s.g_streaming then adsStopStreaming s else s) →
      s1.g_streaming = false ∧ s1.g_internalTestSignalEnabled = s.g_internalTestSignalEnabled := by
    intro s1 hs1
    cases hst : s.g_streaming
    · rw [hst] at hs1
      simp only [Bool.false_eq_true, if_false] at hs1
      rw [hs1]
      exact ⟨hst, rfl⟩
    · rw [hst] at hs1
      simp only [if_true] at hs1
      rw [hs1]
      exact ⟨(adsStopStreaming_fields s).1, (adsStopStreaming_fields s).2.2.2.2.2.1⟩
  generalize hs1 : (if s.g_streaming then adsStopStreaming s else s) = s1
  obtain ⟨hstr1, htest1⟩ := hstop s1 hs1.symm
  -- the state after the optional initialisation
  have hinit : ∀ ri : Bool × FwState,
      ri = (if s1.g_adsReady = false then adsInitRobust s1 3 hw.init else (true, s1)) →
      ri.2.g_streaming = false ∧
        ri.2.g_internalTestSignalEnabled = s.g_internalTestSignalEnabled ∧
        (ri.1 = true → ri.2.g_adsReady = true) := by
    intro ri hri
    cases hr : s1.g_adsReady
    · rw [hr] at hri
      simp only [if_true] at hri
      have f := adsInitRobust_frame s1 3 hw.init
      rw [hri]
      exact ⟨f.2.2.1.trans hstr1, f.2.2.2.2.2.1.trans htest1, fun h => f.1.trans h⟩
    · rw [hr] at hri
      simp only [Bool.true_eq_false, if_false] at hri
      rw [hri]
      exact ⟨hstr1, htest1, fun _ => hr⟩
  unfold selfTestSetup
  simp only [hs1]
  generalize hri : (if s1.g_adsReady = false then adsInitRobust s1 3 hw.init else (true, s1)) = ri
  obtain ⟨hstr2, htest2, hready2⟩ := hinit ri hri.symm
  cases hri1 : ri.1
  · simp only [if_true]
    exact ⟨hstr2, fun _ => htest2, fun h => (by cases h)⟩
  · simp only [Bool.true_eq_false, if_false]
    -- the state after the optional switch-off of the lead-off diagnostics
    have hloff : ∀ rl : Bool × FwState,
        rl = (if ri.2.g_leadOffDiagEnabled then adsSetLeadOffDiagnostics ri.2 false hw.loffOff
          else (true, ri.2)) →
        rl.2.g_streaming = false ∧
          rl.2.g_internalTestSignalEnabled = s.g_internalTestSignalEnabled ∧
          rl.2.g_adsReady = true ∧
          (rl.1 = true → rl.2.g_leadOffDiagEnabled = false) := by
      intro rl hrl
      cases hl : ri.2.g_leadOffDiagEnabled
      · rw [hl] at hrl
        simp only [Bool.false_eq_true, if_false] at hrl
        rw [hrl]
        exact ⟨hstr2, htest2, hready2 hri1, fun _ => hl⟩
      · rw [hl] at hrl
        simp only [if_true] at hrl
        have f := adsSetLeadOffDiagnostics_fields ri.2 false hw.loffOff
        rw [hrl]
        refine ⟨f.2.2.2.1.trans hstr2, f.2.2.1.trans htest2,
          f.2.2.2.2.1.trans (hready2 hri1), fun h => ?_⟩
        rw [f.2.1, ← f.1, h]
        rfl
    generalize hrl : (if ri.2.g_leadOffDiagEnabled
      then adsSetLeadOffDiagnostics ri.2 false hw.loffOff else (true, ri.2)) = rl
    obtain ⟨hstr3, htest3, hready3, hloff3⟩ := hloff rl hrl.symm
    cases hrl1 : rl.1
    · simp only [if_true]
      exact ⟨hstr3, fun _ => htest3, fun h => (by cases h)⟩
    · simp only [Bool.true_eq_false, if_false]
      have f := adsSetInternalTestSignal_fields rl.2 true hw.testOn
      cases hrt : (adsSetInternalTestSignal rl.2 true hw.testOn).1
      · simp only [if_true]
        refine ⟨f.2.2.2.1.trans hstr3, fun _ => ?_, fun h => (by cases h)⟩
        rw [f.2.1, ← f.1, hrt]
        exact htest3
      · simp only [Bool.true_eq_false, if_false]
        refine ⟨f.2.2.2.1.trans hstr3, fun h => (by cases h), fun _ => ⟨?_, ?_, ?_⟩⟩
        · rw [f.2.1, ← f.1, hrt]
          rfl
        · exact f.2.2.1.trans (hloff3 hrl1)
        · exact f.2.2.2.2.1.trans hready3
/-- An iteration of the frame loop leaves the stream state, the ready flag,
the mode and the two configuration flags alone. -/
theorem selfTestIteration_frame (s : FwState) (l : SelfTestLocals) (f : SelfTestFrameHw) :
    (selfTestIteration s l f).2.1.g_streaming = s.g_streaming ∧
      (selfTestIteration s l f).2.1.g_adsReady = s.g_adsReady ∧
      (selfTestIteration s l f).2.1.g_outputMode = s.g_outputMode ∧
      (selfTestIteration s l f).2.1.g_internalTestSignalEnabled
        = s.g_internalTestSignalEnabled ∧
      (selfTestIteration s l f).2.1.g_leadOffDiagEnabled = s.g_leadOffDiagEnabled := by
  unfold selfTestIteration adsReadDataFrame15
  simp only []
  split_ifs <;> exact ⟨rfl, rfl, rfl, rfl, rfl⟩

/-- The frame loop leaves the stream state, the ready flag, the mode and the
two configuration flags alone. -/
theorem selfTestLoopFrom_frame (frame : Nat → SelfTestFrameHw) : ∀ (n i : Nat) (s : FwState)
    (l : SelfTestLocals),
    (selfTestLoopFrom frame i n s l).1.g_streaming = s.g_streaming ∧
      (selfTestLoopFrom frame i n s l).1.g_adsReady = s.g_adsReady ∧
      (selfTestLoopFrom frame i n s l).1.g_outputMode = s.g_outputMode ∧
      (selfTestLoopFrom frame i n s l).1.g_internalTestSignalEnabled
        = s.g_internalTestSignalEnabled ∧
      (selfTestLoopFrom frame i n s l).1.g_leadOffDiagEnabled = s.g_leadOffDiagEnabled := by
  intro n
  induction n with
  | zero => intro i s l; exact ⟨rfl, rfl, rfl, rfl, rfl⟩
  | succ n ih =>
      intro i s l
      have hit := selfTestIteration_frame s l (frame i)
      simp only [selfTestLoopFrom]
      split_ifs
      · exact hit
      · have h := ih (i + 1) (selfTestIteration s l (frame i)).2.1
          (selfTestIteration s l (frame i)).2.2
        exact ⟨h.1.trans hit.1, h.2.1.trans hit.2.1, h.2.2.1.trans hit.2.2.1,
          h.2.2.2.1.trans hit.2.2.2.1, h.2.2.2.2.trans hit.2.2.2.2⟩

/-- The last part of the self-test, entered with streaming off, the chip
ready, the test signal on and the lead-off diagnostics off.  Streaming is
what it was before the self-test.  The test signal is switched off again
when it was off before and the reconfiguration succeeds; the lead-off
diagnostics are switched on again when they were on before and the
reconfiguration succeeds. -/
theorem selfTestFinish_fields (s : FwState) (hw : SelfTestHw)
    (wasStreaming oldTest oldLoff overallOk : Bool) (goodFrames statusBad : Nat)
    (hstr : s.g_streaming = false) (hready : s.g_adsReady = true)
    (htest : s.g_internalTestSignalEnabled = true) (hloff : s.g_leadOffDiagEnabled = false) :
    (selfTestFinish s hw wasStreaming oldTest oldLoff overallOk goodFrames
        statusBad).g_streaming = wasStreaming ∧
      (selfTestFinish s hw wasStreaming oldTest oldLoff overallOk goodFrames
        statusBad).g_internalTestSignalEnabled
          = (if oldTest then true else !hw.testRestore.readbackOk) ∧
      (selfTestFinish s hw wasStreaming oldTest oldLoff overallOk goodFrames
        statusBad).g_leadOffDiagEnabled
          = (if oldLoff then hw.loffRestore.readbackOk else false) := by
  -- the state after the report
  have h4 : ∀ s4 : FwState,
      s4 = (match s.g_outputMode with
        | OutputMode.MODE_BIN =>
            { s with tx := (emitEventPacket s.tx 0x30 (if overallOk then 1 else 0) goodFrames
                statusBad).2 }
        | OutputMode.MODE_CSV =>
            { s with serialOut := s.serialOut
                ++ [SerialLine.selfTest goodFrames statusBad overallOk] }) →
      s4.g_streaming = false ∧ s4.g_adsReady = true ∧ s4.g_internalTestSignalEnabled = true ∧
        s4.g_leadOffDiagEnabled = false := by
    intro s4 hs4
    rw [hs4]
    split <;> exact ⟨hstr, hready, htest, hloff⟩
  unfold selfTestFinish
  simp only []
  generalize hs4 : (match s.g_outputMode with
        | OutputMode.MODE_BIN =>
            { s with tx := (emitEventPacket s.tx 0x30 (if overallOk then 1 else 0) goodFrames
                statusBad).2 }
        | OutputMode.MODE_CSV =>
            { s with serialOut := s.serialOut
                ++ [SerialLine.selfTest goodFrames statusBad overallOk] }) = s4
  obtain ⟨a1, a2, a3, a4⟩ := h4 s4 hs4.symm
  have ft := adsSetInternalTestSignal_fields s4 oldTest hw.testRestore
  have ft' := adsSetInternalTestSignal_fields s4 false hw.testRestore
  -- the state after the test signal was set back
  have h5 : ∀ s5 : FwState,
      s5 = (if oldTest ≠ s4.g_internalTestSignalEnabled then
          (adsSetInternalTestSignal s4 oldTest hw.testRestore).2
        else if oldTest = false then (adsSetInternalTestSignal s4 false hw.testRestore).2
        else s4) →
      s5.g_streaming = false ∧ s5.g_adsReady = true ∧
        s5.g_internalTestSignalEnabled = (if oldTest then true else !hw.testRestore.readbackOk) ∧
        s5.g_leadOffDiagEnabled = false := by
    intro s5 hs5
    rw [a3] at hs5
    cases oldTest
    · simp only [ne_eq, Bool.false_eq_true, not_false_eq_true, if_true] at hs5
      rw [hs5]
      refine ⟨ft.2.2.2.1.trans a1, ft.2.2.2.2.1.trans a2, ?_, ft.2.2.1.trans a4⟩
      rw [ft.2.1, a3]
      cases hw.testRestore.readbackOk <;> rfl
    · simp only [ne_eq, not_true_eq_false, if_false, Bool.true_eq_false] at hs5
      rw [hs5]
      exact ⟨a1, a2, a3, a4⟩
  generalize hs5 : (if oldTest ≠ s4.g_internalTestSignalEnabled then
          (adsSetInternalTestSignal s4 oldTest hw.testRestore).2
        else if oldTest = false then (adsSetInternalTestSignal s4 false hw.testRestore).2
        else s4) = s5
  obtain ⟨b1, b2, b3, b4⟩ := h5 s5 hs5.symm
  have fl := adsSetLeadOffDiagnostics_fields s5 oldLoff hw.loffRestore
  -- the state after the lead-off diagnostics were set back
  have h6 : ∀ s6 : FwState,
      s6 = (if oldLoff ≠ s5.g_leadOffDiagEnabled then
          (adsSetLeadOffDiagnostics s5 oldLoff hw.loffRestore).2
        else if oldLoff = true then (adsSetLeadOffDiagnostics s5 true hw.loffRestore).2
        else s5) →
      s6.g_streaming = false ∧ s6.g_adsReady = true ∧
        s6.g_internalTestSignalEnabled = (if oldTest then true else !hw.testRestore.readbackOk) ∧
        s6.g_leadOffDiagEnabled = (if oldLoff then hw.loffRestore.readbackOk else false) := by
    intro s6 hs6
    rw [b4] at hs6
    cases oldLoff
    · simp only [ne_eq, not_true_eq_false, if_false, Bool.false_eq_true] at hs6
      rw [hs6]
      exact ⟨b1, b2, b3, b4⟩
    · simp only [ne_eq, Bool.true_eq_false, not_false_eq_true, if_true] at hs6
      rw [hs6]
      refine ⟨fl.2.2.2.1.trans b1, fl.2.2.2.2.1.trans b2, fl.2.2.1.trans b3, ?_⟩
      rw [fl.2.1, b4]
      cases hw.loffRestore.readbackOk <;> rfl
  generalize hs6 : (if oldLoff ≠ s5.g_leadOffDiagEnabled then
          (adsSetLeadOffDiagnostics s5 oldLoff hw.loffRestore).2
        else if oldLoff = true then (adsSetLeadOffDiagnostics s5 true hw.loffRestore).2
        else s5) = s6
  obtain ⟨c1, c2, c3, c4⟩ := h6 s6 hs6.symm
  cases wasStreaming
  · simp only [Bool.false_eq_true, if_false]
    exact ⟨c1, c3, c4⟩
  · simp only [if_true]
    have hst := adsStartStreaming_ready s6 hw.start c2
    exact ⟨hst.1, hst.2.2.2.2.2.2.2.2.1.trans c3, hst.2.2.2.2.2.2.2.2.2.1.trans c4⟩
/-- What `adsRunInternalSelfTest` leaves behind.  After a run that reached
the frame loop, streaming is what it was; the test flag is what it was unless
it was off and the reconfiguration that switches it off again failed; the
lead-off flag is what it was unless it was on and the reconfiguration that
switches it on again failed.  After an early return the test flag is what it
was. -/
theorem adsRunInternalSelfTest_restore (s : FwState) (frames : Nat) (hw : SelfTestHw) :
    ((selfTestSetup s hw).1 = true →
        (adsRunInternalSelfTest s frames hw).2.g_streaming = s.g_streaming ∧
          (adsRunInternalSelfTest s frames hw).2.g_internalTestSignalEnabled
            = (if s.g_internalTestSignalEnabled then true else !hw.testRestore.readbackOk) ∧
          (adsRunInternalSelfTest s frames hw).2.g_leadOffDiagEnabled
            = (if s.g_leadOffDiagEnabled then hw.loffRestore.readbackOk else false)) ∧
      ((selfTestSetup s hw).1 = false →
        (adsRunInternalSelfTest s frames hw).1 = false ∧
          (adsRunInternalSelfTest s frames hw).2 = (selfTestSetup s hw).2 ∧
          (adsRunInternalSelfTest s frames hw).2.g_streaming = false ∧
          (adsRunInternalSelfTest s frames hw).2.g_internalTestSignalEnabled
            = s.g_internalTestSignalEnabled) := by
  have hsu := selfTestSetup_fields s hw
  constructor
  · intro hok
    obtain ⟨ht, hl, hr⟩ := hsu.2.2 hok
    have hlp := selfTestLoopFrom_frame hw.frame (if frames = 0 then 32 else frames) 0
      { (selfTestSetup s hw).2 with drdy := resetStreamEdgeStats (selfTestSetup s hw).2.drdy }
      selfTestLocalsInit
    have e : (adsRunInternalSelfTest s frames hw).2
        = selfTestFinish
            (selfTestLoopFrom hw.frame 0 (if frames = 0 then 32 else frames)
              { (selfTestSetup s hw).2 with
                drdy := resetStreamEdgeStats (selfTestSetup s hw).2.drdy }
              selfTestLocalsInit).1 hw s.g_streaming s.g_internalTestSignalEnabled
            s.g_leadOffDiagEnabled
            (selfTestVerdict
              (selfTestLoopFrom hw.frame 0 (if frames = 0 then 32 else frames)
                { (selfTestSetup s hw).2 with
                  drdy := resetStreamEdgeStats (selfTestSetup s hw).2.drdy }
                selfTestLocalsInit).2 (if frames = 0 then 32 else frames))
            (selfTestLoopFrom hw.frame 0 (if frames = 0 then 32 else frames)
              { (selfTestSetup s hw).2 with
                drdy := resetStreamEdgeStats (selfTestSetup s hw).2.drdy }
              selfTestLocalsInit).2.goodFrames
            (selfTestLoopFrom hw.frame 0 (if frames = 0 then 32 else frames)
              { (selfTestSetup s hw).2 with
                drdy := resetStreamEdgeStats (selfTestSetup s hw).2.drdy }
              selfTestLocalsInit).2.statusBad := by
      unfold adsRunInternalSelfTest
      simp only [hok, Bool.true_eq_false, if_false]
    rw [e]
    exact selfTestFinish_fields _ hw _ _ _ _ _ _ (hlp.1.trans hsu.1) (hlp.2.1.trans hr)
      (hlp.2.2.2.1.trans ht) (hlp.2.2.2.2.trans hl)
  · intro hfail
    have e : adsRunInternalSelfTest s frames hw = (false, (selfTestSetup s hw).2) := by
      unfold adsRunInternalSelfTest
      simp only [hfail, if_true]
    rw [e]
    exact ⟨rfl, rfl, hsu.1, hsu.2.1 hfail⟩

/-- Counterexample to C27 as stated: in `idleReadyState` the test signal is
off; the self-test runs to its end on `restoreFailHw`, where the
reconfiguration that switches the test signal off again fails its read-back,
and the flag is on after the call. -/
theorem selfTest_restore_counterexample :
    idleReadyState.g_internalTestSignalEnabled = false ∧
      (selfTestSetup idleReadyState restoreFailHw).1 = true ∧
      (adsRunInternalSelfTest idleReadyState 32 restoreFailHw).2.g_internalTestSignalEnabled
        = true := by
  have hsetup : (selfTestSetup idleReadyState restoreFailHw).1 = true := by decide
  refine ⟨by decide, hsetup, ?_⟩
  rw [((adsRunInternalSelfTest_restore idleReadyState 32 restoreFailHw).1 hsetup).2.1]
  decide

/-- An early return of the self-test with the stream stopped: started while
streaming with lead-off diagnostics on, when the reconfiguration that
switches them off fails, the call returns false and streaming is off. -/
theorem selfTest_early_return_stops_stream :
    streamingLoffState.g_streaming = true ∧
      (adsRunInternalSelfTest streamingLoffState 32 loffOffFailHw).1 = false ∧
      (adsRunInternalSelfTest streamingLoffState 32 loffOffFailHw).2.g_streaming = false := by
  have hsetup : (selfTestSetup streamingLoffState loffOffFailHw).1 = false := by decide
  have h := (adsRunInternalSelfTest_restore streamingLoffState 32 loffOffFailHw).2 hsetup
  exact ⟨by decide, h.1, h.2.2.1⟩

/-- C27, amended: on the paths through `adsRunInternalSelfTest` that reach
the frame loop (pass or fail), the streaming state after the call equals its
value before; the internal-test-signal flag equals its value before exactly
when it was on before or the reconfiguration that switches it off again
succeeds, and the lead-off-diagnostics flag equals its value before exactly
when it was off before or the reconfiguration that switches it on again
succeeds.  On an early return the call returns false and the
internal-test-signal flag equals its value before. -/
theorem selfTest_restore (s : FwState) (frames : Nat) (hw : SelfTestHw) :
    ((selfTestSetup s hw).1 = true →
        (adsRunInternalSelfTest s frames hw).2.g_streaming = s.g_streaming ∧
          ((adsRunInternalSelfTest s frames hw).2.g_internalTestSignalEnabled
              = s.g_internalTestSignalEnabled
            ↔ s.g_internalTestSignalEnabled = true ∨ hw.testRestore.readbackOk = true) ∧
          ((adsRunInternalSelfTest s frames hw).2.g_leadOffDiagEnabled = s.g_leadOffDiagEnabled
            ↔ s.g_leadOffDiagEnabled = false ∨ hw.loffRestore.readbackOk = true)) ∧
      ((selfTestSetup s hw).1 = false →
        (adsRunInternalSelfTest s frames hw).1 = false ∧
          (adsRunInternalSelfTest s frames hw).2.g_internalTestSignalEnabled
            = s.g_internalTestSignalEnabled) := by
  have h := adsRunInternalSelfTest_restore s frames hw
  constructor
  · intro hok
    obtain ⟨h1, h2, h3⟩ := h.1 hok
    refine ⟨h1, ?_, ?_⟩
    · rw [h2]
      cases s.g_internalTestSignalEnabled <;> cases hw.testRestore.readbackOk <;> simp
    · rw [h3]
      cases s.g_leadOffDiagEnabled <;> cases hw.loffRestore.readbackOk <;> simp
  · intro hfail
    exact ⟨(h.2 hfail).1, (h.2 hfail).2.2.2⟩

/-- Witness of C27, amended: a self-test started while streaming with
lead-off diagnostics on, on hardware whose reconfigurations succeed, leaves
streaming on, the lead-off diagnostics on and the test signal off. -/
theorem selfTest_restore_witness :
    (adsRunInternalSelfTest streamingLoffState 32 swing50Hw).2.g_streaming = true ∧
      (adsRunInternalSelfTest streamingLoffState 32 swing50Hw).2.g_internalTestSignalEnabled
        = false ∧
      (adsRunInternalSelfTest streamingLoffState 32 swing50Hw).2.g_leadOffDiagEnabled = true :=
  have h := (selfTest_restore streamingLoffState 32 swing50Hw).1 (by decide)
  ⟨h.1.trans (by decide), (h.2.1.2 (Or.inr rfl)).trans (by decide),
    (h.2.2.2 (Or.inr rfl)).trans (by decide)⟩

/-! ## Properties of the edge accounting -/

/-- Every edge is counted in `g_drdyEdgesTotal`. -/
theorem onDrdyFalling_edges (d : DrdyBlock) (rate now : Nat) :
    (onDrdyFalling d rate now).g_drdyEdgesTotal = (d.g_drdyEdgesTotal + 1) % 2 ^ 32 := by
  unfold onDrdyFalling
  simp only []
  split_ifs <;> rfl

/-- A capture on a set flag clears the flag and the per-frame count; on a
clear flag it changes nothing. -/
theorem capturePendingDrdySnapshot_block (d : DrdyBlock) :
    (d.g_drdyFlag = true →
        (capturePendingDrdySnapshot d (some snapZero)).1 = true ∧
          (capturePendingDrdySnapshot d (some snapZero)).2.2
            = { d with g_drdyFlag := false, g_missedDrdyFrame := 0 }) ∧
      (d.g_drdyFlag = false →
        (capturePendingDrdySnapshot d (some snapZero)).1 = false ∧
          (capturePendingDrdySnapshot d (some snapZero)).2.2 = d) := by
  unfold capturePendingDrdySnapshot
  constructor
  · intro h
    simp [h]
  · intro h
    simp [h]

/-- One access keeps the accounting invariant. -/
theorem drdyRunOp_accounted (t : DrdyTrace) (op : DrdyOp) (h : DrdyAccounted t) :
    DrdyAccounted (drdyRunOp t op) := by
  obtain ⟨hsum, hzero⟩ := h
  cases op with
  | edge rate nowUs =>
      unfold DrdyAccounted
      simp only [drdyRunOp]
      rw [onDrdyFalling_edges]
      cases hf : t.block.g_drdyFlag
      · obtain ⟨h1, h2, h3⟩ := onDrdyFalling_idle t.block rate nowUs hf
        simp only [hf, Bool.false_eq_true, if_false] at hsum
        simp only [h1, h2, if_true]
        refine ⟨by omega, fun hc => (by cases hc)⟩
      · obtain ⟨h1, h2, h3⟩ := onDrdyFalling_pending t.block rate nowUs hf
        simp only [hf, if_true] at hsum
        simp only [h1, h2, if_true]
        refine ⟨by omega, fun hc => (by cases hc)⟩
  | capture =>
      unfold DrdyAccounted
      simp only [drdyRunOp]
      cases hf : t.block.g_drdyFlag
      · obtain ⟨h1, h2⟩ := (capturePendingDrdySnapshot_block t.block).2 hf
        simp only [hf, Bool.false_eq_true, if_false] at hsum
        simp only [h1, h2, hf, Bool.false_eq_true, if_false]
        exact ⟨hsum, fun _ => hzero hf⟩
      · obtain ⟨h1, h2⟩ := (capturePendingDrdySnapshot_block t.block).1 hf
        simp only [hf, if_true] at hsum
        simp only [h1, h2, if_true, Bool.false_eq_true, if_false]
        refine ⟨by omega, fun _ => trivial⟩

/-- Every sequence of accesses keeps the accounting invariant. -/
theorem drdyRun_accounted_from (ops : List DrdyOp) : ∀ t : DrdyTrace, DrdyAccounted t →
    DrdyAccounted (ops.foldl drdyRunOp t) := by
  induction ops with
  | nil => intro t h; exact h
  | cons op ops ih =>
      intro t h
      exact ih (drdyRunOp t op) (drdyRunOp_accounted t op h)

/-- C36: every DRDY edge is accounted for exactly once.  In every state
reached from the initial values of the block by a sequence of
`onDrdyFalling` and `capturePendingDrdySnapshot` calls,
`edges_total = missed_total + (number of captures that returned true) +
(1 if the flag is pending)` modulo `2^32`, and `missed_current > 0` implies
that the flag is pending. -/
theorem drdy_edge_accounting (ops : List DrdyOp) :
    (drdyRun ops).block.g_drdyEdgesTotal % 2 ^ 32
        = ((drdyRun ops).block.g_missedDrdyTotal + (drdyRun ops).captures
            + (if (drdyRun ops).block.g_drdyFlag then 1 else 0)) % 2 ^ 32 ∧
      ((drdyRun ops).block.g_missedDrdyFrame > 0 → (drdyRun ops).block.g_drdyFlag = true) := by
  have h := drdyRun_accounted_from ops { block := drdyBoot, captures := 0 }
    ⟨by decide, fun _ => rfl⟩
  refine ⟨h.1, fun hpos => ?_⟩
  cases hf : (drdyRun ops).block.g_drdyFlag
  · have := h.2 hf
    unfold drdyRun at hpos
    omega
  · rfl

/-- Witness of C36: three edges, a capture, an edge and two captures give 4
edges, 2 missed edges, 2 successful captures and no pending edge. -/
theorem drdy_edge_accounting_witness :
    (drdyRun [DrdyOp.edge 250 4000, DrdyOp.edge 250 8000, DrdyOp.edge 250 12000,
        DrdyOp.capture, DrdyOp.edge 250 16000, DrdyOp.capture,
        DrdyOp.capture]).block.g_drdyEdgesTotal = 4 ∧
      (drdyRun [DrdyOp.edge 250 4000, DrdyOp.edge 250 8000, DrdyOp.edge 250 12000,
        DrdyOp.capture, DrdyOp.edge 250 16000, DrdyOp.capture,
        DrdyOp.capture]).block.g_missedDrdyTotal = 2 ∧
      (drdyRun [DrdyOp.edge 250 4000, DrdyOp.edge 250 8000, DrdyOp.edge 250 12000,
        DrdyOp.capture, DrdyOp.edge 250 16000, DrdyOp.capture, DrdyOp.capture]).captures = 2 ∧
      (drdyRun [DrdyOp.edge 250 4000, DrdyOp.edge 250 8000, DrdyOp.edge 250 12000,
        DrdyOp.capture, DrdyOp.edge 250 16000, DrdyOp.capture,
        DrdyOp.capture]).block.g_drdyFlag = false ∧
      4 % 2 ^ 32 = (2 + 2 + 0) % 2 ^ 32 := by
  have h := drdy_edge_accounting [DrdyOp.edge 250 4000, DrdyOp.edge 250 8000,
    DrdyOp.edge 250 12000, DrdyOp.capture, DrdyOp.edge 250 16000, DrdyOp.capture, DrdyOp.capture]
  have e1 : (drdyRun [DrdyOp.edge 250 4000, DrdyOp.edge 250 8000, DrdyOp.edge 250 12000,
        DrdyOp.capture, DrdyOp.edge 250 16000, DrdyOp.capture,
        DrdyOp.capture]).block.g_drdyEdgesTotal = 4 := by decide
  have e2 : (drdyRun [DrdyOp.edge 250 4000, DrdyOp.edge 250 8000, DrdyOp.edge 250 12000,
        DrdyOp.capture, DrdyOp.edge 250 16000, DrdyOp.capture,
        DrdyOp.capture]).block.g_missedDrdyTotal = 2 := by decide
  have e3 : (drdyRun [DrdyOp.edge 250 4000, DrdyOp.edge 250 8000, DrdyOp.edge 250 12000,
        DrdyOp.capture, DrdyOp.edge 250 16000, DrdyOp.capture, DrdyOp.capture]).captures = 2 := by
    decide
  have e4 : (drdyRun [DrdyOp.edge 250 4000, DrdyOp.edge 250 8000, DrdyOp.edge 250 12000,
        DrdyOp.capture, DrdyOp.edge 250 16000, DrdyOp.capture,
        DrdyOp.capture]).block.g_drdyFlag = false := by decide
  rw [e1, e2, e3, e4] at h
  exact ⟨e1, e2, e3, e4, h.1⟩

/-! ## Properties of the stream start and of the sample index -/

/-- The call `adsInitRobust` leaves the DRDY block and the sample index alone. -/
theorem adsInitRobust_drdy (s : FwState) (attempts : Nat) (hw : InitHw) :
    (adsInitRobust s attempts hw).2.drdy = s.drdy ∧
      (adsInitRobust s attempts hw).2.g_sampleIndex = s.g_sampleIndex := by
  have honce : ∀ a, (adsInitOnce s a).2.drdy = s.drdy ∧
      (adsInitOnce s a).2.g_sampleIndex = s.g_sampleIndex := by
    intro a
    rw [(adsInitOnce_spec s a).2]
    cases (adsInitOnce s a).1 <;> exact ⟨rfl, rfl⟩
  rcases adsInitRobust_cases s attempts hw with ⟨_, h⟩ | ⟨k, _, _, _, h⟩
  · rw [h]
    unfold adsInitFailTail
    simp only []
    split <;> exact ⟨rfl, rfl⟩
  · rw [h]
    unfold adsInitOkTail
    simp only []
    split <;> exact honce _

/-- The block after `resetStreamEdgeStats()`: the initial values, except for
the two totals, which are kept. -/
theorem resetStreamEdgeStats_eq (d : DrdyBlock) :
    resetStreamEdgeStats d
      = { drdyBoot with
          g_drdyEdgesTotal := d.g_drdyEdgesTotal
          g_missedDrdyTotal := d.g_missedDrdyTotal } := rfl

/-- The DRDY block after `adsStartStreaming()`: reset when the stream was
started, untouched when the initialisation failed. -/
theorem adsStartStreaming_drdy (s : FwState) (hw : StartHw) :
    ((s.g_adsReady = true ∨ (adsInitRobust s 3 hw.init).1 = true) →
        (adsStartStreaming s hw).g_streaming = true ∧
          (adsStartStreaming s hw).drdy = resetStreamEdgeStats s.drdy) ∧
      (s.g_adsReady = false → (adsInitRobust s 3 hw.init).1 = false →
        (adsStartStreaming s hw).g_streaming = s.g_streaming ∧
          (adsStartStreaming s hw).drdy = s.drdy) := by
  cases hr : s.g_adsReady
  · constructor
    · intro h
      rcases h with h | h
      · cases h
      · have hfr := adsInitRobust_frame s 3 hw.init
        have hd := adsInitRobust_drdy s 3 hw.init
        unfold adsStartStreaming
        simp only [hr, if_true, h, Bool.true_eq_false, if_false]
        split
        · exact ⟨rfl, by rw [← hd.1]⟩
        · exact ⟨rfl, by rw [← hd.1]⟩
    · intro _ hfail
      have hfr := adsInitRobust_frame s 3 hw.init
      have hd := adsInitRobust_drdy s 3 hw.init
      unfold adsStartStreaming
      simp only [hr, if_true, hfail]
      exact ⟨hfr.2.2.1, hd.1⟩
  · constructor
    · intro _
      have h := adsStartStreaming_ready s hw hr
      exact ⟨h.1, h.2.2.2.1⟩
    · intro h
      cases h

/-- Counterexample to C31 as stated: in `edgesSeenState` two edges were
counted, one of them as missed; `adsStartStreaming()` starts the stream and
the two totals are still 2 and 1, not their initial value 0. -/
theorem adsStartStreaming_resets_block_counterexample :
    edgesSeenState.drdy.g_drdyEdgesTotal = 2 ∧
      edgesSeenState.drdy.g_missedDrdyTotal = 1 ∧
      (adsStartStreaming edgesSeenState { init := goodChip, nowUs := 9000 }).g_streaming = true ∧
      (adsStartStreaming edgesSeenState
        { init := goodChip, nowUs := 9000 }).drdy.g_drdyEdgesTotal = 2 ∧
      (adsStartStreaming edgesSeenState
        { init := goodChip, nowUs := 9000 }).drdy.g_missedDrdyTotal = 1 ∧
      drdyBoot.g_drdyEdgesTotal = 0 ∧
      drdyBoot.g_missedDrdyTotal = 0 := by
  have h := (adsStartStreaming_drdy edgesSeenState { init := goodChip, nowUs := 9000 }).1
    (Or.inl (by decide))
  refine ⟨by decide, by decide, h.1, ?_, ?_, rfl, rfl⟩
  · rw [h.2]
    decide
  · rw [h.2]
    decide

/-- C31, amended: when `adsStartStreaming()` starts the stream (the chip is
ready, or its initialisation succeeds), it resets the per-stream part of the
DRDY timing block: the pending flag is clear, `missed_current`,
`last_edge_us`, `prev_edge_us` and the interval and jitter last, max, count
and sum fields are zero and the two min fields are `0xFFFFFFFF`, their
initial values.  The totals `edges_total` and `missed_total` keep the values
they had. -/
theorem adsStartStreaming_resets_block (s : FwState) (hw : StartHw)
    (hstart : s.g_adsReady = true ∨ (adsInitRobust s 3 hw.init).1 = true) :
    (adsStartStreaming s hw).g_streaming = true ∧
      (adsStartStreaming s hw).drdy
        = { g_drdyFlag := false
            g_missedDrdyTotal := s.drdy.g_missedDrdyTotal
            g_missedDrdyFrame := 0
            g_drdyEdgesTotal := s.drdy.g_drdyEdgesTotal
            g_lastDrdyTimestampUs := 0
            g_prevDrdyTimestampUs := 0
            g_drdyIntervalLastUs := 0
            g_drdyIntervalMinUs := 0xFFFFFFFF
            g_drdyIntervalMaxUs := 0
            g_drdyJitterAbsLastUs := 0
            g_drdyJitterAbsMinUs := 0xFFFFFFFF
            g_drdyJitterAbsMaxUs := 0
            g_drdyIntervalCount := 0
            g_drdyIntervalSumUs := 0
            g_drdyJitterAbsSumUs := 0 } ∧
      (adsStartStreaming s hw).drdy
        = { drdyBoot with
            g_drdyEdgesTotal := s.drdy.g_drdyEdgesTotal
            g_missedDrdyTotal := s.drdy.g_missedDrdyTotal } := by
  have h := (adsStartStreaming_drdy s hw).1 hstart
  exact ⟨h.1, h.2, h.2⟩

/-- Witness of C31, amended: in `edgesSeenState` the flag was pending with a
missed edge; after the start the flag is clear, the per-frame count is zero
and the total of edges is still 2. -/
theorem adsStartStreaming_resets_block_witness :
    edgesSeenState.drdy.g_drdyFlag = true ∧
      edgesSeenState.drdy.g_missedDrdyFrame = 1 ∧
      (adsStartStreaming edgesSeenState
        { init := goodChip, nowUs := 9000 }).drdy.g_drdyFlag = false ∧
      (adsStartStreaming edgesSeenState
        { init := goodChip, nowUs := 9000 }).drdy.g_missedDrdyFrame = 0 ∧
      (adsStartStreaming edgesSeenState
        { init := goodChip, nowUs := 9000 }).drdy.g_drdyEdgesTotal = 2 := by
  have h := (adsStartStreaming_resets_block edgesSeenState { init := goodChip, nowUs := 9000 }
    (Or.inl (by decide))).2.1
  refine ⟨by decide, by decide, ?_, ?_, ?_⟩
  · rw [h]
  · rw [h]
  · rw [h]
    decide

/-- The index field of a raw sample packet: bytes 2 to 5 hold the index,
little-endian. -/
theorem sampleRaw_index (sampleIndex t_us status24 : Nat) (ch1 ch2 ch3 ch4 : Int)
    (flags missedDrdyFrame recoveriesTotal : Nat) :
    ((sampleRaw sampleIndex t_us status24 ch1 ch2 ch3 ch4 flags missedDrdyFrame
        recoveriesTotal).drop 2).take 4 = pack_u32_le sampleIndex ∧
      leValue (pack_u32_le sampleIndex) = sampleIndex % 2 ^ 32 := by
  constructor
  · simp [sampleRaw, pack_u32_le]
  · rw [pack_u32_le_leBytes, leValue_leBytes]
    norm_num

/-! ## One emission per DRDY edge -/

/-- The end of `handleOneSampleFrame` leaves the queued content and the
serial output alone. -/
theorem sampleFrameFinish_queued (s : FwState) (emitted : Bool) :
    txQueued (sampleFrameFinish s emitted).tx = txQueued s.tx ∧
      (sampleFrameFinish s emitted).drdy = s.drdy := by
  unfold sampleFrameFinish
  cases emitted <;> exact ⟨rfl, rfl⟩

/-- The emission leaves the DRDY block alone, and in CSV mode the ring. -/
theorem sampleFrameEmit_drdy (s : FwState) (l : SampleLocals) :
    (sampleFrameEmit s l).2.drdy = s.drdy ∧
      (s.g_outputMode = OutputMode.MODE_CSV → (sampleFrameEmit s l).2.tx = s.tx) := by
  unfold sampleFrameEmit
  cases hm : s.g_outputMode
  · exact ⟨rfl, fun hc => (by cases hc)⟩
  · exact ⟨rfl, fun _ => rfl⟩

/-- The DRDY block right before the emission is the block after the capture. -/
theorem sampleFrameOf_drdy (s : FwState) (spi : List Nat) (procUs : Nat) :
    (sampleFrameOf s spi procUs).2.drdy
      = (capturePendingDrdySnapshot s.drdy (some snapZero)).2.2 := by
  unfold sampleFrameOf sampleFrameParse
  simp only []
  split_ifs <;> rfl

/-- After a call of `handleOneSampleFrame` no edge is pending. -/
theorem handleOneSampleFrame_flag (s : FwState) (spi : List Nat) (procUs : Nat) :
    (handleOneSampleFrame s spi procUs).2.drdy.g_drdyFlag = false := by
  cases h : s.drdy.g_drdyFlag
  · rw [handleOneSampleFrame_idle s spi procUs h]
    exact h
  · rw [handleOneSampleFrame_consumed s spi procUs h]
    simp only []
    rw [(sampleFrameFinish_queued _ _).2, (sampleFrameEmit_drdy _ _).1, sampleFrameOf_drdy]
    simp [capturePendingDrdySnapshot, h]

/-- Steps between samples other than an edge leave the DRDY block alone. -/
theorem loopRun_noedge (ops : List LoopOp) : ∀ s : FwState,
    (∀ op ∈ ops, ∀ t : Nat, op ≠ LoopOp.edge t) → (loopRun s ops).2.drdy = s.drdy := by
  induction ops with
  | nil => intro s _; rfl
  | cons op ops ih =>
      intro s h
      have h1 := ih (loopStep s op).2 (fun o ho => h o (List.mem_cons_of_mem _ ho))
      have h2 : (loopStep s op).2.drdy = s.drdy := by
        cases op with
        | edge t => exact absurd rfl (h (LoopOp.edge t) (List.mem_cons_self _ _) t)
        | service available accept => rfl
        | packet raw => rfl
      exact h1.trans h2

/-! ## The button -/

/-- The call `adsInitRobust` leaves the button globals alone. -/
theorem adsInitRobust_button (s : FwState) (attempts : Nat) (hw : InitHw) :
    (adsInitRobust s attempts hw).2.g_pendingBtnFlag = s.g_pendingBtnFlag ∧
      (adsInitRobust s attempts hw).2.g_lastButtonToggleMs = s.g_lastButtonToggleMs := by
  have honce : ∀ a, (adsInitOnce s a).2.g_pendingBtnFlag = s.g_pendingBtnFlag ∧
      (adsInitOnce s a).2.g_lastButtonToggleMs = s.g_lastButtonToggleMs := by
    intro a
    rw [(adsInitOnce_spec s a).2]
    cases (adsInitOnce s a).1 <;> exact ⟨rfl, rfl⟩
  rcases adsInitRobust_cases s attempts hw with ⟨_, h⟩ | ⟨k, _, _, _, h⟩
  · rw [h]
    unfold adsInitFailTail
    simp only []
    split <;> exact ⟨rfl, rfl⟩
  · rw [h]
    unfold adsInitOkTail
    simp only []
    split <;> exact honce _

/-- Whether `adsInitRobust` succeeds does not depend on the globals. -/
theorem adsInitRobust_ok_indep (s s1 : FwState) (attempts : Nat) (hw : InitHw) :
    (adsInitRobust s attempts hw).1 = (adsInitRobust s1 attempts hw).1 := by
  have h := adsInitRobust_ok_iff s attempts hw
  have h1 := adsInitRobust_ok_iff s1 attempts hw
  have e : (∃ i, i < attempts ∧ (adsInitOnce s (hw.attempt i)).1 = true)
      ↔ ∃ i, i < attempts ∧ (adsInitOnce s1 (hw.attempt i)).1 = true := by
    constructor
    · rintro ⟨i, hi, hok⟩
      exact ⟨i, hi, (adsInitOnce_ok_indep s s1 _).symm.trans hok⟩
    · rintro ⟨i, hi, hok⟩
      exact ⟨i, hi, (adsInitOnce_ok_indep s s1 _).trans hok⟩
  cases hb : (adsInitRobust s attempts hw).1 <;> cases hb1 : (adsInitRobust s1 attempts hw).1
  · rfl
  · exact absurd (h.2 (e.2 (h1.1 hb1))) (by rw [hb]; decide)
  · exact absurd (h1.2 (e.1 (h.1 hb))) (by rw [hb1]; decide)
  · rfl

/-- The call `adsStartStreaming()` leaves the button globals alone; from a
stopped stream it ends with the stream on exactly when the chip is ready or
its initialisation succeeds. -/
theorem adsStartStreaming_button (s : FwState) (hw : StartHw) :
    (adsStartStreaming s hw).g_pendingBtnFlag = s.g_pendingBtnFlag ∧
      (adsStartStreaming s hw).g_lastButtonToggleMs = s.g_lastButtonToggleMs ∧
      (s.g_streaming = false →
        ((adsStartStreaming s hw).g_streaming = true
          ↔ s.g_adsReady = true ∨ (adsInitRobust s 3 hw.init).1 = true)) := by
  have hb := adsInitRobust_button s 3 hw.init
  have hd := adsStartStreaming_drdy s hw
  refine ⟨?_, ?_, ?_⟩
  · unfold adsStartStreaming
    cases hr : s.g_adsReady
    · cases hi : (adsInitRobust s 3 hw.init).1
      · simp only [if_true, hi]
        exact hb.1
      · simp only [if_true, hi, Bool.true_eq_false, if_false]
        split <;> exact hb.1
    · simp only [Bool.true_eq_false, if_false]
      split <;> rfl
  · unfold adsStartStreaming
    cases hr : s.g_adsReady
    · cases hi : (adsInitRobust s 3 hw.init).1
      · simp only [if_true, hi]
        exact hb.2
      · simp only [if_true, hi, Bool.true_eq_false, if_false]
        split <;> exact hb.2
    · simp only [Bool.true_eq_false, if_false]
      split <;> rfl
  · intro hoff
    constructor
    · intro hon
      by_cases hstart : s.g_adsReady = true ∨ (adsInitRobust s 3 hw.init).1 = true
      · exact hstart
      · have hr : s.g_adsReady = false := by
          cases h : s.g_adsReady
          · rfl
          · exact absurd (Or.inl h) hstart
        have hi : (adsInitRobust s 3 hw.init).1 = false := by
          cases h : (adsInitRobust s 3 hw.init).1
          · rfl
          · exact absurd (Or.inr h) hstart
        have := (hd.2 hr hi).1
        rw [hon, hoff] at this
        cases this
    · intro hstart
      exact (hd.1 hstart).1

/-- The call `adsStopStreaming()` leaves the button globals alone. -/
theorem adsStopStreaming_button (s : FwState) :
    (adsStopStreaming s).g_pendingBtnFlag = s.g_pendingBtnFlag ∧
      (adsStopStreaming s).g_lastButtonToggleMs = s.g_lastButtonToggleMs := by
  unfold adsStopStreaming
  simp only []
  split <;> exact ⟨rfl, rfl⟩

/-- A call of `handleButton` that does not see a HIGH-to-LOW transition more
than 250 ms after the last accepted one only records the sampled level. -/
theorem handleButton_reject (s : FwState) (nowState : Bool) (nowMs : Nat) (hw : StartHw)
    (h : ¬(s.g_lastBtnState = true ∧ nowState = false
      ∧ 250 < u32Sub nowMs s.g_lastButtonToggleMs)) :
    handleButton s nowState nowMs hw = { s with g_lastBtnState := nowState } := by
  unfold handleButton
  by_cases h1 : s.g_lastBtnState = true ∧ nowState = false
  · have h2 : ¬ u32Sub nowMs s.g_lastButtonToggleMs > 250 := fun hc => h ⟨h1.1, h1.2, hc⟩
    simp only [if_pos h1, if_neg h2]
  · simp only [if_neg h1]

/-- A call of `handleButton` that sees a HIGH-to-LOW transition more than
250 ms after the last accepted one records the time, raises the flag and
stops or starts the stream. -/
theorem handleButton_accept (s : FwState) (nowState : Bool) (nowMs : Nat) (hw : StartHw)
    (h : s.g_lastBtnState = true ∧ nowState = false
      ∧ 250 < u32Sub nowMs s.g_lastButtonToggleMs) :
    handleButton s nowState nowMs hw
      = { (if s.g_streaming then
            adsStopStreaming { s with g_lastButtonToggleMs := nowMs, g_pendingBtnFlag := true }
          else
            adsStartStreaming { s with g_lastButtonToggleMs := nowMs, g_pendingBtnFlag := true }
              hw) with g_lastBtnState := nowState } := by
  unfold handleButton
  have h1 : s.g_lastBtnState = true ∧ nowState = false := ⟨h.1, h.2.1⟩
  have h2 : u32Sub nowMs s.g_lastButtonToggleMs > 250 := h.2.2
  simp only [if_pos h1, if_pos h2]

/-- Counterexample to C35 as stated.  In `buttonReleasedState` the last
accepted toggle was at 1000 ms; a HIGH-to-LOW transition at 1250 ms, 250 ms
later, leaves streaming and the flag as they were.  And on a chip that is not
ready and does not answer, a transition that is accepted raises the flag and
leaves streaming false. -/
theorem handleButton_debounce_counterexample :
    buttonReleasedState.g_lastBtnState = true ∧
      buttonReleasedState.g_streaming = false ∧
      buttonReleasedState.g_pendingBtnFlag = false ∧
      u32Sub 1250 buttonReleasedState.g_lastButtonToggleMs = 250 ∧
      (handleButton buttonReleasedState false 1250
        { init := goodChip, nowUs := 1250000 }).g_streaming = false ∧
      (handleButton buttonReleasedState false 1250
        { init := goodChip, nowUs := 1250000 }).g_pendingBtnFlag = false ∧
      fwBoot.g_lastBtnState = true ∧
      fwBoot.g_streaming = false ∧
      u32Sub 1000 fwBoot.g_lastButtonToggleMs = 1000 ∧
      (handleButton fwBoot false 1000 { init := deadChip, nowUs := 1000000 }).g_pendingBtnFlag
        = true ∧
      (handleButton fwBoot false 1000 { init := deadChip, nowUs := 1000000 }).g_streaming
        = false := by
  have h1 := handleButton_reject buttonReleasedState false 1250
    { init := goodChip, nowUs := 1250000 } (by decide)
  have h2 := handleButton_accept fwBoot false 1000 { init := deadChip, nowUs := 1000000 }
    (by decide)
  have hb := adsStartStreaming_button
    { fwBoot with g_lastButtonToggleMs := 1000, g_pendingBtnFlag := true }
    { init := deadChip, nowUs := 1000000 }
  have hdead : ¬ ((adsStartStreaming
      { fwBoot with g_lastButtonToggleMs := 1000, g_pendingBtnFlag := true }
      { init := deadChip, nowUs := 1000000 }).g_streaming = true) := by
    rw [hb.2.2 rfl, adsInitRobust_ok_iff]
    rintro (h | ⟨i, _, h⟩)
    · exact absurd h (by decide)
    · rw [(adsInitOnce_spec _ (deadChip.attempt i)).1] at h
      exact h.1 rfl
  rw [h1, h2, if_neg (by decide)]
  refine ⟨by decide, by decide, by decide, by decide, rfl, rfl, by decide, by decide,
    by decide, hb.1, ?_⟩
  cases hs : (adsStartStreaming
      { fwBoot with g_lastButtonToggleMs := 1000, g_pendingBtnFlag := true }
      { init := deadChip, nowUs := 1000000 }).g_streaming
  · rfl
  · exact absurd hs hdead

/-- C35, amended: `handleButton` always records the sampled level in
`g_lastBtnState`.  A HIGH-to-LOW transition is accepted iff more than 250 ms
(modulo `2^32`) have passed since the last accepted toggle.  An accepted
transition raises `g_pendingBtnFlag` and records the time; it stops the
stream when streaming was true, and otherwise calls `adsStartStreaming()`,
after which streaming is true iff the chip was ready or its initialisation
succeeds.  Any other input leaves streaming, the flag and the recorded time
as they were. -/
theorem handleButton_debounce (s : FwState) (nowState : Bool) (nowMs : Nat) (hw : StartHw) :
    (handleButton s nowState nowMs hw).g_lastBtnState = nowState ∧
      ((s.g_lastBtnState = true ∧ nowState = false
          ∧ 250 < u32Sub nowMs s.g_lastButtonToggleMs) →
        (handleButton s nowState nowMs hw).g_pendingBtnFlag = true ∧
          (handleButton s nowState nowMs hw).g_lastButtonToggleMs = nowMs ∧
          (s.g_streaming = true → (handleButton s nowState nowMs hw).g_streaming = false) ∧
          (s.g_streaming = false →
            ((handleButton s nowState nowMs hw).g_streaming = true
              ↔ s.g_adsReady = true ∨ (adsInitRobust s 3 hw.init).1 = true))) ∧
      (¬(s.g_lastBtnState = true ∧ nowState = false
          ∧ 250 < u32Sub nowMs s.g_lastButtonToggleMs) →
        (handleButton s nowState nowMs hw).g_streaming = s.g_streaming ∧
          (handleButton s nowState nowMs hw).g_pendingBtnFlag = s.g_pendingBtnFlag ∧
          (handleButton s nowState nowMs hw).g_lastButtonToggleMs = s.g_lastButtonToggleMs) := by
  refine ⟨rfl, fun h => ?_, fun h => ?_⟩
  · rw [handleButton_accept s nowState nowMs hw h]
    by_cases hs : s.g_streaming = true
    · have hb := adsStopStreaming_button
        { s with g_lastButtonToggleMs := nowMs, g_pendingBtnFlag := true }
      rw [if_pos hs]
      exact ⟨hb.1, hb.2, fun _ => (adsStopStreaming_fields _).1,
        fun hc => absurd hs (by rw [hc]; decide)⟩
    · have hs0 : s.g_streaming = false := by
        cases h0 : s.g_streaming
        · rfl
        · exact absurd h0 hs
      have hb := adsStartStreaming_button
        { s with g_lastButtonToggleMs := nowMs, g_pendingBtnFlag := true } hw
      rw [if_neg hs]
      refine ⟨hb.1, hb.2.1, fun hc => absurd hc hs, fun _ => ?_⟩
      rw [hb.2.2 hs0, adsInitRobust_ok_indep
        { s with g_lastButtonToggleMs := nowMs, g_pendingBtnFlag := true } s 3 hw.init]
  · rw [handleButton_reject s nowState nowMs hw h]
    exact ⟨rfl, rfl, rfl⟩

/-- Witness of `handleButton_debounce`: in `buttonReleasedState` a HIGH-to-LOW
transition at 1251 ms, 251 ms after the last accepted toggle, raises the flag
and starts the stream on the ready chip. -/
theorem handleButton_debounce_witness :
    u32Sub 1251 buttonReleasedState.g_lastButtonToggleMs = 251 ∧
      (handleButton buttonReleasedState false 1251
        { init := goodChip, nowUs := 1251000 }).g_pendingBtnFlag = true ∧
      (handleButton buttonReleasedState false 1251
        { init := goodChip, nowUs := 1251000 }).g_streaming = true ∧
      (handleButton buttonReleasedState false 1251
        { init := goodChip, nowUs := 1251000 }).g_lastBtnState = false :=
  have h := handleButton_debounce buttonReleasedState false 1251
    { init := goodChip, nowUs := 1251000 }
  ⟨by decide, (h.2.1 (by decide)).1, ((h.2.1 (by decide)).2.2.2 (by decide)).2
    (Or.inl (by decide)), h.1⟩

/-! ## The mode commands -/

/-- The branch MODE BIN of `processCommand`. -/
theorem processCommand_modeBin (s : FwState) (buf : List Nat) (hw : CommandHw)
    (h : (cmdSkipBlanks (buf.takeWhile (fun c => decide (c ≠ 0)))).map cmdUpper
      = cmdText "MODE BIN") :
    processCommand s buf hw
      = serialPrint
          { (if s.g_streaming then adsStopStreaming s else s) with
            g_outputMode := OutputMode.MODE_BIN }
          (SerialLine.text "# OK MODE BIN") := by
  unfold processCommand
  simp only []
  rw [h, if_neg (by decide), if_neg (by decide), if_neg (by decide), if_neg (by decide),
    if_neg (by decide), if_neg (by decide), if_neg (by decide), if_neg (by decide),
    if_neg (by decide), if_pos rfl]

/-- The branch MODE CSV of `processCommand`. -/
theorem processCommand_modeCsv (s : FwState) (buf : List Nat) (hw : CommandHw)
    (h : (cmdSkipBlanks (buf.takeWhile (fun c => decide (c ≠ 0)))).map cmdUpper
      = cmdText "MODE CSV") :
    processCommand s buf hw
      = serialPrint
          (serialPrint
            { (if s.g_streaming then adsStopStreaming s else s) with
              g_outputMode := OutputMode.MODE_CSV }
            (SerialLine.text "# OK MODE CSV"))
          SerialLine.warnCsvDebugOnly := by
  unfold processCommand
  simp only []
  rw [h, if_neg (by decide), if_neg (by decide), if_neg (by decide), if_neg (by decide),
    if_neg (by decide), if_neg (by decide), if_neg (by decide), if_neg (by decide),
    if_neg (by decide), if_neg (by decide), if_pos rfl, if_neg (by decide)]

/-- The conditional stop in front of a mode switch: the stream is off
afterwards and the mode is still the old one. -/
theorem stopIfStreaming_fields (s : FwState) :
    (if s.g_streaming then adsStopStreaming s else s).g_streaming = false ∧
      (if s.g_streaming then adsStopStreaming s else s).g_outputMode = s.g_outputMode ∧
      (s.g_streaming = false → (if s.g_streaming then adsStopStreaming s else s) = s) := by
  by_cases hs : s.g_streaming = true
  · rw [if_pos hs]
    exact ⟨(adsStopStreaming_fields s).1, (adsStopStreaming_fields s).2.1,
      fun hc => absurd hs (by rw [hc]; decide)⟩
  · rw [if_neg hs]
    have hs0 : s.g_streaming = false := by
      cases h0 : s.g_streaming
      · rfl
      · exact absurd h0 hs
    exact ⟨hs0, rfl, fun _ => rfl⟩

/-- C33: mode exclusivity.  When the command, after the leading blanks are
skipped and the letters are upper-cased, is `MODE BIN` or `MODE CSV`,
`processCommand` first stops the stream if it is on (`adsStopStreaming()`,
which reports in the old mode and leaves streaming false), then assigns the
requested mode to a state whose streaming is false, then prints its reply.
After the command streaming is false and the mode is the requested one. -/
theorem mode_exclusivity (s : FwState) (buf : List Nat) (hw : CommandHw) :
    ((cmdSkipBlanks (buf.takeWhile (fun c => decide (c ≠ 0)))).map cmdUpper = cmdText "MODE BIN" →
        processCommand s buf hw
          = serialPrint
              { (if s.g_streaming then adsStopStreaming s else s) with
                g_outputMode := OutputMode.MODE_BIN }
              (SerialLine.text "# OK MODE BIN") ∧
          (processCommand s buf hw).g_streaming = false ∧
          (processCommand s buf hw).g_outputMode = OutputMode.MODE_BIN) ∧
      ((cmdSkipBlanks (buf.takeWhile (fun c => decide (c ≠ 0)))).map cmdUpper
          = cmdText "MODE CSV" →
        processCommand s buf hw
          = serialPrint
              (serialPrint
                { (if s.g_streaming then adsStopStreaming s else s) with
                  g_outputMode := OutputMode.MODE_CSV }
                (SerialLine.text "# OK MODE CSV"))
              SerialLine.warnCsvDebugOnly ∧
          (processCommand s buf hw).g_streaming = false ∧
          (processCommand s buf hw).g_outputMode = OutputMode.MODE_CSV) ∧
      (if s.g_streaming then adsStopStreaming s else s).g_streaming = false ∧
      (if s.g_streaming then adsStopStreaming s else s).g_outputMode = s.g_outputMode ∧
      (s.g_streaming = false → (if s.g_streaming then adsStopStreaming s else s) = s) := by
  have hstop := stopIfStreaming_fields s
  refine ⟨fun h => ?_, fun h => ?_, hstop⟩
  · rw [processCommand_modeBin s buf hw h]
    exact ⟨rfl, hstop.1, rfl⟩
  · rw [processCommand_modeCsv s buf hw h]
    exact ⟨rfl, hstop.1, rfl⟩

/-- Witness of `mode_exclusivity`: the line `  mode csv` received while
`streamingState` streams in binary mode ends with streaming false and the
mode CSV, and the line `MODE BIN` leaves streaming false and the mode
binary. -/
theorem mode_exclusivity_witness :
    streamingState.g_streaming = true ∧
      streamingState.g_outputMode = OutputMode.MODE_BIN ∧
      (processCommand streamingState (cmdText "  mode csv" ++ [0, 65]) demoCommandHw).g_streaming
        = false ∧
      (processCommand streamingState (cmdText "  mode csv" ++ [0, 65])
        demoCommandHw).g_outputMode = OutputMode.MODE_CSV ∧
      (processCommand streamingState (cmdText "MODE BIN") demoCommandHw).g_streaming = false ∧
      (processCommand streamingState (cmdText "MODE BIN") demoCommandHw).g_outputMode
        = OutputMode.MODE_BIN :=
  have h1 := (mode_exclusivity streamingState (cmdText "  mode csv" ++ [0, 65])
    demoCommandHw).2.1 (by decide)
  have h2 := (mode_exclusivity streamingState (cmdText "MODE BIN") demoCommandHw).1 (by decide)
  ⟨by decide, by decide, h1.2.1, h1.2.2, h2.2.1, h2.2.2⟩

/-! ## The sample packet and its declared buffer -/

/-- On an array of 44 bytes the statements of `emitSamplePacket` hand the 44
bytes of `sampleRaw` to the framer. -/
theorem sampleRawChecked_wide (sampleIndex t_us status24 : Nat) (ch1 ch2 ch3 ch4 : Int)
    (flags missedDrdyFrame recoveriesTotal : Nat) :
    sampleRawChecked 44 sampleIndex t_us status24 ch1 ch2 ch3 ch4 flags missedDrdyFrame
      recoveriesTotal
      = some (sampleRaw sampleIndex t_us status24 ch1 ch2 ch3 ch4 flags missedDrdyFrame
          recoveriesTotal) := by
  simp [sampleRawChecked, rawStore, rawRead, memcpy, sampleRaw, pack_u32_le, pack_i32_le,
    pack_u16_le, List.replicate, PKT_SAMPLE, PROTO_VER]

/-- On an array of fewer than 44 bytes the statements of `emitSamplePacket`
leave the array. -/
theorem sampleRawChecked_small (size : Nat) (hsize : size < 44) (sampleIndex t_us status24 : Nat)
    (ch1 ch2 ch3 ch4 : Int) (flags missedDrdyFrame recoveriesTotal : Nat) :
    sampleRawChecked size sampleIndex t_us status24 ch1 ch2 ch3 ch4 flags missedDrdyFrame
      recoveriesTotal = none := by
  simp only [sampleRawChecked, rawStore, rawRead, memcpy_length, pack_u32_le, pack_i32_le,
    pack_u16_le, List.length_replicate, List.length_cons, List.length_nil, Option.bind_eq_bind,
    Option.bind_eq_none, ite_eq_right_iff, reduceCtorEq, imp_false, not_le, Option.ite_none_right_eq_some,
    Option.some.injEq, and_imp, forall_apply_eq_imp_iff₂, forall_apply_eq_imp_iff]
  intros
  omega

/-- On the array that `emitSamplePacket` declares, the store of
`recoveriesTotal` at `raw[38 ..]`, the read of `raw[0 .. 42)` for the CRC and
the store of the CRC at `raw[42 ..]` each leave the array. -/
theorem rawStore_declared (raw : List Nat) (hraw : raw.length = SAMPLE_RAW_DECLARED)
    (v crc : Nat) :
    rawStore raw 38 (pack_u32_le v) = none ∧ rawRead raw 42 = none ∧
      rawStore raw 42 (pack_u16_le crc) = none := by
  simp [rawStore, rawRead, hraw, SAMPLE_RAW_DECLARED, pack_u32_le, pack_u16_le]

/-- Every call of `emitSamplePacket` leaves the array it declares. -/
theorem emitSamplePacketChecked_none (s : FwState) (t_us status24 : Nat)
    (ch1 ch2 ch3 ch4 : Int) (flags missedDrdyFrame recoveriesTotal : Nat) :
    emitSamplePacketChecked s t_us status24 ch1 ch2 ch3 ch4 flags missedDrdyFrame
      recoveriesTotal = none := by
  unfold emitSamplePacketChecked
  rw [sampleRawChecked_small SAMPLE_RAW_DECLARED (by decide)]

/-- The emission with the bounds enforced: in binary mode it leaves the
array, in CSV mode it is the emission of `sampleFrameEmit`. -/
theorem sampleFrameEmitChecked_cases (s : FwState) (l : SampleLocals) :
    (s.g_outputMode = OutputMode.MODE_BIN → sampleFrameEmitChecked s l = none) ∧
      (s.g_outputMode = OutputMode.MODE_CSV →
        sampleFrameEmitChecked s l = some (sampleFrameEmit s l)) := by
  unfold sampleFrameEmitChecked sampleFrameEmit
  cases hm : s.g_outputMode
  · exact ⟨fun _ => emitSamplePacketChecked_none _ _ _ _ _ _ _ _ _ _, fun hc => (by cases hc)⟩
  · exact ⟨fun hc => (by cases hc), fun _ => rfl⟩

/-- With a pending edge `handleOneSampleFrameChecked` parses, emits and, if
the emission stays inside the array, finishes. -/
theorem handleOneSampleFrameChecked_consumed (s : FwState) (spi : List Nat) (procUs : Nat)
    (h : s.drdy.g_drdyFlag = true) :
    handleOneSampleFrameChecked s spi procUs
      = match sampleFrameEmitChecked (sampleFrameOf s spi procUs).2
            (sampleFrameOf s spi procUs).1 with
        | none => none
        | some e => some (true, sampleFrameFinish e.2 e.1) := by
  simp [handleOneSampleFrameChecked, sampleFrameOf, afterFrameRead, consumedSnap,
    capturePendingDrdySnapshot, adsReadDataFrame15, h]

/-- The three cases of `handleOneSampleFrameChecked`: without a pending edge
it returns false and changes nothing; with a pending edge in binary mode it
leaves the array `raw`; with a pending edge in CSV mode it is the call of
`handleOneSampleFrame`. -/
theorem handleOneSampleFrameChecked_cases (s : FwState) (spi : List Nat) (procUs : Nat) :
    (s.drdy.g_drdyFlag = false → handleOneSampleFrameChecked s spi procUs = some (false, s)) ∧
      (s.drdy.g_drdyFlag = true → s.g_outputMode = OutputMode.MODE_BIN →
        handleOneSampleFrameChecked s spi procUs = none) ∧
      (s.drdy.g_drdyFlag = true → s.g_outputMode = OutputMode.MODE_CSV →
        handleOneSampleFrameChecked s spi procUs = some (handleOneSampleFrame s spi procUs)) := by
  have hst := sampleFrameOf_state s spi procUs
  refine ⟨fun h => ?_, fun h hm => ?_, fun h hm => ?_⟩
  · simp [handleOneSampleFrameChecked, capturePendingDrdySnapshot, h]
  · rw [handleOneSampleFrameChecked_consumed s spi procUs h,
      (sampleFrameEmitChecked_cases (sampleFrameOf s spi procUs).2
        (sampleFrameOf s spi procUs).1).1 (hst.2.1.trans hm)]
  · rw [handleOneSampleFrameChecked_consumed s spi procUs h,
      (sampleFrameEmitChecked_cases (sampleFrameOf s spi procUs).2
        (sampleFrameOf s spi procUs).1).2 (hst.2.1.trans hm),
      handleOneSampleFrame_consumed s spi procUs h]

/-- A call of `handleOneSampleFrame` in CSV mode that finds a pending edge:
it returns true, prints one row that starts with the sample index before the
call, increments the index, leaves the ring alone but for the overflow flag,
which it clears, and clears the recovered and the button flag. -/
theorem handleOneSampleFrame_csv (s : FwState) (spi : List Nat) (procUs : Nat)
    (hpend : s.drdy.g_drdyFlag = true) (hcsv : s.g_outputMode = OutputMode.MODE_CSV) :
    (handleOneSampleFrame s spi procUs).1 = true ∧
      (handleOneSampleFrame s spi procUs).2.g_pendingRecoveredFlag = false ∧
      (handleOneSampleFrame s spi procUs).2.g_pendingBtnFlag = false ∧
      (handleOneSampleFrame s spi procUs).2.tx
        = { s.tx with g_pendingTxOverflowFlag := false } ∧
      (handleOneSampleFrame s spi procUs).2.g_sampleIndex = (s.g_sampleIndex + 1) % 2 ^ 32 ∧
      (∃ fields : List Int,
        (handleOneSampleFrame s spi procUs).2.serialOut
          = s.serialOut ++ [SerialLine.csvRow ((s.g_sampleIndex : Int) :: fields)]) := by
  have hst := sampleFrameOf_state s spi procUs
  have hm : (sampleFrameOf s spi procUs).2.g_outputMode = OutputMode.MODE_CSV :=
    hst.2.1.trans hcsv
  have hser : (sampleFrameOf s spi procUs).2.serialOut = s.serialOut := by
    unfold sampleFrameOf sampleFrameParse
    simp only []
    split_ifs <;> rfl
  rw [handleOneSampleFrame_consumed s spi procUs hpend]
  unfold sampleFrameEmit
  rw [hm]
  simp only [sampleFrameFinish, emitCsvFrame, if_true]
  rw [hst.1, hst.2.2.1, hser]
  exact ⟨trivial, trivial, trivial, rfl, rfl, _, rfl⟩

/-! ## Properties of the sample packet and of its buffer -/

/-- C12: `emitSamplePacket` declares its array `raw` with
`SAMPLE_RAW_DECLARED` = 40 bytes and stores 44 bytes through it: the two
header bytes, the ten little-endian 32-bit fields `g_sampleIndex` (its value
before the increment), `t_us`, `status24`, `ch1` .. `ch4` (two's
complement), `flags`, `missedDrdyFrame`, `recoveriesTotal`, and the CRC-16 of
these 42 bytes.  On an array of 44 bytes the statements of the function hand
exactly these bytes to the framer; on every smaller array, the declared one
included, a store or a read leaves the array, for every state and all
arguments. -/
theorem emitSamplePacket_overruns_raw (s : FwState) (t_us status24 : Nat)
    (ch1 ch2 ch3 ch4 : Int) (flags missedDrdyFrame recoveriesTotal : Nat) :
    SAMPLE_RAW_DECLARED = 40 ∧
      (sampleRaw s.g_sampleIndex t_us status24 ch1 ch2 ch3 ch4 flags missedDrdyFrame
          recoveriesTotal).length = 44 ∧
      sampleRawChecked 44 s.g_sampleIndex t_us status24 ch1 ch2 ch3 ch4 flags missedDrdyFrame
          recoveriesTotal
        = some (sampleRaw s.g_sampleIndex t_us status24 ch1 ch2 ch3 ch4 flags missedDrdyFrame
            recoveriesTotal) ∧
      (∀ size, size < 44 →
        sampleRawChecked size s.g_sampleIndex t_us status24 ch1 ch2 ch3 ch4 flags
          missedDrdyFrame recoveriesTotal = none) ∧
      sampleRawChecked SAMPLE_RAW_DECLARED s.g_sampleIndex t_us status24 ch1 ch2 ch3 ch4 flags
          missedDrdyFrame recoveriesTotal = none ∧
      emitSamplePacketChecked s t_us status24 ch1 ch2 ch3 ch4 flags missedDrdyFrame
          recoveriesTotal = none ∧
      (sampleRaw s.g_sampleIndex t_us status24 ch1 ch2 ch3 ch4 flags missedDrdyFrame
          recoveriesTotal).take 42
        = [0x01, 0x01] ++ leBytes 4 s.g_sampleIndex ++ leBytes 4 t_us ++ leBytes 4 status24 ++
            leBytes 4 (ch1 % 2 ^ 32).toNat ++ leBytes 4 (ch2 % 2 ^ 32).toNat ++
            leBytes 4 (ch3 % 2 ^ 32).toNat ++ leBytes 4 (ch4 % 2 ^ 32).toNat ++
            leBytes 4 flags ++ leBytes 4 missedDrdyFrame ++ leBytes 4 recoveriesTotal ∧
      (sampleRaw s.g_sampleIndex t_us status24 ch1 ch2 ch3 ch4 flags missedDrdyFrame
          recoveriesTotal).drop 42
        = leBytes 2 (crc16_ccitt ((sampleRaw s.g_sampleIndex t_us status24 ch1 ch2 ch3 ch4
            flags missedDrdyFrame recoveriesTotal).take 42)) := by
  have hbody := sampleRaw_body_length s.g_sampleIndex t_us status24 ch1 ch2 ch3 ch4 flags
    missedDrdyFrame recoveriesTotal
  refine ⟨rfl, sampleRaw_length _ _ _ _ _ _ _ _ _ _, sampleRawChecked_wide _ _ _ _ _ _ _ _ _ _,
    fun size hsize => sampleRawChecked_small size hsize _ _ _ _ _ _ _ _ _ _,
    sampleRawChecked_small _ (by decide) _ _ _ _ _ _ _ _ _ _,
    emitSamplePacketChecked_none _ _ _ _ _ _ _ _ _ _, ?_, ?_⟩
  · simp only [sampleRaw]
    rw [List.take_left' hbody]
    simp only [pack_i32_le, pack_u32_le_leBytes, toU32, PKT_SAMPLE, PROTO_VER]
    rfl
  · simp only [sampleRaw]
    rw [List.take_left' hbody, List.drop_left' hbody, pack_u16_le_leBytes]

/-- C13: for every packet built by `emitEventPacket` or `emitErrorPacket`,
`crc16_ccitt` recomputed over all raw bytes but the last two is the 16-bit
value stored low byte first in the last two bytes.  Event packets are the 17
bytes `[0x02, 0x01, code, a, b, c, crc]` and error packets the 13 bytes
`[0x7F, 0x01, code, a, b, crc]`.  For the packet of `emitSamplePacket` the
read of `raw[0 .. 42)` for the CRC and the store of the CRC at `raw[42 ..]`
both leave the array that the function declares, and so does the function on
every state and for all arguments. -/
theorem raw_packets_crc_roundtrip (s : FwState) (t_us status24 : Nat) (ch1 ch2 ch3 ch4 : Int)
    (flags missedDrdyFrame recoveriesTotal code a b c crc : Nat) :
    (crc16_ccitt ((eventRaw code a b c).take ((eventRaw code a b c).length - 2))
        = leValue ((eventRaw code a b c).drop ((eventRaw code a b c).length - 2))) ∧
      (crc16_ccitt ((errorRaw code a b).take ((errorRaw code a b).length - 2))
        = leValue ((errorRaw code a b).drop ((errorRaw code a b).length - 2))) ∧
      (eventRaw code a b c).length = 17 ∧
      eventRaw code a b c
        = [0x02, 0x01, code] ++ leBytes 4 a ++ leBytes 4 b ++ leBytes 4 c ++
            leBytes 2 (crc16_ccitt ((eventRaw code a b c).take 15)) ∧
      (errorRaw code a b).length = 13 ∧
      errorRaw code a b
        = [0x7F, 0x01, code] ++ leBytes 4 a ++ leBytes 4 b ++
            leBytes 2 (crc16_ccitt ((errorRaw code a b).take 11)) ∧
      (∀ raw : List Nat, raw.length = SAMPLE_RAW_DECLARED →
        rawRead raw 42 = none ∧ rawStore raw 42 (pack_u16_le crc) = none) ∧
      emitSamplePacketChecked s t_us status24 ch1 ch2 ch3 ch4 flags missedDrdyFrame
          recoveriesTotal = none := by
  refine ⟨crc_trailer _, crc_trailer _, eventRaw_length _ _ _ _, ?_,
    errorRaw_length _ _ _, ?_, fun raw hraw => (rawStore_declared raw hraw 0 crc).2,
    emitSamplePacketChecked_none _ _ _ _ _ _ _ _ _ _⟩
  · have hbody : ([PKT_EVENT, PROTO_VER, code] ++ pack_u32_le a ++ pack_u32_le b ++
        pack_u32_le c).length = 15 := by simp [pack_u32_le]
    simp only [eventRaw]
    rw [List.take_left' hbody]
    simp only [pack_u32_le_leBytes, pack_u16_le_leBytes, PKT_EVENT, PROTO_VER]
  · have hbody : ([PKT_ERROR, PROTO_VER, code] ++ pack_u32_le a ++ pack_u32_le b).length = 11 := by
      simp [pack_u32_le]
    simp only [errorRaw]
    rw [List.take_left' hbody]
    simp only [pack_u32_le_leBytes, pack_u16_le_leBytes, PKT_ERROR, PROTO_VER]

/-! ## Properties of the sample pipeline with the bounds of `raw` enforced -/

/-- C20: a call of `handleOneSampleFrame` that consumes a pending DRDY
snapshot in binary mode runs `emitSamplePacket`, which leaves the array it
declares: with the bounds enforced the call has no result, in `ringFullState`
and in every such state.  In CSV mode the call returns true and the
recovered, the button and the overflow flag are clear afterwards.  The
statements that follow the emission clear the recovered and the button flag
for either value of `emitted` and the overflow flag when `emitted` is true;
a refusal by the framer sets the overflow flag. -/
theorem handleOneSampleFrame_clears_flags (s : FwState) (spi : List Nat) (procUs : Nat) :
    handleOneSampleFrameChecked ringFullState demoFrame 4100 = none ∧
      (s.drdy.g_drdyFlag = true → s.g_outputMode = OutputMode.MODE_BIN →
        handleOneSampleFrameChecked s spi procUs = none) ∧
      (s.drdy.g_drdyFlag = true → s.g_outputMode = OutputMode.MODE_CSV →
        handleOneSampleFrameChecked s spi procUs = some (handleOneSampleFrame s spi procUs) ∧
          (handleOneSampleFrame s spi procUs).1 = true ∧
          (handleOneSampleFrame s spi procUs).2.g_pendingRecoveredFlag = false ∧
          (handleOneSampleFrame s spi procUs).2.g_pendingBtnFlag = false ∧
          (handleOneSampleFrame s spi procUs).2.tx.g_pendingTxOverflowFlag = false) ∧
      (∀ (e : FwState) (emitted : Bool),
        (sampleFrameFinish e emitted).g_pendingRecoveredFlag = false ∧
          (sampleFrameFinish e emitted).g_pendingBtnFlag = false ∧
          (sampleFrameFinish e emitted).tx.g_pendingTxOverflowFlag
            = (if emitted then false else e.tx.g_pendingTxOverflowFlag)) ∧
      (∀ (t : TxState) (raw : List Nat), raw.length ≤ 95 →
        (emitBinaryRawPacket t raw).1 = false →
        (emitBinaryRawPacket t raw).2.g_pendingTxOverflowFlag = true) := by
  have hc := handleOneSampleFrameChecked_cases s spi procUs
  refine ⟨(handleOneSampleFrameChecked_cases ringFullState demoFrame 4100).2.1 (by decide)
    (by decide), hc.2.1, fun hpend hcsv => ?_, fun e emitted => ?_, fun t raw _ hf => ?_⟩
  · have h := handleOneSampleFrame_csv s spi procUs hpend hcsv
    refine ⟨hc.2.2 hpend hcsv, h.1, h.2.1, h.2.2.1, ?_⟩
    rw [h.2.2.2.1]
  · have h := sampleFrameFinish_fields e emitted
    exact ⟨h.1, h.2.1, h.2.2.2.2⟩
  · exact (emitBinaryRawPacket_refusal t raw).2 hf

/-- C21: in binary mode no sample packet is dropped or enqueued by a call
that stays inside the array `raw`.  In `ringFullState` (binary mode, a
pending edge, 2 free bytes in the ring) and in every state in binary mode
with a pending edge, `handleOneSampleFrame` with the bounds of `raw` enforced
has no result.  The flags word that the call composes before the emission
carries bit `0x40` exactly when the overflow flag is pending. -/
theorem overflow_flag_signalling (s : FwState) (spi : List Nat) (procUs : Nat) :
    ringFullState.g_outputMode = OutputMode.MODE_BIN ∧
      ringFullState.drdy.g_drdyFlag = true ∧
      txFreeBytes ringFullState.tx = 2 ∧
      handleOneSampleFrameChecked ringFullState demoFrame 4100 = none ∧
      (s.drdy.g_drdyFlag = true → s.g_outputMode = OutputMode.MODE_BIN →
        handleOneSampleFrameChecked s spi procUs = none) ∧
      ((sampleFrameOf s spi procUs).1.flags &&& 0x40 = 0x40
        ↔ s.tx.g_pendingTxOverflowFlag = true) :=
  ⟨by decide, by decide, by decide,
    (handleOneSampleFrameChecked_cases ringFullState demoFrame 4100).2.1 (by decide) (by decide),
    (handleOneSampleFrameChecked_cases s spi procUs).2.1,
    (sampleFrameOf_flag_bits s spi procUs).2.2.2⟩

/-- Counterexample to C22 as stated: the statements of `handleOneSampleFrame`
that follow the emission, entered with `emitted` false as after a dropped
sample, leave the recovered and the button flag clear, in `ringFullState`,
where both are pending, and in every other state. -/
theorem pending_flags_consumed_counterexample :
    ringFullState.g_pendingRecoveredFlag = true ∧
      ringFullState.g_pendingBtnFlag = true ∧
      (sampleFrameFinish ringFullState false).g_pendingRecoveredFlag = false ∧
      (sampleFrameFinish ringFullState false).g_pendingBtnFlag = false ∧
      (∀ e : FwState, (sampleFrameFinish e false).g_pendingRecoveredFlag = false ∧
        (sampleFrameFinish e false).g_pendingBtnFlag = false) :=
  ⟨by decide, by decide, (sampleFrameFinish_fields ringFullState false).1,
    (sampleFrameFinish_fields ringFullState false).2.1,
    fun e => ⟨(sampleFrameFinish_fields e false).1, (sampleFrameFinish_fields e false).2.1⟩⟩

/-- C22, amended: the recovered and the button flag are consumed by every
handled sample, whatever the outcome of its emission.  A call of
`handleOneSampleFrame` that finds a pending edge puts bit `0x02` (`0x04`)
into the flags word it composes before the emission exactly when the
recovered (button) flag is pending.  The statements that follow the emission
clear both flags for either value of `emitted`; in CSV mode both are clear
after the call.  A sample handled while a flag is clear carries its bit
clear. -/
theorem pending_flags_consumed (s : FwState) (spi : List Nat) (t : Nat)
    (hpend : s.drdy.g_drdyFlag = true) :
    ((sampleFrameOf s spi t).1.flags &&& 0x02 = 0x02 ↔ s.g_pendingRecoveredFlag = true) ∧
      ((sampleFrameOf s spi t).1.flags &&& 0x04 = 0x04 ↔ s.g_pendingBtnFlag = true) ∧
      (∀ (e : FwState) (emitted : Bool),
        (sampleFrameFinish e emitted).g_pendingRecoveredFlag = false ∧
          (sampleFrameFinish e emitted).g_pendingBtnFlag = false) ∧
      (s.g_outputMode = OutputMode.MODE_CSV →
        handleOneSampleFrameChecked s spi t = some (handleOneSampleFrame s spi t) ∧
          (handleOneSampleFrame s spi t).2.g_pendingRecoveredFlag = false ∧
          (handleOneSampleFrame s spi t).2.g_pendingBtnFlag = false) ∧
      (∀ (s1 : FwState) (spi1 : List Nat) (t1 : Nat), s1.g_pendingRecoveredFlag = false →
        (sampleFrameOf s1 spi1 t1).1.flags &&& 0x02 = 0) ∧
      (∀ (s1 : FwState) (spi1 : List Nat) (t1 : Nat), s1.g_pendingBtnFlag = false →
        (sampleFrameOf s1 spi1 t1).1.flags &&& 0x04 = 0) := by
  have hb := sampleFrameOf_flag_bits s spi t
  refine ⟨hb.2.1, hb.2.2.1, fun e emitted => ?_, fun hcsv => ?_,
    fun s1 spi1 t1 => (sampleFrameOf_flag_clear s1 spi1 t1).1,
    fun s1 spi1 t1 => (sampleFrameOf_flag_clear s1 spi1 t1).2.1⟩
  · exact ⟨(sampleFrameFinish_fields e emitted).1, (sampleFrameFinish_fields e emitted).2.1⟩
  · have h := handleOneSampleFrame_csv s spi t hpend hcsv
    exact ⟨(handleOneSampleFrameChecked_cases s spi t).2.2 hpend hcsv, h.2.1, h.2.2.1⟩

/-- Witness of `pending_flags_consumed`: in `csvPendingState` both flags are
pending; the flags word of the handled sample carries both bits and both
flags are clear after the call. -/
theorem pending_flags_consumed_witness :
    csvPendingState.drdy.g_drdyFlag = true ∧
      csvPendingState.g_pendingRecoveredFlag = true ∧
      csvPendingState.g_pendingBtnFlag = true ∧
      (sampleFrameOf csvPendingState demoFrame 4100).1.flags &&& 0x02 = 0x02 ∧
      (sampleFrameOf csvPendingState demoFrame 4100).1.flags &&& 0x04 = 0x04 ∧
      (handleOneSampleFrame csvPendingState demoFrame 4100).2.g_pendingRecoveredFlag = false ∧
      (handleOneSampleFrame csvPendingState demoFrame 4100).2.g_pendingBtnFlag = false :=
  have h := pending_flags_consumed csvPendingState demoFrame 4100 (by decide)
  ⟨by decide, by decide, by decide, h.1.2 (by decide), h.2.1.2 (by decide),
    (h.2.2.2.1 (by decide)).2.1, (h.2.2.2.1 (by decide)).2.2⟩

/-- C32: in CSV mode every sample emission increments `g_sampleIndex` by 1
modulo `2^32` and prints the value before the increment as the first field
of its row, leaving the ring alone.  In binary mode `emitSamplePacket` stores
the value before the increment at `raw[2 .. 5]`, low byte first, and then
leaves the array it declares: with the bounds enforced the call has no
result, at boot and on every state and for all arguments. -/
theorem sample_index_increments (s : FwState) (t_us status24 : Nat) (ch1 ch2 ch3 ch4 : Int)
    (flags missed recoveries : Nat) (t2 p2 i2 st2 : Nat) (c1 c2 c3 c4 u1 u2 u3 u4 : Int)
    (f2 m2 mt2 r2 : Nat) :
    emitSamplePacketChecked fwBoot 4000 0xC00000 1 2 3 4 1 0 0 = none ∧
      emitSamplePacketChecked s t_us status24 ch1 ch2 ch3 ch4 flags missed recoveries = none ∧
      ((sampleRaw s.g_sampleIndex t_us status24 ch1 ch2 ch3 ch4 flags missed
          recoveries).drop 2).take 4 = pack_u32_le s.g_sampleIndex ∧
      leValue (pack_u32_le s.g_sampleIndex) = s.g_sampleIndex % 2 ^ 32 ∧
      (emitCsvFrame s t2 p2 i2 st2 c1 c2 c3 c4 u1 u2 u3 u4 f2 m2 mt2 r2).g_sampleIndex
        = (s.g_sampleIndex + 1) % 2 ^ 32 ∧
      (emitCsvFrame s t2 p2 i2 st2 c1 c2 c3 c4 u1 u2 u3 u4 f2 m2 mt2 r2).serialOut
        = s.serialOut ++ [SerialLine.csvRow
            [(s.g_sampleIndex : Int), t2, p2, i2, st2, c1, c2, c3, c4, u1, u2, u3, u4, f2, m2,
              mt2, r2]] ∧
      (emitCsvFrame s t2 p2 i2 st2 c1 c2 c3 c4 u1 u2 u3 u4 f2 m2 mt2 r2).tx = s.tx := by
  have hidx := sampleRaw_index s.g_sampleIndex t_us status24 ch1 ch2 ch3 ch4 flags missed
    recoveries
  exact ⟨emitSamplePacketChecked_none _ _ _ _ _ _ _ _ _ _,
    emitSamplePacketChecked_none _ _ _ _ _ _ _ _ _ _, hidx.1, hidx.2, rfl, rfl, rfl⟩

/-- C34: a call of `handleOneSampleFrame` without a pending edge returns
false and leaves the whole state, every counter and flag included, as it
was.  With a pending edge in CSV mode it prints one row and leaves the ring
alone but for the overflow flag; no edge is pending afterwards, so a further
call, with no edge among the steps in between, returns false and changes
nothing.  With a pending edge in binary mode the call runs
`emitSamplePacket`, which leaves the array it declares: with the bounds
enforced it has no result, in `edgePendingState` and in every such state. -/
theorem one_emit_per_drdy (s : FwState) (spi : List Nat) (procUs : Nat) (mid : List LoopOp)
    (spi2 : List Nat) (procUs2 : Nat) :
    handleOneSampleFrameChecked edgePendingState demoFrame 4100 = none ∧
      (s.drdy.g_drdyFlag = false → handleOneSampleFrameChecked s spi procUs = some (false, s)) ∧
      (s.drdy.g_drdyFlag = true → s.g_outputMode = OutputMode.MODE_BIN →
        handleOneSampleFrameChecked s spi procUs = none) ∧
      (s.drdy.g_drdyFlag = true → s.g_outputMode = OutputMode.MODE_CSV →
        handleOneSampleFrameChecked s spi procUs = some (handleOneSampleFrame s spi procUs) ∧
          (handleOneSampleFrame s spi procUs).2.tx
            = { s.tx with g_pendingTxOverflowFlag := false } ∧
          (∃ fields : List Int,
            (handleOneSampleFrame s spi procUs).2.serialOut
              = s.serialOut ++ [SerialLine.csvRow ((s.g_sampleIndex : Int) :: fields)]) ∧
          (handleOneSampleFrame s spi procUs).2.drdy.g_drdyFlag = false ∧
          ((∀ op ∈ mid, ∀ t : Nat, op ≠ LoopOp.edge t) →
            handleOneSampleFrameChecked (loopRun (handleOneSampleFrame s spi procUs).2 mid).2
                spi2 procUs2
              = some (false, (loopRun (handleOneSampleFrame s spi procUs).2 mid).2))) := by
  have hc := handleOneSampleFrameChecked_cases s spi procUs
  refine ⟨(handleOneSampleFrameChecked_cases edgePendingState demoFrame 4100).2.1 (by decide)
    (by decide), hc.1, hc.2.1, fun hpend hcsv => ?_⟩
  have h := handleOneSampleFrame_csv s spi procUs hpend hcsv
  refine ⟨hc.2.2 hpend hcsv, h.2.2.2.1, h.2.2.2.2.2, handleOneSampleFrame_flag s spi procUs,
    fun hmid => ?_⟩
  apply (handleOneSampleFrameChecked_cases _ spi2 procUs2).1
  rw [loopRun_noedge mid _ hmid]
  exact handleOneSampleFrame_flag s spi procUs

end EEGFrontier
